import Mathlib

/-!
Game-object script adapter, sprite components and the engine loop.

A shallow embedding of
* `engine/gameobject/src/gameobject/gameobject_script.cpp` (script loading, reloading, `go.property`,
  script instances and the script functions that address game objects),
* `gamesys/src/gamesys/components/comp_sprite2.cpp` (sprite components, their update and messages),
* `engine/gamesys/src/gamesys/resources/res_tileset.cpp` (the tile-set resource),
* `src/engine.cpp` (the frame loop and the engine's message handler),
followed by the theorems that settle the properties stated about them.

Conventions.  C++ objects reached through pointers live in an explicit heap indexed by
their address; `0` is the null pointer.  Numbers of type `float`, `double` and `lua_Number`
are only copied by the code modelled here, never computed with, except where a definition
says otherwise; they are carried as exact numbers.
-/

namespace dmGameObject

/-! ## Lua values and the Lua state -/

/-- Modelled from the spec: Lua numbers (`lua_Number` of the Lua runtime, an external collaborator whose
code is not among the sources); the script adapter only copies them. -/
abbrev lua_Number := Int

/-- Modelled from the spec: identifiers are 64-bit hashes (`dmhash_t` of dlib, not among the
sources). -/
abbrev dmhash_t := Nat

/-- Modelled from the spec: the values of the script library that a property can take (url, hash,
vector3, vector4, quaternion), and the script instance.  Content of a full userdata block created by the script library (`dmScript`) or by
`NewScriptInstance`. -/
inductive Userdata where
  | url (socket : Nat) (path : dmhash_t) (fragment : dmhash_t)
  | hash (h : dmhash_t)
  | vector3 (x y z : lua_Number)
  | vector4 (x y z w : lua_Number)
  | quat (x y z w : lua_Number)
  | scriptInstance
  deriving DecidableEq, Repr

/-- Modelled from the spec: the values of the scripting runtime, an external collaborator whose code is
not among the sources.  Lua values as the C API sees them.  A full userdata carries the address of its block,
which is what `lua_touserdata` returns for it. -/
inductive LuaValue where
  | nil
  | boolean (b : Bool)
  | number (n : lua_Number)
  | string (s : String)
  | table (id : Nat)
  | function (id : Nat)
  | lightuserdata (p : Nat)
  | userdata (block : Nat) (content : Userdata)
  deriving DecidableEq, Repr

/-- Modelled from the spec: the constant `LUA_NOREF` of the Lua runtime (`lauxlib.h`, not among the
sources), the reference that stands for no object. -/
def LUA_NOREF : Int := -2

/-- Modelled from the spec: the constant `LUA_REFNIL` of the Lua runtime (`lauxlib.h`, not among the
sources), the reference `luaL_ref` returns for `nil`. -/
def LUA_REFNIL : Int := -1

/-- Modelled from the spec: the registry of the Lua runtime (not among the sources).  The registry table as `luaL_ref` uses it: the values stored under integer keys, the list of
released keys (most recently released first) and the number of keys created so far. -/
structure Registry where
  slots : Nat → LuaValue
  free : List Nat
  size : Nat

/-- Modelled from the spec: the state of the Lua runtime (not among the sources), here `g_LuaState`: the
table of globals and the registry. -/
structure lua_State where
  globals : String → LuaValue
  registry : Registry

/-- Modelled from the spec: `lua_getglobal` of the Lua runtime (not among the sources) followed by
inspecting the top of the stack: reads a global. -/
def lua_getglobal (L : lua_State) (name : String) : LuaValue :=
  L.globals name

/-- Modelled from the spec: `lua_setglobal` of the Lua runtime (not among the sources), also
`lua_rawset(L, LUA_GLOBALSINDEX)`: writes a global. -/
def lua_setglobal (L : lua_State) (name : String) (v : LuaValue) : lua_State :=
  { L with globals := fun k => if k = name then v else L.globals k }

/-- Modelled from the spec: `lua_rawgeti(L, LUA_REGISTRYINDEX, ref)` of the Lua runtime (not among the
sources): reads the registry. -/
def lua_rawgeti (L : lua_State) (ref : Int) : LuaValue :=
  if 0 ≤ ref then L.registry.slots ref.toNat else LuaValue.nil

/-- Modelled from the spec: `luaL_ref` of the Lua runtime (not among the sources).  Creates a registry
reference to `v`, as `luaL_ref(L, LUA_REGISTRYINDEX)` of Lua 5.1 does:
`nil` gets the fixed reference `LUA_REFNIL`; otherwise the first key of the free list is
reused, or a new key is created after the last one. -/
def luaL_ref (L : lua_State) (v : LuaValue) : Int × lua_State :=
  if v = LuaValue.nil then (LUA_REFNIL, L)
  else
    match L.registry.free with
    | r :: rest =>
      ((r : Int), { L with registry :=
        { L.registry with
          slots := fun k => if k = r then v else L.registry.slots k, free := rest } })
    | [] =>
      (((L.registry.size + 1 : Nat) : Int), { L with registry :=
        { L.registry with
          slots := fun k => if k = L.registry.size + 1 then v else L.registry.slots k,
          size := L.registry.size + 1 } })

/-- Modelled from the spec: `lua_touserdata` of the Lua runtime (not among the sources): the pointer
stored in a value, null (`0`) for everything but userdata. -/
def lua_touserdata : LuaValue → Nat
  | LuaValue.lightuserdata p => p
  | LuaValue.userdata block _ => block
  | _ => 0

/-- Modelled from the spec: `lua_typename(L, lua_type(L, idx))` of the Lua runtime (not among the
sources): the type name of an argument that may be absent. -/
def lua_typename : Option LuaValue → String
  | none => "no value"
  | some LuaValue.nil => "nil"
  | some (LuaValue.boolean _) => "boolean"
  | some (LuaValue.number _) => "number"
  | some (LuaValue.string _) => "string"
  | some (LuaValue.table _) => "table"
  | some (LuaValue.function _) => "function"
  | some (LuaValue.lightuserdata _) => "userdata"
  | some (LuaValue.userdata _ _) => "userdata"

/-! ## Arrays, property definitions, scripts -/

/-- Modelled from the spec: the array type `dmArray<T>` of dlib (`array.h` is not among the sources): its
elements, in order, and its capacity. -/
structure dmArray (α : Type) where
  data : List α
  capacity : Nat
  wf : data.length ≤ capacity

namespace dmArray

variable {α : Type}

/-- Modelled from the spec: a new `dmArray` after `SetCapacity(0)`. -/
def empty : dmArray α := ⟨[], 0, Nat.le_refl _⟩

/-- Modelled from the spec: the number of elements of a `dmArray` (`Size`). -/
def Size (a : dmArray α) : Nat := a.data.length

/-- Modelled from the spec: the capacity of a `dmArray` (`Capacity`). -/
def Capacity (a : dmArray α) : Nat := a.capacity

/-- Modelled from the spec: the free room of a `dmArray` (`Remaining`). -/
def Remaining (a : dmArray α) : Nat := a.capacity - a.data.length

/-- Modelled from the spec: whether a `dmArray` has no free room (`Full`). -/
def Full (a : dmArray α) : Bool := a.data.length == a.capacity

/-- Modelled from the spec: `OffsetCapacity` of `dmArray`, which changes the capacity by an offset (here
only: a non-negative one). -/
def OffsetCapacity (a : dmArray α) (n : Nat) : dmArray α :=
  ⟨a.data, a.capacity + n, Nat.le_trans a.wf (Nat.le_add_right _ _)⟩

/-- Modelled from the spec: `Push` of `dmArray`, which appends an element.  dlib asserts `Capacity() - Size() > 0`; an array on which the
assertion fails is left as it is, so that an append that happened shows in `data`. -/
def Push (a : dmArray α) (x : α) : dmArray α :=
  if h : a.data.length < a.capacity then
    ⟨a.data ++ [x], a.capacity, by simpa using h⟩
  else a

/-- Modelled from the spec: `Swap` of `dmArray`, which exchanges the contents of two arrays: `a.Swap(b)`
leaves `(b, a)` in `(a, b)`. -/
def Swap (a b : dmArray α) : dmArray α × dmArray α := (b, a)

end dmArray

/-- Modelled from the spec: the type tags of a property definition, number, hash, url, vector3, vector4,
quaternion (`dmGameObjectDDF::PropertyType`, declared outside the sources). -/
inductive PropertyType where
  | PROPERTY_TYPE_NUMBER
  | PROPERTY_TYPE_HASH
  | PROPERTY_TYPE_URL
  | PROPERTY_TYPE_VECTOR3
  | PROPERTY_TYPE_VECTOR4
  | PROPERTY_TYPE_QUAT
  deriving DecidableEq, Repr

/-- Modelled from the spec: the default value of a property definition.  The union of default values inside `PropertyDef`: `m_Number`, `m_URL`, `m_Hash`, or the
components of `m_V4` that `go.property` writes (three for a vector3, four otherwise). -/
inductive PropertyValue where
  | m_Number (n : lua_Number)
  | m_URL (socket : Nat) (path : dmhash_t) (fragment : dmhash_t)
  | m_Hash (h : dmhash_t)
  | m_V4 (components : List lua_Number)
  deriving DecidableEq, Repr

/-- Modelled from the spec: a property definition (name, type tag, default value), with the hashed name
the code keeps beside it (`PropertyDef`, declared outside the sources). -/
structure PropertyDef where
  m_Name : String
  m_Id : dmhash_t
  m_Type : PropertyType
  m_Value : PropertyValue
  deriving DecidableEq, Repr

/-- Modelled from the spec: a property store (`Properties`, declared outside the sources): the serialised
bytes last handed to `SetProperties`. -/
structure Properties where
  m_Buffer : List Nat
  deriving DecidableEq, Repr

/-- Modelled from the spec: `NewProperties()` (defined outside the sources), a fresh, empty store. -/
def NewProperties : Properties := ⟨[]⟩

/-- Modelled from the spec: `SetProperties(properties, buffer, size)` (defined outside the sources), which
stores the first `size` bytes of `buffer`. -/
def SetProperties (_properties : Properties) (buffer : List Nat) (size : Nat) : Properties :=
  ⟨buffer.take size⟩

/-- Modelled from the spec: the number of callbacks of a script, six (`MAX_SCRIPT_FUNCTION_COUNT`, declared
outside the sources; `SCRIPT_FUNCTION_NAMES` has six initialisers). -/
def MAX_SCRIPT_FUNCTION_COUNT : Nat := 6

/-- Names of the callbacks, by slot. -/
def SCRIPT_FUNCTION_NAMES : Fin 6 → String
  | 0 => "init"
  | 1 => "final"
  | 2 => "update"
  | 3 => "on_message"
  | 4 => "on_input"
  | 5 => "on_reload"

/-- Modelled from the spec: the name of the global holding the script under load.  The macro is defined in
`gameobject_script.h`; all that is used of it is that it is none of the callback names. -/
def SCRIPT_NAME : String := "__script__"

/-- Modelled from the spec: a compiled script with its six callback slots, its property definitions, those
of before the last reload, and its default property store (`Script`, declared outside the
sources). -/
structure Script where
  m_FunctionReferences : Fin 6 → Int
  m_PropertyDefs : dmArray PropertyDef
  m_OldPropertyDefs : dmArray PropertyDef
  m_Properties : Properties

/-- Functions of other libraries that the script adapter calls and whose results it only
passes on. -/
structure Collaborators where
  /-- `dmHashString64` of dlib. -/
  dmHashString64 : String → dmhash_t
  /-- Numeric reading of a string, when it has one (`luaO_str2d`, used by `lua_isnumber`
  and `lua_tonumber`). -/
  luaO_str2d : String → Option lua_Number
  /-- Text of a number (`lua_number2str`, used by `luaL_checkstring`). -/
  lua_number2str : lua_Number → String
  /-- All bytes `SerializeProperties` produces for a list of definitions; the value it
  returns is their count and a buffer that is large enough receives them. -/
  SerializeProperties : List PropertyDef → List Nat

/-- The Lua state together with the scripts it can reach through light userdata. -/
structure World where
  L : lua_State
  heap : Nat → Script

/-- Replaces the script at an address. -/
def World.store (w : World) (script : Nat) (s : Script) : World :=
  { w with heap := fun a => if a = script then s else w.heap a }

/-- Changes the script at an address. -/
def World.modify (w : World) (script : Nat) (f : Script → Script) : World :=
  w.store script (f (w.heap script))

/-! ## `go.property` -/

/-- Outcome of a call into Lua-visible code: it returns, or it raises a Lua error.  Either way
the state it leaves is kept. -/
inductive CallResult where
  | returned (w : World)
  | raised (msg : String) (w : World)

/-- The state a call leaves. -/
def CallResult.state : CallResult → World
  | CallResult.returned w => w
  | CallResult.raised _ w => w

/-- The message of the error a call raised, if it raised one. -/
def CallResult.error? : CallResult → Option String
  | CallResult.returned _ => none
  | CallResult.raised msg _ => some msg

/-- Modelled from the spec: `luaL_checkstring` of the Lua runtime (not among the sources).  The string an argument stands for: `luaL_checkstring`, which takes strings and numbers
and raises an error (`none`) for anything else, an absent argument included. -/
def luaL_checkstring (env : Collaborators) : Option LuaValue → Option String
  | some (LuaValue.string s) => some s
  | some (LuaValue.number n) => some (env.lua_number2str n)
  | _ => none

/-- Modelled from the spec: `lua_isnumber` of the Lua runtime (not among the sources): whether an argument
is a number or a string convertible to a number. -/
def lua_isnumber (env : Collaborators) : Option LuaValue → Bool
  | some (LuaValue.number _) => true
  | some (LuaValue.string s) => (env.luaO_str2d s).isSome
  | _ => false

/-- Modelled from the spec: `lua_tonumber` of the Lua runtime (not among the sources): the number an
argument stands for, `0` when it stands for none. -/
def lua_tonumber (env : Collaborators) : Option LuaValue → lua_Number
  | some (LuaValue.number n) => n
  | some (LuaValue.string s) => (env.luaO_str2d s).getD 0
  | _ => 0

/-- Modelled from the spec: the userdata tests of the script library (`dmScript::IsURL` and its siblings,
not among the sources): they look at
the content of a full userdata. -/
def content? : Option LuaValue → Option Userdata
  | some (LuaValue.userdata _ c) => some c
  | _ => none

/-- The type tag and default that `Script_Property` derives from its second argument, in the
order of its `if`-chain; `none` when `valid_type` stays false. -/
def propertyDefault (env : Collaborators) (value : Option LuaValue) :
    Option (PropertyType × PropertyValue) :=
  if lua_isnumber env value then
    some (PropertyType.PROPERTY_TYPE_NUMBER, PropertyValue.m_Number (lua_tonumber env value))
  else
    match content? value with
    | some (Userdata.url s p f) => some (PropertyType.PROPERTY_TYPE_URL, PropertyValue.m_URL s p f)
    | some (Userdata.hash h) => some (PropertyType.PROPERTY_TYPE_HASH, PropertyValue.m_Hash h)
    | some (Userdata.vector3 x y z) =>
      some (PropertyType.PROPERTY_TYPE_VECTOR3, PropertyValue.m_V4 [x, y, z])
    | some (Userdata.vector4 x y z t) =>
      some (PropertyType.PROPERTY_TYPE_VECTOR4, PropertyValue.m_V4 [x, y, z, t])
    | some (Userdata.quat x y z t) =>
      some (PropertyType.PROPERTY_TYPE_QUAT, PropertyValue.m_V4 [x, y, z, t])
    | _ => none

/-- The Lua function `go.property`, called with the arguments `args`. -/
def Script_Property (env : Collaborators) (w : World) (args : List LuaValue) : CallResult :=
  let script := lua_touserdata (lua_getglobal w.L SCRIPT_NAME)
  if script = 0 then
    CallResult.raised "go.property can only be called outside the functions." w
  else
    match luaL_checkstring env (args.get? 0) with
    | none => CallResult.raised "bad argument #1 to 'property' (string expected)" w
    | some id =>
      let w1 :=
        if (w.heap script).m_PropertyDefs.Full then
          w.modify script (fun s => { s with m_PropertyDefs := s.m_PropertyDefs.OffsetCapacity 8 })
        else w
      match propertyDefault env (args.get? 1) with
      | some (ty, val) =>
        CallResult.returned (w1.modify script (fun s =>
          { s with m_PropertyDefs :=
              s.m_PropertyDefs.Push ⟨id, env.dmHashString64 id, ty, val⟩ }))
      | none =>
        CallResult.raised
          ("Invalid type (" ++ lua_typename (args.get? 1) ++
            ") supplied to go.property, must be either a number, hash or URL.") w1

/-! ## Script sources

Of a script's source the adapter observes whether `lua_load` accepts it and what running the
compiled chunk does to the globals and, through `go.property`, to the script under load.  A
chunk is given by the actions its top level performs, in order, each with the values it is
performed with: assignments to globals, calls of `go.property` (protected or not) and
`error`. -/

/-- Modelled from the spec: the script source, whose language is outside the specification.  Top-level
actions of a chunk. -/
inductive Stmt where
  /-- Assignment to a global, `name = v`; `function name(...) ... end` assigns a function. -/
  | assign (name : String) (v : LuaValue)
  /-- The call `go.property(args)`. -/
  | property (args : List LuaValue)
  /-- The protected call `pcall(go.property, args)`: an error it raises is caught. -/
  | pcall_property (args : List LuaValue)
  /-- The call `error(msg)`. -/
  | error (msg : String)
  deriving DecidableEq, Repr

/-- Modelled from the spec: a script buffer, which is text that `lua_load` rejects or the chunk it
compiles to. -/
inductive LuaSource where
  | malformed (msg : String)
  | chunk (body : List Stmt)
  deriving DecidableEq, Repr

/-- Modelled from the spec: `lua_load(L, &ReadScript, &data, filename)` of the Lua runtime (not among the
sources), which compiles a buffer. -/
def lua_load : LuaSource → Option (List Stmt)
  | LuaSource.malformed _ => none
  | LuaSource.chunk body => some body

/-- Modelled from the spec: `lua_pcall(L, 0, LUA_MULTRET, 0)` of the Lua runtime (not among the sources),
which runs a chunk.  An error ends the run; what was done
before it stays done. -/
def exec (env : Collaborators) : List Stmt → World → CallResult
  | [], w => CallResult.returned w
  | Stmt.assign name v :: rest, w => exec env rest { w with L := lua_setglobal w.L name v }
  | Stmt.property args :: rest, w =>
    match Script_Property env w args with
    | CallResult.returned w1 => exec env rest w1
    | CallResult.raised msg w1 => CallResult.raised msg w1
  | Stmt.pcall_property args :: rest, w =>
    match Script_Property env w args with
    | CallResult.returned w1 => exec env rest w1
    | CallResult.raised _ w1 => exec env rest w1
  | Stmt.error msg :: _, w => CallResult.raised msg w

/-! ## Loading, creating and reloading scripts -/

/-- The callback slots in the order the loops of `LoadScript` visit them. -/
def allSlots : List (Fin 6) := [0, 1, 2, 3, 4, 5]

/-- The loop of `LoadScript` that binds the callbacks, from slot `i` on: a function is
referenced from the registry, `nil` leaves `LUA_NOREF`, anything else leaves the loop for
`bail` with result `false`. -/
def bindCallbacks (script : Nat) : List (Fin 6) → World → Bool × World
  | [], w => (true, w)
  | i :: rest, w =>
    match lua_getglobal w.L (SCRIPT_FUNCTION_NAMES i) with
    | LuaValue.nil =>
      bindCallbacks script rest (w.modify script (fun s =>
        { s with m_FunctionReferences := fun j => if j = i then LUA_NOREF else s.m_FunctionReferences j }))
    | LuaValue.function f =>
      let r := luaL_ref w.L (LuaValue.function f)
      bindCallbacks script rest (({ w with L := r.2 } : World).modify script (fun s =>
        { s with m_FunctionReferences := fun j => if j = i then r.1 else s.m_FunctionReferences j }))
    | _ => (false, w)

/-- The loop at the label `bail`: every callback global is set to `nil`. -/
def resetCallbacks : List (Fin 6) → World → World
  | [], w => w
  | i :: rest, w =>
    resetCallbacks rest { w with L := lua_setglobal w.L (SCRIPT_FUNCTION_NAMES i) LuaValue.nil }

/-- Loads `buffer` into the script at address `script`: `LoadScript`. -/
def LoadScript (env : Collaborators) (w : World) (buffer : LuaSource) (script : Nat) :
    Bool × World :=
  let w0 := w.modify script (fun s => { s with m_FunctionReferences := fun _ => LUA_NOREF })
  match lua_load buffer with
  | some body =>
    let w1 : World := { w0 with L := lua_setglobal w0.L SCRIPT_NAME (LuaValue.lightuserdata script) }
    match exec env body w1 with
    | CallResult.returned w2 =>
      match bindCallbacks script allSlots w2 with
      | (true, w3) =>
        (true, resetCallbacks allSlots { w3 with L := lua_setglobal w3.L SCRIPT_NAME LuaValue.nil })
      | (false, w3) => (false, resetCallbacks allSlots w3)
    | CallResult.raised _ w2 =>
      (false, resetCallbacks allSlots { w2 with L := lua_setglobal w2.L SCRIPT_NAME LuaValue.nil })
  | none => (false, resetCallbacks allSlots w0)

/-- Serialises the definitions into a store: `LoadProperties`, with its local buffer of 1024
bytes. -/
def LoadProperties (env : Collaborators) (property_defs : dmArray PropertyDef)
    (out_properties : Properties) : Bool × Properties :=
  if property_defs.Size = 0 then (true, out_properties)
  else
    let buffer_size := 1024
    let actual := (env.SerializeProperties property_defs.data).length
    if buffer_size < actual then (false, out_properties)
    else
      (true, SetProperties out_properties
        ((env.SerializeProperties property_defs.data).take buffer_size) actual)

/-- The object `NewScript` starts from: `new Script()` returned the address `script` and both
definition arrays were given capacity 0. -/
def newScriptObject (w : World) (script : Nat) : World :=
  w.modify script (fun s =>
    { s with m_PropertyDefs := dmArray.empty, m_OldPropertyDefs := dmArray.empty })

/-- Creates a script from `buffer`: `NewScript`.  `script` is the address `new Script()`
returns; the result is that address, or null after the object was deleted again (what a
deleted object leaves at its address is kept, it has no meaning). -/
def NewScript (env : Collaborators) (w : World) (buffer : LuaSource) (script : Nat) :
    Nat × World :=
  match LoadScript env (newScriptObject w script) buffer script with
  | (false, w1) => (0, w1)
  | (true, w1) =>
    let w2 := w1.modify script (fun s => { s with m_Properties := NewProperties })
    match LoadProperties env (w2.heap script).m_PropertyDefs (w2.heap script).m_Properties with
    | (false, _) => (0, w2)
    | (true, props) => (script, w2.modify script (fun s => { s with m_Properties := props }))

/-- Reloads the script at address `script` from `buffer`: `ReloadScript`.  Freeing the names
of the previous definitions and `DeletePropertyDefs` on the local array change no value
that is kept. -/
def ReloadScript (env : Collaborators) (w : World) (script : Nat) (buffer : LuaSource) :
    Bool × World :=
  let tmp_old_property_defs : dmArray PropertyDef := dmArray.empty
  let swapped := tmp_old_property_defs.Swap (w.heap script).m_PropertyDefs
  let w1 := w.modify script (fun s => { s with m_PropertyDefs := swapped.2 })
  let loaded := LoadScript env w1 buffer script
  let stored : Bool × World :=
    if loaded.1 then
      let r := LoadProperties env (loaded.2.heap script).m_PropertyDefs
        (loaded.2.heap script).m_Properties
      (r.1, loaded.2.modify script (fun s => { s with m_Properties := r.2 }))
    else (false, loaded.2)
  if stored.1 then
    let back := swapped.1.Swap (stored.2.heap script).m_OldPropertyDefs
    (true, stored.2.modify script (fun s => { s with m_OldPropertyDefs := back.2 }))
  else
    let back := swapped.1.Swap (stored.2.heap script).m_PropertyDefs
    (false, stored.2.modify script (fun s => { s with m_PropertyDefs := back.2 }))

/-- Loads scripts one after another into the shared Lua state, each into the script at the
address given with it. -/
def loadAll (env : Collaborators) : List (LuaSource × Nat) → World → World
  | [], w => w
  | (buffer, script) :: rest, w => loadAll env rest (LoadScript env w buffer script).2

/-- Two states agree on the fields of every script that `go.property` never writes: the
callback slots, the previous definitions and the default store. -/
def Untouched (w w1 : World) : Prop :=
  ∀ a, (w1.heap a).m_FunctionReferences = (w.heap a).m_FunctionReferences ∧
    (w1.heap a).m_OldPropertyDefs = (w.heap a).m_OldPropertyDefs ∧
    (w1.heap a).m_Properties = (w.heap a).m_Properties

/-- Two states agree on the definitions and stores of every script: what binding the callbacks
leaves alone. -/
def SameProperties (w w1 : World) : Prop :=
  ∀ a, (w1.heap a).m_PropertyDefs = (w.heap a).m_PropertyDefs ∧
    (w1.heap a).m_OldPropertyDefs = (w.heap a).m_OldPropertyDefs ∧
    (w1.heap a).m_Properties = (w.heap a).m_Properties

/-- A registry whose free list has no repetition and holds only keys created so far. -/
def Registry.WellFormed (r : Registry) : Prop :=
  r.free.Nodup ∧ ∀ k ∈ r.free, k ≤ r.size

/-- A registry key that is in use: created and not on the free list. -/
def Registry.InUse (r : Registry) (k : Nat) : Prop :=
  k ≤ r.size ∧ k ∉ r.free

/-- Whether a value is a function (`lua_type(L, -1) == LUA_TFUNCTION`). -/
def isFunction : LuaValue → Bool
  | LuaValue.function _ => true
  | _ => false

/-- The value a chunk's top level last assigns to the global `name`, if it assigns one. -/
def lastAssigned : List Stmt → String → Option LuaValue
  | [], _ => none
  | Stmt.assign n v :: rest, name =>
    match lastAssigned rest name with
    | some x => some x
    | none => if n = name then some v else none
  | Stmt.property _ :: rest, name => lastAssigned rest name
  | Stmt.pcall_property _ :: rest, name => lastAssigned rest name
  | Stmt.error _ :: rest, name => lastAssigned rest name

/-- Whether a chunk itself defines a global function called `name`. -/
def definesFunction (body : List Stmt) (name : String) : Bool :=
  match lastAssigned body name with
  | some v => isFunction v
  | none => false

/-- The state in which `LoadScript` runs the compiled chunk: the slots of the script are
cleared and the global `SCRIPT_NAME` refers to the script. -/
def chunkEntry (w : World) (script : Nat) : World :=
  { w.modify script (fun s => { s with m_FunctionReferences := fun _ => LUA_NOREF }) with
    L := lua_setglobal w.L SCRIPT_NAME (LuaValue.lightuserdata script) }

/-- The definition a call `go.property(args)` adds to the script under load, if the call is
accepted: the name, its hash, and the tag and default derived from the value. -/
def declared (env : Collaborators) (args : List LuaValue) : Option PropertyDef :=
  match luaL_checkstring env (args.get? 0), propertyDefault env (args.get? 1) with
  | some id, some (ty, val) => some ⟨id, env.dmHashString64 id, ty, val⟩
  | _, _ => none

/-- The property definitions a chunk's top level declares, in order. -/
def declarations (env : Collaborators) : List Stmt → List PropertyDef
  | [] => []
  | Stmt.assign _ _ :: rest => declarations env rest
  | Stmt.property args :: rest => (declared env args).toList ++ declarations env rest
  | Stmt.pcall_property args :: rest => (declared env args).toList ++ declarations env rest
  | Stmt.error _ :: rest => declarations env rest

/-- The definition promised for `go.property(name, value)`, by the kind of `value`: a number, or
a string that reads as a number, gives a number property; a url, hash, vector3, vector4 or
quaternion gives a property of that type; any other value gives none. -/
def spec_propertyDef (env : Collaborators) (name : String) : LuaValue → Option PropertyDef
  | LuaValue.number n =>
    some ⟨name, env.dmHashString64 name, PropertyType.PROPERTY_TYPE_NUMBER, PropertyValue.m_Number n⟩
  | LuaValue.string s =>
    (env.luaO_str2d s).map (fun n =>
      ⟨name, env.dmHashString64 name, PropertyType.PROPERTY_TYPE_NUMBER, PropertyValue.m_Number n⟩)
  | LuaValue.userdata _ (Userdata.url so pa fr) =>
    some ⟨name, env.dmHashString64 name, PropertyType.PROPERTY_TYPE_URL, PropertyValue.m_URL so pa fr⟩
  | LuaValue.userdata _ (Userdata.hash h) =>
    some ⟨name, env.dmHashString64 name, PropertyType.PROPERTY_TYPE_HASH, PropertyValue.m_Hash h⟩
  | LuaValue.userdata _ (Userdata.vector3 x y z) =>
    some ⟨name, env.dmHashString64 name, PropertyType.PROPERTY_TYPE_VECTOR3, PropertyValue.m_V4 [x, y, z]⟩
  | LuaValue.userdata _ (Userdata.vector4 x y z t) =>
    some ⟨name, env.dmHashString64 name, PropertyType.PROPERTY_TYPE_VECTOR4,
      PropertyValue.m_V4 [x, y, z, t]⟩
  | LuaValue.userdata _ (Userdata.quat x y z t) =>
    some ⟨name, env.dmHashString64 name, PropertyType.PROPERTY_TYPE_QUAT,
      PropertyValue.m_V4 [x, y, z, t]⟩
  | LuaValue.userdata _ Userdata.scriptInstance => none
  | LuaValue.nil => none
  | LuaValue.boolean _ => none
  | LuaValue.table _ => none
  | LuaValue.function _ => none
  | LuaValue.lightuserdata _ => none

/-! ## Sample data for evaluating the definitions -/

/-- Reads a non-empty sequence of decimal digits, most significant first, after `acc`. -/
def readDigits : List Char → Nat → Option Nat
  | [], acc => some acc
  | c :: rest, acc =>
    if c.isDigit then readDigits rest (10 * acc + (c.toNat - 48)) else none

/-- Writes a number below ten as a digit. -/
def digitChar (n : Nat) : Char := Char.ofNat (48 + n % 10)

/-- A sample of the collaborating functions: a byte-sum hash, unsigned decimal integers as the
numeric strings, the last decimal digit as the text of a number, and one byte per definition
as serialisation. -/
def sampleEnv : Collaborators where
  dmHashString64 := fun s => (s.data.map Char.toNat).sum
  luaO_str2d := fun s =>
    match s.data with
    | [] => none
    | cs => (readDigits cs 0).map Int.ofNat
  lua_number2str := fun n => String.mk [digitChar n.natAbs]
  SerializeProperties := fun defs => defs.map (fun d => d.m_Id % 256)

/-- A Lua state without globals or references, and a heap of empty scripts. -/
def emptyWorld : World where
  L := { globals := fun _ => LuaValue.nil, registry := ⟨fun _ => LuaValue.nil, [], 0⟩ }
  heap := fun _ =>
    { m_FunctionReferences := fun _ => LUA_NOREF, m_PropertyDefs := dmArray.empty,
      m_OldPropertyDefs := dmArray.empty, m_Properties := NewProperties }

/-- A script with the callback `init` and the property `hp`, default 100. -/
def sampleSource : LuaSource :=
  LuaSource.chunk
    [Stmt.property [LuaValue.string "hp", LuaValue.number 100],
     Stmt.assign "init" (LuaValue.function 7)]

/-- The state after creating the sample script at address 1. -/
def sampleWorld : World := (NewScript sampleEnv emptyWorld sampleSource 1).2

/-- A source that defines `init` and binds the callback name `update` to a number. -/
def nonFunctionSource : LuaSource :=
  LuaSource.chunk
    [Stmt.assign "init" (LuaValue.function 9),
     Stmt.assign "update" (LuaValue.number 5)]

/-- A source that declares a property, defines a callback and then fails at run time. -/
def failingSource : LuaSource :=
  LuaSource.chunk
    [Stmt.property [LuaValue.string "mana", LuaValue.number 5],
     Stmt.assign "update" (LuaValue.function 8),
     Stmt.error "boom"]

/-- A source that declares the properties `mana` and `speed` and defines `update`. -/
def reloadSource : LuaSource :=
  LuaSource.chunk
    [Stmt.property [LuaValue.string "mana", LuaValue.number 5],
     Stmt.assign "update" (LuaValue.function 8),
     Stmt.property [LuaValue.string "speed", LuaValue.userdata 64 (Userdata.vector3 1 2 3)]]

/-! ## Script instances -/

/-- Name under which the metatable of script instances is registered. -/
def SCRIPTINSTANCE : String := "ScriptInstance"

/-- Modelled from the spec: the name of the global that holds the running script instance (the macro
`SCRIPT_INSTANCE_NAME` is defined in `gameobject_script.h`, not among the sources). -/
def SCRIPT_INSTANCE_NAME : String := "__instance__"

/-- Modelled from the spec: the per-instance state of a script (`ScriptInstance`, declared in
`gameobject_script.h`, not among the sources), with the fields `NewScriptInstance` writes.
Pointers are addresses; `m_Properties` is the address of the property-override store. -/
structure ScriptInstance where
  m_Script : Nat
  m_Instance : Nat
  m_InstanceReference : Int
  m_ScriptDataReference : Int
  m_ComponentIndex : Nat
  m_Properties : Nat
  deriving DecidableEq, Repr

/-- Modelled from the spec: the Lua runtime and the allocators are not among the sources.  The state
that script instances live in: `g_LuaState` with its stack (top first), the contents of its
tables, the metatables registered by name and those of the userdata blocks, the userdata
blocks that hold script instances, and the property stores not yet deleted.  Tables, blocks
and stores are numbered in the order they are created. -/
structure Runtime where
  L : lua_State
  stack : List LuaValue
  tables : Nat → LuaValue → LuaValue
  tableCount : Nat
  named : String → LuaValue
  metatables : Nat → LuaValue
  blocks : Nat → ScriptInstance
  blockCount : Nat
  stores : Nat → Option Properties
  storeCount : Nat

/-- Modelled from the spec: `lua_gettop` of the Lua runtime (not among the sources): the height of the
stack. -/
def lua_gettop (rt : Runtime) : Nat := rt.stack.length

/-- Modelled from the spec: the value at a negative stack index (`-1` is the top), `nil` where the stack
is not that high; for the Lua runtime's `index2adr` (not among the sources). -/
def fromTop (rt : Runtime) (n : Nat) : LuaValue := rt.stack.getD (n - 1) LuaValue.nil

/-- Modelled from the spec: pushing a value, as the `lua_push*` functions of the Lua runtime do (not among
the sources). -/
def lua_push (rt : Runtime) (v : LuaValue) : Runtime := { rt with stack := v :: rt.stack }

/-- Modelled from the spec: `lua_pop` of the Lua runtime (not among the sources). -/
def lua_pop (rt : Runtime) (n : Nat) : Runtime := { rt with stack := rt.stack.drop n }

/-- Modelled from the spec: `lua_newuserdata` of the Lua runtime (not among the sources): a new block is
allocated and a userdata value for it is pushed.  The block is the next one in order and is
never null. -/
def lua_newuserdata (rt : Runtime) : Nat × Runtime :=
  let block := rt.blockCount + 1
  (block,
    { rt with
      blockCount := block,
      metatables := fun b => if b = block then LuaValue.nil else rt.metatables b,
      stack := LuaValue.userdata block Userdata.scriptInstance :: rt.stack })

/-- Modelled from the spec: `lua_newtable` of the Lua runtime (not among the sources): a new, empty table
is created and pushed. -/
def lua_newtable (rt : Runtime) : Runtime :=
  let t := rt.tableCount + 1
  { rt with
    tableCount := t,
    tables := fun a => if a = t then fun _ => LuaValue.nil else rt.tables a,
    stack := LuaValue.table t :: rt.stack }

/-- Modelled from the spec: `luaL_ref(L, LUA_REGISTRYINDEX)` of the Lua runtime (not among the sources) on
the stack: the top is popped and a registry reference to it is returned. -/
def luaL_ref_top (rt : Runtime) : Int × Runtime :=
  let r := luaL_ref rt.L (fromTop rt 1)
  (r.1, { rt with L := r.2, stack := rt.stack.drop 1 })

/-- Modelled from the spec: `luaL_unref(L, LUA_REGISTRYINDEX, ref)` of the Lua runtime (not among the
sources): a reference that is not negative is released, its key becomes the head of the free
list and no longer holds the object; a negative reference is ignored. -/
def luaL_unref (L : lua_State) (ref : Int) : lua_State :=
  if 0 ≤ ref then
    { L with registry :=
      { L.registry with
        slots := fun k => if k = ref.toNat then LuaValue.nil else L.registry.slots k,
        free := ref.toNat :: L.registry.free } }
  else L

/-- Modelled from the spec: `lua_setmetatable(L, -2)` of the Lua runtime (not among the sources): the top
is popped and becomes the metatable of the value below it, which here is a userdata. -/
def lua_setmetatable (rt : Runtime) : Runtime :=
  let mt := fromTop rt 1
  match fromTop rt 2 with
  | LuaValue.userdata block _ =>
    { rt with
      metatables := fun b => if b = block then mt else rt.metatables b,
      stack := rt.stack.drop 1 }
  | _ => { rt with stack := rt.stack.drop 1 }

/-- Modelled from the spec: `lua_gettable` of the Lua runtime (not among the sources) for a table without
metatable: the value under a key; indexing anything that is not a table raises an error. -/
def lua_gettable (rt : Runtime) (t k : LuaValue) : Except String LuaValue :=
  match t with
  | LuaValue.table id => Except.ok (rt.tables id k)
  | _ => Except.error ("attempt to index a " ++ lua_typename (some t) ++ " value")

/-- Modelled from the spec: `lua_settable` of the Lua runtime (not among the sources) for a table without
metatable: the value under a key is replaced; a `nil` key and anything indexed that is not a
table raise an error. -/
def lua_settable (rt : Runtime) (t k v : LuaValue) : Except String Runtime :=
  match t with
  | LuaValue.table id =>
    if k = LuaValue.nil then Except.error "table index is nil"
    else
      Except.ok
        { rt with
          tables := fun a => if a = id then fun key => if key = k then v else rt.tables id key
            else rt.tables a }
  | _ => Except.error ("attempt to index a " ++ lua_typename (some t) ++ " value")

/-- Modelled from the spec: `luaL_checktype(L, index, LUA_TUSERDATA)` and `luaL_checkudata` of the Lua
runtime (not among the sources) are used by `ScriptInstance_Check(L, index)`.  The script
instance an argument stands for: the argument must be a full userdata whose metatable is the
one registered as `SCRIPTINSTANCE`. -/
def ScriptInstance_Check_arg (rt : Runtime) (arg : LuaValue) : Except String Nat :=
  match arg with
  | LuaValue.userdata block _ =>
    if rt.metatables block ≠ LuaValue.nil ∧ rt.metatables block = rt.named SCRIPTINSTANCE then
      Except.ok block
    else Except.error (SCRIPTINSTANCE ++ " expected, got userdata")
  | _ => Except.error ("userdata expected, got " ++ lua_typename (some arg))

/-- Reading `self[k]`: `ScriptInstance_index` with the arguments `self` and `k`.  The value
read is the result; the state is not changed. -/
def ScriptInstance_index (rt : Runtime) (args : List LuaValue) : Except String LuaValue :=
  match ScriptInstance_Check_arg rt (args.getD 0 LuaValue.nil) with
  | Except.error e => Except.error e
  | Except.ok i =>
    let data := lua_rawgeti rt.L (rt.blocks i).m_ScriptDataReference
    lua_gettable rt data (args.getD 1 LuaValue.nil)

/-- Writing `self[k] = v`: `ScriptInstance_newindex` with the arguments `self`, `k` and `v`. -/
def ScriptInstance_newindex (rt : Runtime) (args : List LuaValue) : Except String Runtime :=
  match ScriptInstance_Check_arg rt (args.getD 0 LuaValue.nil) with
  | Except.error e => Except.error e
  | Except.ok i =>
    let data := lua_rawgeti rt.L (rt.blocks i).m_ScriptDataReference
    lua_settable rt data (args.getD 1 LuaValue.nil) (args.getD 2 LuaValue.nil)

/-- Modelled from the spec: `NewProperties()` (defined outside the sources) as an allocation: a fresh,
empty store at the next address, which is never null. -/
def allocProperties (rt : Runtime) : Nat × Runtime :=
  let p := rt.storeCount + 1
  (p, { rt with storeCount := p, stores := fun a => if a = p then some NewProperties else rt.stores a })

/-- Modelled from the spec: `DeleteProperties` (defined outside the sources): the store at the address is
deleted. -/
def DeleteProperties (rt : Runtime) (properties : Nat) : Runtime :=
  { rt with stores := fun a => if a = properties then none else rt.stores a }

/-- Writes a script instance into its block. -/
def Runtime.setBlock (rt : Runtime) (i : Nat) (f : ScriptInstance → ScriptInstance) : Runtime :=
  { rt with blocks := fun b => if b = i then f (rt.blocks i) else rt.blocks b }

/-- Creates the state of a script component: `NewScriptInstance`.  The result is the address of
the new script instance and the state after the call. -/
def NewScriptInstance (rt : Runtime) (script inst component_index : Nat) : Nat × Runtime :=
  let rt := lua_push rt (lua_getglobal rt.L "__instances__")
  let created := lua_newuserdata rt
  let i := created.1
  let rt := created.2.setBlock i (fun s => { s with m_Script := script })
  let rt := lua_push rt (fromTop rt 1)
  let ref := luaL_ref_top rt
  let rt := ref.2.setBlock i (fun s => { s with m_InstanceReference := ref.1 })
  let rt := lua_newtable rt
  let ref := luaL_ref_top rt
  let rt := ref.2.setBlock i (fun s => { s with m_ScriptDataReference := ref.1 })
  let rt := rt.setBlock i (fun s => { s with m_Instance := inst })
  let rt := rt.setBlock i (fun s => { s with m_ComponentIndex := component_index })
  let store := allocProperties rt
  let rt := store.2.setBlock i (fun s => { s with m_Properties := store.1 })
  let rt := lua_push rt (rt.named SCRIPTINSTANCE)
  let rt := lua_setmetatable rt
  let rt := lua_pop rt 1
  let rt := lua_pop rt 1
  (i, rt)

/-- Releases the state of a script component: `DeleteScriptInstance`. -/
def DeleteScriptInstance (rt : Runtime) (script_instance : Nat) : Runtime :=
  let rt := { rt with L := luaL_unref rt.L (rt.blocks script_instance).m_InstanceReference }
  let rt := { rt with L := luaL_unref rt.L (rt.blocks script_instance).m_ScriptDataReference }
  DeleteProperties rt (rt.blocks script_instance).m_Properties

/-- The `self` value of a script instance: the userdata for its block. -/
def selfOf (i : Nat) : LuaValue := LuaValue.userdata i Userdata.scriptInstance

/-- A script instance that has a state table: its data reference is a registry key in use
under which a table created so far is stored, and it has the metatable of script
instances. -/
def Runtime.StateOf (rt : Runtime) (i t : Nat) : Prop :=
  ∃ k : Nat, (rt.blocks i).m_ScriptDataReference = (k : Int) ∧ rt.L.registry.InUse k ∧
    rt.L.registry.slots k = LuaValue.table t ∧ t ≤ rt.tableCount ∧
    rt.metatables i ≠ LuaValue.nil ∧ rt.metatables i = rt.named SCRIPTINSTANCE

/-- A state with no table, block, store or registry key yet, in which the metatable of
script instances is registered as table 0. -/
def emptyRuntime : Runtime where
  L := ⟨fun _ => LuaValue.nil, ⟨fun _ => LuaValue.nil, [], 0⟩⟩
  stack := []
  tables := fun _ _ => LuaValue.nil
  tableCount := 0
  named := fun name => if name = SCRIPTINSTANCE then LuaValue.table 0 else LuaValue.nil
  metatables := fun _ => LuaValue.nil
  blocks := fun _ => ⟨0, 0, LUA_NOREF, LUA_NOREF, 0, 0⟩
  blockCount := 0
  stores := fun _ => none
  storeCount := 0

/-- A state with two script instances, in the blocks 1 and 2, created one after the other
from the empty state. -/
def sampleRuntime : Runtime :=
  (NewScriptInstance (NewScriptInstance emptyRuntime 1 11 0).2 1 12 0).2

/-! ## The script functions that address instances -/

/-- Modelled from the spec: a component of a prototype, of which the code reads the id
(`Prototype::Component`, declared in `gameobject_private.h`, not among the sources). -/
structure PrototypeComponent where
  m_Id : dmhash_t
  deriving DecidableEq, Repr

/-- Modelled from the spec: a prototype, of which the code reads the components by position (`Prototype`,
declared in `gameobject_private.h`, not among the sources). -/
structure Prototype where
  m_Components : Nat → PrototypeComponent

/-- Modelled from the spec: a collection, of which the code reads the component socket (`Collection`,
declared in `gameobject_private.h`, not among the sources). -/
structure Collection where
  m_ComponentSocket : Nat
  deriving DecidableEq, Repr

/-- Modelled from the spec: a game-object instance, of which the code reads the identifier, the
collection and the prototype (`Instance`, declared in `gameobject_private.h`, not among the
sources).  Pointers are addresses. -/
structure Instance where
  m_Identifier : dmhash_t
  m_Collection : Nat
  m_Prototype : Nat
  deriving DecidableEq, Repr

/-- The game objects the script functions reach through pointers, and the functions of the
game-object library they call, whose code is not among the sources. -/
structure GameObjects where
  instances : Nat → Instance
  collections : Nat → Collection
  prototypes : Nat → Prototype
  /-- `GetAbsoluteIdentifier(instance, path, path_size)`. -/
  GetAbsoluteIdentifier : Nat → String → Nat → dmhash_t
  /-- `GetInstanceFromIdentifier(collection, id)`, null when there is no such instance. -/
  GetInstanceFromIdentifier : Nat → dmhash_t → Nat
  /-- `dmHashReverse64(id, 0)` as text. -/
  dmHashReverse64 : dmhash_t → String

/-- Modelled from the spec: `strlen` of the C library (not among the sources): the number of characters
before the first NUL. -/
def strlen (s : String) : Nat :=
  (s.data.takeWhile (fun c => c ≠ Char.ofNat 0)).length

/-- Modelled from the spec: `lua_isstring` of the Lua runtime (not among the sources): whether an argument
is a string or a number. -/
def lua_isstring : Option LuaValue → Bool
  | some (LuaValue.string _) => true
  | some (LuaValue.number _) => true
  | _ => false

/-- Modelled from the spec: `dmScript::CheckHash` of the script library (not among the sources): the hash
an argument holds, an error for anything that is not a hash. -/
def CheckHash (arg : Option LuaValue) : Except String dmhash_t :=
  match content? arg with
  | some (Userdata.hash h) => Except.ok h
  | _ => Except.error ("hash expected, got " ++ lua_typename arg)

/-- The running script instance: `ScriptInstance_Check(L)`, which reads the global
`SCRIPT_INSTANCE_NAME` and raises an error when it holds no userdata. -/
def ScriptInstance_Check (rt : Runtime) : Except String Nat :=
  let i := lua_touserdata (lua_getglobal rt.L SCRIPT_INSTANCE_NAME)
  if i = 0 then
    Except.error ("Lua state did not contain any '" ++ SCRIPT_INSTANCE_NAME ++ "'.")
  else Except.ok i

/-- Implements `go.get_id`: `Script_GetId`.  The result is the hash handed to
`dmScript::PushHash`, or the error raised. -/
def Script_GetId (go : GameObjects) (env : Collaborators) (rt : Runtime)
    (args : List LuaValue) : Except String dmhash_t :=
  match ScriptInstance_Check rt with
  | Except.error e => Except.error e
  | Except.ok i =>
    if args.length > 0 then
      match luaL_checkstring env args.head? with
      | none => Except.error ("string expected, got " ++ lua_typename args.head?)
      | some ident =>
        Except.ok (go.GetAbsoluteIdentifier (rt.blocks i).m_Instance ident (strlen ident))
    else Except.ok (go.instances (rt.blocks i).m_Instance).m_Identifier

/-- Implements `go.delete`: `Script_Delete`.  The result is the error raised, if any, and the
calls of `dmGameObject::Delete` made, each with its collection and instance. -/
def Script_Delete (go : GameObjects) (env : Collaborators) (rt : Runtime)
    (args : List LuaValue) : Option String × List (Nat × Nat) :=
  match ScriptInstance_Check rt with
  | Except.error e => (some e, [])
  | Except.ok i =>
    let inst := (rt.blocks i).m_Instance
    let collection := (go.instances inst).m_Collection
    let top := args.length
    if top = 1 then
      let id : Except String dmhash_t :=
        if lua_isstring args.head? then
          match luaL_checkstring env args.head? with
          | none => Except.error ("string expected, got " ++ lua_typename args.head?)
          | some ident =>
            Except.ok (go.GetAbsoluteIdentifier (rt.blocks i).m_Instance ident (strlen ident))
        else CheckHash args.head?
      match id with
      | Except.error e => (some e, [])
      | Except.ok id =>
        let found := go.GetInstanceFromIdentifier collection id
        if found = 0 then
          (some ("Failed to delete GameObject, '" ++ go.dmHashReverse64 id ++ "' not found."), [])
        else (none, [(collection, found)])
    else (none, [(collection, inst)])

/-- Modelled from the spec: an address of the message system (`dmMessage::URL`, declared outside the
sources): socket, path and fragment. -/
structure URL where
  m_Socket : Nat
  m_Path : dmhash_t
  m_Fragment : dmhash_t
  deriving DecidableEq, Repr

/-- The address of the running script: `GetURLCallback`.  The result is the URL it fills in,
or the error raised. -/
def GetURLCallback (go : GameObjects) (rt : Runtime) : Except String URL :=
  let i := lua_touserdata (lua_getglobal rt.L SCRIPT_INSTANCE_NAME)
  if i = 0 then
    Except.error
      "You can only create empty URLs outside functions with a self-reference, use msg.url() instead."
  else
    let inst := go.instances (rt.blocks i).m_Instance
    Except.ok
      { m_Socket := (go.collections inst.m_Collection).m_ComponentSocket,
        m_Path := inst.m_Identifier,
        m_Fragment :=
          ((go.prototypes inst.m_Prototype).m_Components (rt.blocks i).m_ComponentIndex).m_Id }

/-- Resolves a path of a URL against the running script: `ResolvePathCallback`. -/
def ResolvePathCallback (go : GameObjects) (rt : Runtime) (path : String) (path_size : Nat) :
    Except String dmhash_t :=
  match ScriptInstance_Check rt with
  | Except.error e => Except.error e
  | Except.ok i =>
    if path_size > 0 then
      Except.ok (go.GetAbsoluteIdentifier (rt.blocks i).m_Instance path path_size)
    else Except.ok (go.instances (rt.blocks i).m_Instance).m_Identifier

/-- Modelled from the spec: the code that makes a script instance the running one before a callback is
called is not among the sources.  The state in which the global `SCRIPT_INSTANCE_NAME` holds
the userdata of the script instance. -/
def install (rt : Runtime) (i : Nat) : Runtime :=
  { rt with L := lua_setglobal rt.L SCRIPT_INSTANCE_NAME (selfOf i) }

/-- Sample game objects: the instances 11 and 12 of collection 5 with prototype 7, whose
component at position `n` has the id `100 + n`; a path resolves to its length, and only the
identifiers 111 and 2 are found, as the instances 11 and 12. -/
def sampleGameObjects : GameObjects where
  instances := fun a => if a = 11 then ⟨111, 5, 7⟩ else if a = 12 then ⟨2, 5, 7⟩ else ⟨0, 0, 0⟩
  collections := fun c => if c = 5 then ⟨50⟩ else ⟨0⟩
  prototypes := fun _ => ⟨fun n => ⟨100 + n⟩⟩
  GetAbsoluteIdentifier := fun _ _ path_size => path_size
  GetInstanceFromIdentifier := fun c id =>
    if c = 5 ∧ id = 111 then 11 else if c = 5 ∧ id = 2 then 12 else 0
  dmHashReverse64 := fun _ => "<unknown>"

end dmGameObject

namespace dmGameSystem

open dmGameObject (dmArray dmhash_t)

/-! ## Sprite components (`comp_sprite2.cpp`) -/

/-- Modelled from the spec: the playback modes of an animation (`dmGameSystemDDF::Playback2`, declared
outside the sources). -/
inductive Playback2 where
  | PLAYBACK2_NONE
  | PLAYBACK2_ONCE_FORWARD
  | PLAYBACK2_ONCE_BACKWARD
  | PLAYBACK2_LOOP_FORWARD
  | PLAYBACK2_LOOP_BACKWARD
  | PLAYBACK2_LOOP_PINGPONG
  deriving DecidableEq, Repr

/-- Modelled from the spec: one animation of a tile set (`dmGameSystemDDF::Animation`, declared outside
the sources); tiles count from 1. -/
structure Animation where
  m_Id : String
  m_StartTile : Nat
  m_EndTile : Nat
  m_Playback : Playback2
  m_Fps : Nat
  deriving DecidableEq, Repr

/-- Modelled from the spec: one convex hull of a tile set (`dmGameSystemDDF::ConvexHull`, declared
outside the sources). -/
structure ConvexHull where
  m_Index : Nat
  m_Count : Nat
  m_CollisionGroup : String
  deriving DecidableEq, Repr

/-- Modelled from the spec: the tile-set message (`dmGameSystemDDF::TileSet`, declared outside the
sources), as far as sprites and the tile-set resource read it. -/
structure TileSet where
  m_TileWidth : Nat
  m_TileHeight : Nat
  m_TileMargin : Nat
  m_TileSpacing : Nat
  m_Animations : List Animation
  m_Image : String
  m_ConvexHulls : List ConvexHull
  m_ConvexHullPoints : List Rat
  deriving DecidableEq, Repr

/-- Modelled from the spec: a tile-set resource (`TileSetResource`, declared in `res_tileset.h`, not among
the sources): the address of its message, its texture handle, the hashed
ids of its animations, the hashed collision groups of its hulls and the handle of its hull
set.  A null pointer or handle is `0`. -/
structure TileSetResource where
  m_TileSet : Nat
  m_Texture : Nat
  m_AnimationIds : List dmhash_t
  m_HullCollisionGroups : List dmhash_t
  m_HullSet : Nat
  deriving DecidableEq, Repr

/-- Modelled from the spec: a sprite resource (`Sprite2Resource`, declared in `res_sprite2.h`, not among
the sources): the address of its tile set and the default
animation. -/
structure Sprite2Resource where
  m_TileSet : Nat
  m_DefaultAnimation : dmhash_t
  deriving DecidableEq, Repr

/-- The loaded resources and the tile-set messages, by address. -/
structure Resources where
  sprites : Nat → Sprite2Resource
  tileSets : Nat → TileSetResource
  messages : Nat → TileSet

/-- A sprite component (`Component2`).  Handles and pointers are addresses, the three
one-bit fields are booleans, frame times are exact numbers. -/
structure Component2 where
  m_Instance : Nat
  m_ListenerInstance : Nat
  m_ListenerComponent : dmhash_t
  m_Resource : Nat
  m_FrameTime : Rat
  m_FrameTimer : Rat
  m_CurrentAnimation : Nat
  m_CurrentTile : Nat
  m_Enabled : Bool
  m_PlayBackwards : Bool
  m_Playing : Bool
  deriving DecidableEq, Repr

/-- A component after `memset(component, 0, sizeof(Component2))`. -/
def Component2.zero : Component2 :=
  ⟨0, 0, 0, 0, 0, 0, 0, 0, false, false, false⟩

/-- Modelled from the spec: the pool of free slot indices with free-list reuse
(`dmIndexPool32` of dlib, whose header is not among the sources).  `m_Pool` holds the
indices, those from position `m_Size` on are free, and the capacity is the length of
`m_Pool`. -/
structure dmIndexPool32 where
  m_Pool : List Nat
  m_Size : Nat
  deriving DecidableEq, Repr

/-- Modelled from the spec: a pool of the given capacity with every index free
(`SetCapacity` on a new pool). -/
def dmIndexPool32.SetCapacity (capacity : Nat) : dmIndexPool32 :=
  ⟨List.range capacity, 0⟩

/-- Modelled from the spec: the number of free indices (`Remaining`). -/
def dmIndexPool32.Remaining (p : dmIndexPool32) : Nat :=
  p.m_Pool.length - p.m_Size

/-- Modelled from the spec: takes the next free index (`Pop`, `m_Pool[m_Size++]`). -/
def dmIndexPool32.Pop (p : dmIndexPool32) : Nat × dmIndexPool32 :=
  (p.m_Pool.getD p.m_Size 0, { p with m_Size := p.m_Size + 1 })

/-- Modelled from the spec: gives an index back (`Push`, `m_Pool[--m_Size] = index`). -/
def dmIndexPool32.Push (p : dmIndexPool32) (index : Nat) : dmIndexPool32 :=
  ⟨p.m_Pool.set (p.m_Size - 1) index, p.m_Size - 1⟩

/-- The sprite world (`SpriteWorld2`): the component array, always at full size, the pool of
free slots and the render objects of the last update (by the slot they were made for). -/
structure SpriteWorld2 where
  m_Components : List Component2
  m_ComponentIndices : dmIndexPool32
  m_RenderObjects : List Nat
  deriving DecidableEq, Repr

/-- The world `CompSprite2NewWorld` creates for `m_MaxSpriteCount` sprites. -/
def CompSprite2NewWorld (m_MaxSpriteCount : Nat) : SpriteWorld2 :=
  ⟨List.replicate m_MaxSpriteCount Component2.zero,
    dmIndexPool32.SetCapacity m_MaxSpriteCount, []⟩

/-- Modelled from the spec: the typed result of a component hook (`dmGameObject::CreateResult`, declared
outside the sources). -/
inductive CreateResult where
  | CREATE_RESULT_OK
  | CREATE_RESULT_UNKNOWN_ERROR
  deriving DecidableEq, Repr

/-- The search loop of `PlayAnimation`: the first index from `i` on whose id is
`animation_id`. -/
def findAnimation (animation_id : dmhash_t) : List dmhash_t → Nat → Option Nat
  | [], _ => none
  | id :: rest, i => if animation_id = id then some i else findAnimation animation_id rest (i + 1)

/-- The animation read when an index points past the table (the code reads whatever lies
there). -/
def Animation.unset : Animation := ⟨"", 0, 0, Playback2.PLAYBACK2_NONE, 0⟩

/-- Starts the animation `animation_id` on a component: `PlayAnimation`.  The animation index
and the tile are stored in 16 bits; the tile is the 32-bit `m_StartTile - 1`. -/
def PlayAnimation (res : Resources) (component : Component2) (animation_id : dmhash_t) :
    Bool × Component2 :=
  let tile_set := res.tileSets (res.sprites component.m_Resource).m_TileSet
  match findAnimation animation_id tile_set.m_AnimationIds 0 with
  | some i =>
    let c1 := { component with m_CurrentAnimation := i % 65536 }
    let animation :=
      (res.messages tile_set.m_TileSet).m_Animations.getD c1.m_CurrentAnimation Animation.unset
    (true,
      { c1 with
        m_CurrentTile := (animation.m_StartTile + 4294967295) % 4294967296 % 65536
        m_PlayBackwards := false
        m_FrameTime := 1 / (animation.m_Fps : Rat)
        m_FrameTimer := 0
        m_Playing := decide (animation.m_Playback ≠ Playback2.PLAYBACK2_NONE) })
  | none => (false, component)

/-- Creates a sprite component: `CompSprite2Create`.  The arguments are the world, the
instance and the resource of `params` and the current content of `*params.m_UserData`; the
result carries the new world and the new content of `*params.m_UserData`, the slot of the
component standing for its address. -/
def CompSprite2Create (res : Resources) (sprite_world : SpriteWorld2) (m_Instance : Nat)
    (m_Resource : Nat) (m_UserData : Nat) : CreateResult × SpriteWorld2 × Nat :=
  if sprite_world.m_ComponentIndices.Remaining = 0 then
    (CreateResult.CREATE_RESULT_UNKNOWN_ERROR, sprite_world, m_UserData)
  else
    let popped := sprite_world.m_ComponentIndices.Pop
    let index := popped.1
    let component := sprite_world.m_Components.getD index Component2.zero
    let component :=
      { component with
        m_Instance := m_Instance
        m_Resource := m_Resource
        m_ListenerInstance := 0
        m_ListenerComponent := 255
        m_Enabled := true }
    let played := PlayAnimation res component (res.sprites component.m_Resource).m_DefaultAnimation
    (CreateResult.CREATE_RESULT_OK,
      { sprite_world with
        m_Components := sprite_world.m_Components.set index played.2
        m_ComponentIndices := popped.2 },
      index)

/-- Sample resources: every sprite uses the tile set at address 1, which has the one
animation `walk` over tiles 1 to 4. -/
def sampleResources : Resources where
  sprites := fun _ => ⟨1, 7⟩
  tileSets := fun _ => ⟨3, 9, [7], [], 4⟩
  messages := fun _ =>
    ⟨16, 16, 0, 0, [⟨"walk", 1, 4, Playback2.PLAYBACK2_LOOP_FORWARD, 30⟩], "walk.png", [], []⟩

/-! ## Updating sprites and their messages -/

/-- Modelled from the spec: the result of an update hook (`dmGameObject::UpdateResult`, declared outside
the sources). -/
inductive UpdateResult where
  | UPDATE_RESULT_OK
  | UPDATE_RESULT_UNKNOWN_ERROR
  deriving DecidableEq, Repr

/-- Functions of the graphics, message and game-object libraries that the sprite code calls,
and the hashed names of the messages it knows; their code is not among the sources. -/
structure SpriteServices where
  /-- Whether `dmGraphics::MapVertexBuffer` returns a buffer in this update. -/
  MapVertexBuffer : Bool
  /-- Whether `dmGraphics::UnmapVertexBuffer` succeeds in this update. -/
  UnmapVertexBuffer : Bool
  GetTextureWidth : Nat → Nat
  GetTextureHeight : Nat → Nat
  /-- `dmGameObject::GetCollection(instance)`. -/
  GetCollection : Nat → Nat
  /-- `dmGameObject::GetMessageSocket(collection)`. -/
  GetMessageSocket : Nat → Nat
  IsSocketValid : Nat → Bool
  /-- `dmGameObject::GetIdentifier(instance)`. -/
  GetIdentifier : Nat → dmhash_t
  GetInstanceFromIdentifier : Nat → dmhash_t → Nat
  /-- Whether `dmMessage::Post` of a message with this receiver, id and tile returns
  `RESULT_OK`. -/
  Post : dmGameObject.URL → dmhash_t → Nat → Bool
  /-- Hash of the name of `dmGameSystemDDF::AnimationDone2`. -/
  animationDoneId : dmhash_t
  /-- Hash of the name of `dmGameObjectDDF::Enable`. -/
  enableId : dmhash_t
  /-- Hash of the name of `dmGameObjectDDF::Disable`. -/
  disableId : dmhash_t
  /-- Hash of the name of `dmGameSystemDDF::PlayAnimation2`. -/
  playAnimationId : dmhash_t

/-- What an update does to the outside, in order: a render object handed to
`dmRender::AddToRender`, a message handed to `dmMessage::Post`, an error logged, a call of
`dmGraphics::MapVertexBuffer` or of `dmGraphics::UnmapVertexBuffer`.  The first two carry the
slot of the component they are made for.  The vertex data written is not recorded. -/
inductive SpriteEffect where
  | AddToRender (slot : Nat)
  | Post (slot : Nat) (receiver : dmGameObject.URL) (message_id : dmhash_t) (m_CurrentTile : Nat)
  | LogError (text : String)
  | MapVertexBuffer
  | UnmapVertexBuffer
  deriving DecidableEq, Repr

/-- Conversion of an integer to `int16_t`. -/
def toInt16 (n : Int) : Int := (n + 32768) % 65536 - 32768

/-- Conversion of an integer to `uint16_t`. -/
def toUInt16 (n : Int) : Nat := (n % 65536).toNat

/-- Number of tiles along one side of a texture: `CalculateTileCount`, in 32-bit unsigned
arithmetic. -/
def CalculateTileCount (tile_size image_size tile_margin tile_spacing : Nat) : Nat :=
  let actual_tile_size := (2 * tile_margin + tile_spacing + tile_size) % 4294967296
  if actual_tile_size > 0 then (image_size + tile_spacing) % 4294967296 / actual_tile_size
  else 0

/-- The animation a component plays: `tile_set_ddf->m_Animations[m_CurrentAnimation]`. -/
def animationOf (res : Resources) (component : Component2) : Animation :=
  (res.messages
    (res.tileSets (res.sprites component.m_Resource).m_TileSet).m_TileSet).m_Animations.getD
    component.m_CurrentAnimation Animation.unset

/-- The local `tiles_per_row` of `CompSprite2Update` for a component. -/
def tilesPerRow (svc : SpriteServices) (res : Resources) (component : Component2) : Nat :=
  let tile_set := res.tileSets (res.sprites component.m_Resource).m_TileSet
  let tile_set_ddf := res.messages tile_set.m_TileSet
  CalculateTileCount tile_set_ddf.m_TileWidth (svc.GetTextureWidth tile_set.m_Texture % 65536)
    tile_set_ddf.m_TileMargin tile_set_ddf.m_TileSpacing

/-- The local `tile_count` of `CompSprite2Update` for a component. -/
def tileCount (svc : SpriteServices) (res : Resources) (component : Component2) : Nat :=
  let tile_set := res.tileSets (res.sprites component.m_Resource).m_TileSet
  let tile_set_ddf := res.messages tile_set.m_TileSet
  let tiles_per_column :=
    CalculateTileCount tile_set_ddf.m_TileHeight
      (svc.GetTextureHeight tile_set.m_Texture % 65536)
      tile_set_ddf.m_TileMargin tile_set_ddf.m_TileSpacing
  tilesPerRow svc res component * tiles_per_column % 4294967296

/-- The local `start_tile` of `CompSprite2Update`: `(int16_t)m_StartTile - 1` as `int16_t`. -/
def startTile (animation_ddf : Animation) : Int :=
  toInt16 (toInt16 animation_ddf.m_StartTile - 1)

/-- The local `end_tile` of `CompSprite2Update`: `(int16_t)m_EndTile - 1` as `int16_t`. -/
def endTile (animation_ddf : Animation) : Int :=
  toInt16 (toInt16 animation_ddf.m_EndTile - 1)

/-- The block "Stop once-animation and broadcast animation_done" of `CompSprite2Update` for
the component in a slot: the component after it, the calls made, and whether the update
returns from inside the block. -/
def stopOnce (svc : SpriteServices) (res : Resources) (slot : Nat) (component : Component2) :
    Component2 × List SpriteEffect × Bool :=
  let animation_ddf := animationOf res component
  if animation_ddf.m_Playback = Playback2.PLAYBACK2_ONCE_FORWARD
      ∨ animation_ddf.m_Playback = Playback2.PLAYBACK2_ONCE_BACKWARD then
    if (component.m_CurrentTile : Int) = endTile animation_ddf then
      let component := { component with m_Playing := false }
      if component.m_ListenerInstance ≠ 0 then
        let socket := svc.GetMessageSocket (svc.GetCollection component.m_ListenerInstance)
        if svc.IsSocketValid socket then
          let receiver : dmGameObject.URL :=
            ⟨socket, svc.GetIdentifier component.m_ListenerInstance, component.m_ListenerComponent⟩
          let result := svc.Post receiver svc.animationDoneId component.m_CurrentTile
          let posted :=
            SpriteEffect.Post slot receiver svc.animationDoneId component.m_CurrentTile
          let component := { component with m_ListenerInstance := 0, m_ListenerComponent := 255 }
          if result = false then
            (component,
              [posted, SpriteEffect.LogError "Could not send animation_done to listener."], true)
          else (component, [posted], false)
        else ({ component with m_ListenerInstance := 0, m_ListenerComponent := 255 }, [], false)
      else (component, [], false)
    else (component, [], false)
  else (component, [], false)

/-- The block "Animate" of `CompSprite2Update` for a component, with the step `m_DT`. -/
def animate (svc : SpriteServices) (res : Resources) (m_DT : Rat) (component : Component2) :
    Component2 :=
  let animation_ddf := animationOf res component
  let start_tile := startTile animation_ddf
  let end_tile := endTile animation_ddf
  let tile_count := tileCount svc res component
  if component.m_Playing then
    let component := { component with m_FrameTimer := component.m_FrameTimer + m_DT }
    if component.m_FrameTimer ≥ component.m_FrameTime then
      let component :=
        { component with m_FrameTimer := component.m_FrameTimer - component.m_FrameTime }
      let current_tile : Int := toInt16 component.m_CurrentTile
      let current_tile : Int :=
        match animation_ddf.m_Playback with
        | Playback2.PLAYBACK2_ONCE_FORWARD =>
          if current_tile ≠ end_tile then toInt16 (current_tile + 1) else current_tile
        | Playback2.PLAYBACK2_ONCE_BACKWARD =>
          if current_tile ≠ end_tile then toInt16 (current_tile - 1) else current_tile
        | Playback2.PLAYBACK2_LOOP_FORWARD =>
          if current_tile = end_tile then start_tile else toInt16 (current_tile + 1)
        | Playback2.PLAYBACK2_LOOP_BACKWARD =>
          if current_tile = end_tile then start_tile else toInt16 (current_tile - 1)
        | Playback2.PLAYBACK2_LOOP_PINGPONG =>
          if component.m_PlayBackwards then toInt16 (current_tile - 1)
          else toInt16 (current_tile + 1)
        | Playback2.PLAYBACK2_NONE => current_tile
      let current_tile : Int :=
        if current_tile < 0 then toInt16 (((tile_count + 4294967295) % 4294967296 : Nat) : Int)
        else if toUInt16 current_tile ≥ tile_count then 0
        else current_tile
      let component := { component with m_CurrentTile := toUInt16 current_tile }
      if animation_ddf.m_Playback = Playback2.PLAYBACK2_LOOP_PINGPONG
          ∧ (current_tile = start_tile ∨ current_tile = end_tile) then
        { component with m_PlayBackwards := !component.m_PlayBackwards }
      else component
    else component
  else component

/-- The body of the loop of `CompSprite2Update` for the component in a slot: the component
after it, the calls made, and whether the update returns from inside the body.  There is no
result (`none`) when `m_CurrentTile % tiles_per_row` divides by zero. -/
def updateComponent (svc : SpriteServices) (res : Resources) (m_DT : Rat) (slot : Nat)
    (component : Component2) : Option (Component2 × List SpriteEffect × Bool) :=
  if component.m_Enabled then
    if tilesPerRow svc res component = 0 then none
    else
      let stopped := stopOnce svc res slot component
      if stopped.2.2 then some (stopped.1, SpriteEffect.AddToRender slot :: stopped.2.1, true)
      else
        some (animate svc res m_DT stopped.1, SpriteEffect.AddToRender slot :: stopped.2.1, false)
  else some (component, [], false)

/-- The loop of `CompSprite2Update` from a slot on: the components after it, the calls made,
and whether the update returned from inside the loop. -/
def updateComponents (svc : SpriteServices) (res : Resources) (m_DT : Rat) :
    Nat → List Component2 → Option (List Component2 × List SpriteEffect × Bool)
  | _, [] => some ([], [], false)
  | slot, component :: rest =>
    match updateComponent svc res m_DT slot component with
    | none => none
    | some (component2, effects, true) => some (component2 :: rest, effects, true)
    | some (component2, effects, false) =>
      match updateComponents svc res m_DT (slot + 1) rest with
      | none => none
      | some (rest2, effects2, failed) => some (component2 :: rest2, effects ++ effects2, failed)

/-- The slot of the render object a call hands to the renderer, if it is such a call. -/
def SpriteEffect.rendered? : SpriteEffect → Option Nat
  | SpriteEffect.AddToRender slot => some slot
  | SpriteEffect.Post _ _ _ _ => none
  | SpriteEffect.LogError _ => none
  | SpriteEffect.MapVertexBuffer => none
  | SpriteEffect.UnmapVertexBuffer => none

/-- The render objects an update emits, by slot. -/
def renderObjects (effects : List SpriteEffect) : List Nat :=
  effects.filterMap SpriteEffect.rendered?

/-- Updates the sprites of a world with the step `m_DT`: `CompSprite2Update`.  The result is
the value returned, the world after the call and the calls made; there is none when a
division by zero is reached. -/
def CompSprite2Update (svc : SpriteServices) (res : Resources) (sprite_world : SpriteWorld2)
    (m_DT : Rat) : Option (UpdateResult × SpriteWorld2 × List SpriteEffect) :=
  if svc.MapVertexBuffer = false then
    some (UpdateResult.UPDATE_RESULT_UNKNOWN_ERROR, sprite_world,
      [SpriteEffect.MapVertexBuffer,
        SpriteEffect.LogError "Could not map vertex buffer when drawing sprites."])
  else
    match updateComponents svc res m_DT 0 sprite_world.m_Components with
    | none => none
    | some (components, effects, failed) =>
      let world :=
        { sprite_world with m_Components := components, m_RenderObjects := renderObjects effects }
      if failed then
        some (UpdateResult.UPDATE_RESULT_UNKNOWN_ERROR, world, SpriteEffect.MapVertexBuffer :: effects)
      else if svc.UnmapVertexBuffer = false then
        some (UpdateResult.UPDATE_RESULT_UNKNOWN_ERROR, world,
          SpriteEffect.MapVertexBuffer :: effects ++
            [SpriteEffect.UnmapVertexBuffer,
              SpriteEffect.LogError "Could not unmap vertex buffer when drawing sprites."])
      else
        some (UpdateResult.UPDATE_RESULT_OK, world,
          SpriteEffect.MapVertexBuffer :: effects ++ [SpriteEffect.UnmapVertexBuffer])

/-- Modelled from the spec: the fields of a message that `CompSprite2OnMessage` reads
(`dmMessage::Message`, declared outside the sources): id, descriptor, the animation id of a
`PlayAnimation2` payload, and path and fragment of the sender. -/
structure SpriteMessage where
  m_Id : dmhash_t
  m_Descriptor : Nat
  m_Data : dmhash_t
  m_SenderPath : dmhash_t
  m_SenderFragment : dmhash_t
  deriving DecidableEq, Repr

/-- Handles a message to a sprite component: `CompSprite2OnMessage`.  The result is the
component after the call. -/
def CompSprite2OnMessage (svc : SpriteServices) (res : Resources) (component : Component2)
    (m_Message : SpriteMessage) : Component2 :=
  if m_Message.m_Id = svc.enableId then { component with m_Enabled := true }
  else if m_Message.m_Id = svc.disableId then { component with m_Enabled := false }
  else if m_Message.m_Descriptor ≠ 0 then
    if m_Message.m_Id = svc.playAnimationId then
      let played := PlayAnimation res component m_Message.m_Data
      if played.1 then
        { played.2 with
          m_ListenerInstance :=
            svc.GetInstanceFromIdentifier (svc.GetCollection played.2.m_Instance)
              m_Message.m_SenderPath
          m_ListenerComponent := m_Message.m_SenderFragment }
      else played.2
    else component
  else component

/-- The slot of the component a call is made for, if it is made for one. -/
def SpriteEffect.slot? : SpriteEffect → Option Nat
  | SpriteEffect.AddToRender slot => some slot
  | SpriteEffect.Post slot _ _ _ => some slot
  | SpriteEffect.LogError _ => none
  | SpriteEffect.MapVertexBuffer => none
  | SpriteEffect.UnmapVertexBuffer => none

/-- The calls an update makes for the component in a slot, in order. -/
def effectsFor (slot : Nat) (effects : List SpriteEffect) : List SpriteEffect :=
  effects.filter (fun e => e.slot? = some slot)

/-- The number of enabled components. -/
def enabledCount (components : List Component2) : Nat :=
  (components.filter (fun c => c.m_Enabled)).length

/-- Sample services: textures of 64 by 64, every instance in collection 5 whose socket 50 is
valid, every post succeeds. -/
def sampleSpriteServices : SpriteServices where
  MapVertexBuffer := true
  UnmapVertexBuffer := true
  GetTextureWidth := fun _ => 64
  GetTextureHeight := fun _ => 64
  GetCollection := fun _ => 5
  GetMessageSocket := fun c => c * 10
  IsSocketValid := fun s => s == 50
  GetIdentifier := fun i => 100 + i
  GetInstanceFromIdentifier := fun _ id => id - 100
  Post := fun _ _ _ => true
  animationDoneId := 1
  enableId := 2
  disableId := 3
  playAnimationId := 4

/-- The sample services when the vertex buffer cannot be mapped. -/
def unmappedServices : SpriteServices :=
  { sampleSpriteServices with MapVertexBuffer := false }

/-- The sample services when no socket is valid. -/
def invalidSocketServices : SpriteServices :=
  { sampleSpriteServices with IsSocketValid := fun _ => false }

/-- Sample resources: every sprite uses the tile set at address 1, of tiles of 16 by 16,
which has the one animation `open`, played once forward over the tiles 1 to 2. -/
def onceResources : Resources where
  sprites := fun _ => ⟨1, 7⟩
  tileSets := fun _ => ⟨3, 9, [7], [], 4⟩
  messages := fun _ =>
    ⟨16, 16, 0, 0, [⟨"open", 1, 2, Playback2.PLAYBACK2_ONCE_FORWARD, 30⟩], "open.png", [], []⟩

/-- An enabled component of instance 11 that plays animation 0 and has reached tile 1, with
the listener instance 12 and listener component 5. -/
def doneComponent : Component2 :=
  { m_Instance := 11, m_ListenerInstance := 12, m_ListenerComponent := 5, m_Resource := 1,
    m_FrameTime := 1 / 30, m_FrameTimer := 0, m_CurrentAnimation := 0, m_CurrentTile := 1,
    m_Enabled := true, m_PlayBackwards := false, m_Playing := true }

/-- A world of one slot, which holds `doneComponent`. -/
def doneWorld : SpriteWorld2 := ⟨[doneComponent], ⟨[0], 1⟩, []⟩

/-- The sample services when every post fails. -/
def failingPostServices : SpriteServices :=
  { sampleSpriteServices with Post := fun _ _ _ => false }

/-- Sample resources whose one animation `far` starts at tile 65537. -/
def wideResources : Resources where
  sprites := fun _ => ⟨1, 7⟩
  tileSets := fun _ => ⟨3, 9, [7], [], 4⟩
  messages := fun _ =>
    ⟨1, 1, 0, 0, [⟨"far", 65537, 65540, Playback2.PLAYBACK2_LOOP_FORWARD, 30⟩], "far.png", [], []⟩

/-- Sample resources whose one animation `blink` plays the single tile 1 back and forth, on a
tile set of 16 tiles. -/
def blinkResources : Resources where
  sprites := fun _ => ⟨1, 7⟩
  tileSets := fun _ => ⟨3, 9, [7], [], 4⟩
  messages := fun _ =>
    ⟨16, 16, 0, 0, [⟨"blink", 1, 1, Playback2.PLAYBACK2_LOOP_PINGPONG, 30⟩], "blink.png", [], []⟩

/-- An enabled component of instance 11 in the state `PlayAnimation` establishes for the
animation `blink`: tile 0, playing forwards, frame time 1/30. -/
def blinkComponent : Component2 :=
  { m_Instance := 11, m_ListenerInstance := 0, m_ListenerComponent := 255, m_Resource := 1,
    m_FrameTime := 1 / 30, m_FrameTimer := 0, m_CurrentAnimation := 0, m_CurrentTile := 0,
    m_Enabled := true, m_PlayBackwards := false, m_Playing := true }

/-! ## Creating and destroying sprites -/

/-- Destroys a sprite component: `CompSprite2Destroy`.  The arguments are the world and the
content of `*params.m_UserData`, the slot of the component standing for its address. -/
def CompSprite2Destroy (sprite_world : SpriteWorld2) (m_UserData : Nat) :
    CreateResult × SpriteWorld2 :=
  let index := m_UserData
  (CreateResult.CREATE_RESULT_OK,
    { sprite_world with
      m_Components := sprite_world.m_Components.set index Component2.zero
      m_ComponentIndices := sprite_world.m_ComponentIndices.Push index })

/-- A call of one of the two hooks on a sprite world. -/
inductive SpriteCall where
  | Create (m_Instance m_Resource : Nat)
  | Destroy (m_UserData : Nat)
  deriving DecidableEq, Repr

/-- One call on a world, with the slots handed out and not yet destroyed beside it, newest
first. -/
def applyCall (res : Resources) (state : SpriteWorld2 × List Nat) :
    SpriteCall → SpriteWorld2 × List Nat
  | SpriteCall.Create m_Instance m_Resource =>
    let created := CompSprite2Create res state.1 m_Instance m_Resource 0
    if created.1 = CreateResult.CREATE_RESULT_OK then (created.2.1, created.2.2 :: state.2)
    else (created.2.1, state.2)
  | SpriteCall.Destroy m_UserData =>
    ((CompSprite2Destroy state.1 m_UserData).2, state.2.erase m_UserData)

/-- A sequence of calls, in order. -/
def applyCalls (res : Resources) : List SpriteCall → SpriteWorld2 × List Nat →
    SpriteWorld2 × List Nat
  | [], state => state
  | call :: rest, state => applyCalls res rest (applyCall res state call)

/-- Whether every `Destroy` of a sequence of calls is given a component that was created and
not yet destroyed. -/
def admissible (res : Resources) : List SpriteCall → SpriteWorld2 × List Nat → Bool
  | [], _ => true
  | SpriteCall.Create m_Instance m_Resource :: rest, state =>
    admissible res rest (applyCall res state (SpriteCall.Create m_Instance m_Resource))
  | SpriteCall.Destroy m_UserData :: rest, state =>
    decide (m_UserData ∈ state.2) &&
      admissible res rest (applyCall res state (SpriteCall.Destroy m_UserData))

/-- The free slots of a pool: the indices from position `m_Size` on. -/
def dmIndexPool32.free (p : dmIndexPool32) : List Nat := p.m_Pool.drop p.m_Size

/-- What holds of a world of the given capacity and the slots handed out and not yet
destroyed: the pool and the component array have the capacity as length, the free slots and
the slots handed out are distinct indices below the capacity, no slot is both, and the pool
counts the slots handed out. -/
def WorldInvariant (capacity : Nat) (state : SpriteWorld2 × List Nat) : Prop :=
  state.1.m_ComponentIndices.m_Pool.length = capacity ∧
    state.1.m_Components.length = capacity ∧
    state.1.m_ComponentIndices.m_Size ≤ capacity ∧
    state.1.m_ComponentIndices.free.Nodup ∧
    (∀ s ∈ state.1.m_ComponentIndices.free, s < capacity) ∧
    state.2.Nodup ∧ (∀ s ∈ state.2, s < capacity) ∧
    (∀ s ∈ state.2, s ∉ state.1.m_ComponentIndices.free) ∧
    state.2.length = state.1.m_ComponentIndices.m_Size

/-- The world of the given capacity after a sequence of calls on the new world, with the
slots handed out and not yet destroyed. -/
def worldAfter (res : Resources) (capacity : Nat) (calls : List SpriteCall) :
    SpriteWorld2 × List Nat :=
  applyCalls res calls (CompSprite2NewWorld capacity, [])

/-! ## The tile-set resource (`res_tileset.cpp`) -/

/-- Modelled from the spec: the results of the resource system (`dmResource::Result`, declared outside
the sources): those `res_tileset.cpp` names, and the other errors `dmResource::Get` can
return, by their code. -/
inductive Result where
  | RESULT_OK
  | RESULT_FORMAT_ERROR
  | RESULT_INVALID_DATA
  | other (code : Nat)
  deriving DecidableEq, Repr

/-- Functions of the message, resource, physics and hash libraries that the tile-set resource
calls; their code is not among the sources. -/
structure ResourceServices where
  /-- `dmDDF::LoadMessage` on a buffer: the address of the new message, none when the buffer
  is not a valid message. -/
  LoadMessage : List Nat → Option Nat
  /-- `dmResource::Get` of a name: the result and, when it is `RESULT_OK`, the resource
  written through the pointer given. -/
  Get : String → Result × Nat
  /-- `dmPhysics::NewHullSet2D` of the points and the hulls (index and count of each). -/
  NewHullSet2D : List Rat → List (Nat × Nat) → Nat
  dmHashString64 : String → dmhash_t

/-- What the tile-set resource does to the outside, in order: a call of `dmResource::Get`,
of `dmResource::Release`, of `dmDDF::FreeMessage`, of `dmPhysics::NewHullSet2D` (with the
hull set it returned) or of `dmPhysics::DeleteHullSet2D`. -/
inductive ResEffect where
  | Get (name : String)
  | Release (resource : Nat)
  | FreeMessage (message : Nat)
  | NewHullSet2D (hull_set : Nat)
  | DeleteHullSet2D (hull_set : Nat)
  deriving DecidableEq, Repr

/-- Modelled from the spec: a tile-set resource as its constructor leaves it (the constructor is declared
in `res_tileset.h`, not among the sources): null pointers and handles, empty arrays. -/
def TileSetResource.new : TileSetResource := ⟨0, 0, [], [], 0⟩

/-- The loop of `AcquireResources` that normalises the hull points: `n_points` pairs, each
coordinate scaled and moved by one half. -/
def normalizePoints (recip_tile_width recip_tile_height : Rat) : Nat → List Rat → List Rat
  | 0, _ => []
  | _ + 1, [] => []
  | _ + 1, [_] => []
  | n + 1, x :: y :: rest =>
    (x * recip_tile_width - 1 / 2) :: (y * recip_tile_height - 1 / 2) ::
      normalizePoints recip_tile_width recip_tile_height n rest

/-- Loads a tile set from a buffer into a resource: `AcquireResources`.  The result is the
value returned, the resource after the call and the calls made.  The reciprocals of the tile
size are exact numbers, 0 where the code divides by zero. -/
def AcquireResources (svc : SpriteServices) (rsv : ResourceServices) (res : Resources)
    (buffer : List Nat) (tile_set : TileSetResource) :
    Result × TileSetResource × List ResEffect :=
  match rsv.LoadMessage buffer with
  | none => (Result.RESULT_FORMAT_ERROR, tile_set, [])
  | some tile_set_ddf =>
    let ddf := res.messages tile_set_ddf
    let r := (rsv.Get ddf.m_Image).1
    if r = Result.RESULT_OK then
      let tile_set := { tile_set with m_Texture := (rsv.Get ddf.m_Image).2 }
      let tile_set := { tile_set with m_TileSet := tile_set_ddf }
      let width := svc.GetTextureWidth tile_set.m_Texture % 65536
      let height := svc.GetTextureHeight tile_set.m_Texture % 65536
      if width < ddf.m_TileWidth ∨ height < ddf.m_TileHeight then
        (Result.RESULT_INVALID_DATA, tile_set, [ResEffect.Get ddf.m_Image])
      else
        let groups := ddf.m_ConvexHulls.map (fun hull => rsv.dmHashString64 hull.m_CollisionGroup)
        let hull_descs := ddf.m_ConvexHulls.map (fun hull => (hull.m_Index % 65536, hull.m_Count % 65536))
        let n_points := ddf.m_ConvexHullPoints.length / 2
        let recip_tile_width : Rat :=
          1 / (((ddf.m_TileWidth + 4294967295) % 4294967296 : Nat) : Rat)
        let recip_tile_height : Rat :=
          1 / (((ddf.m_TileHeight + 4294967295) % 4294967296 : Nat) : Rat)
        let norm_points :=
          normalizePoints recip_tile_width recip_tile_height n_points ddf.m_ConvexHullPoints
        let hull_set := rsv.NewHullSet2D norm_points hull_descs
        let ids := ddf.m_Animations.map (fun animation => rsv.dmHashString64 animation.m_Id)
        (r,
          { tile_set with
            m_HullCollisionGroups := groups
            m_HullSet := hull_set
            m_AnimationIds := tile_set.m_AnimationIds ++ ids },
          [ResEffect.Get ddf.m_Image, ResEffect.NewHullSet2D hull_set])
    else (r, tile_set, [ResEffect.Get ddf.m_Image, ResEffect.FreeMessage tile_set_ddf])

/-- Releases what a tile-set resource holds: `ReleaseResources`.  The result is the calls
made. -/
def ReleaseResources (tile_set : TileSetResource) : List ResEffect :=
  (if tile_set.m_Texture ≠ 0 then [ResEffect.Release tile_set.m_Texture] else []) ++
    (if tile_set.m_TileSet ≠ 0 then [ResEffect.FreeMessage tile_set.m_TileSet] else []) ++
    (if tile_set.m_HullSet ≠ 0 then [ResEffect.DeleteHullSet2D tile_set.m_HullSet] else [])

/-- Creates a tile-set resource from a buffer: `ResTileSetCreate`.  The result is the value
returned, the resource stored in `resource->m_Resource`, if one is stored, and the calls
made. -/
def ResTileSetCreate (svc : SpriteServices) (rsv : ResourceServices) (res : Resources)
    (buffer : List Nat) : Result × Option TileSetResource × List ResEffect :=
  let acquired := AcquireResources svc rsv res buffer TileSetResource.new
  if acquired.1 = Result.RESULT_OK then (acquired.1, some acquired.2.1, acquired.2.2)
  else (acquired.1, none, acquired.2.2 ++ ReleaseResources acquired.2.1)

/-- Reloads a tile-set resource from a buffer: `ResTileSetRecreate`.  The arguments are the
buffer and the resource at `resource->m_Resource`; the result is the value returned, that
resource after the call and the calls made. -/
def ResTileSetRecreate (svc : SpriteServices) (rsv : ResourceServices) (res : Resources)
    (buffer : List Nat) (tile_set : TileSetResource) :
    Result × TileSetResource × List ResEffect :=
  let acquired := AcquireResources svc rsv res buffer TileSetResource.new
  let tmp_tile_set := acquired.2.1
  if acquired.1 = Result.RESULT_OK then
    (acquired.1,
      { tile_set with
        m_TileSet := tmp_tile_set.m_TileSet
        m_Texture := tmp_tile_set.m_Texture
        m_HullCollisionGroups := tmp_tile_set.m_HullCollisionGroups
        m_HullSet := tmp_tile_set.m_HullSet },
      acquired.2.2 ++ ReleaseResources tile_set)
  else (acquired.1, tile_set, acquired.2.2 ++ ReleaseResources tmp_tile_set)

/-- Sample tile-set messages: at address 3 a tile set with the animations `walk` and `run`,
at address 5 one with the animation `idle` and one hull, elsewhere one with a tile margin
of 1.  All are tiles of 16 by 16 of the image `tiles.png`. -/
def sampleMessages : Nat → TileSet := fun a =>
  if a = 3 then
    ⟨16, 16, 0, 0,
      [⟨"walk", 1, 4, Playback2.PLAYBACK2_LOOP_FORWARD, 30⟩,
        ⟨"run", 5, 8, Playback2.PLAYBACK2_LOOP_FORWARD, 30⟩],
      "tiles.png", [], []⟩
  else if a = 5 then
    ⟨16, 16, 0, 0, [⟨"idle", 1, 2, Playback2.PLAYBACK2_LOOP_FORWARD, 30⟩], "tiles.png",
      [⟨0, 1, "wall"⟩], [0, 0]⟩
  else
    ⟨16, 16, 1, 0, [⟨"idle", 1, 1, Playback2.PLAYBACK2_NONE, 30⟩], "tiles.png", [], []⟩

/-- The buffers the sample loader accepts, and the address of the message of each. -/
def sampleLoadMessage : List Nat → Option Nat
  | [] => none
  | [b] => if b = 1 then some 3 else if b = 2 then some 5 else if b = 3 then some 7 else none
  | _ :: _ :: _ => none

/-- Sample services of the tile-set resource: only the image `tiles.png` is found, as
texture 9; a hull set gets a handle by the number of its points and hulls; a string hashes to
the sum of its character codes. -/
def sampleResourceServices : ResourceServices where
  LoadMessage := sampleLoadMessage
  Get := fun name => if name = "tiles.png" then (Result.RESULT_OK, 9) else (Result.other 1, 0)
  NewHullSet2D := fun points hulls => 40 + points.length + hulls.length
  dmHashString64 := fun s => (s.data.map Char.toNat).sum

/-- Sample resources with the sample messages and no tile set loaded yet. -/
def loaderResources : Resources where
  sprites := fun _ => ⟨1, 341⟩
  tileSets := fun _ => TileSetResource.new
  messages := sampleMessages

/-- The tile-set resource created from the sample buffer 1: message 3, texture 9, the ids of
`walk` and `run`, no hulls, hull set 40. -/
def walkTileSet : TileSetResource := ⟨3, 9, [431, 341], [], 40⟩

/-- The sample resources after the tile set `walkTileSet` has been reloaded from the sample
buffer 2. -/
def reloadedResources : Resources :=
  { loaderResources with
    tileSets := fun _ =>
      (ResTileSetRecreate sampleSpriteServices sampleResourceServices loaderResources [2]
        walkTileSet).2.1 }

/-- The sample services when every texture is 16 by 16. -/
def smallTextureServices : SpriteServices :=
  { sampleSpriteServices with GetTextureWidth := fun _ => 16, GetTextureHeight := fun _ => 16 }

/-- The sample resources after the tile set with a tile margin of 1 has been loaded from the
sample buffer 3 with a texture of 16 by 16. -/
def marginResources : Resources :=
  { loaderResources with
    sprites := fun _ => ⟨1, 414⟩
    tileSets := fun _ =>
      (AcquireResources smallTextureServices sampleResourceServices loaderResources [3]
        TileSetResource.new).2.1 }

/-- An enabled component of instance 11 showing tile 0 of animation 0, not playing. -/
def marginComponent : Component2 :=
  { m_Instance := 11, m_ListenerInstance := 0, m_ListenerComponent := 255, m_Resource := 1,
    m_FrameTime := 1 / 30, m_FrameTimer := 0, m_CurrentAnimation := 0, m_CurrentTile := 0,
    m_Enabled := true, m_PlayBackwards := false, m_Playing := false }

/-- What holds of a component that plays an animation back and forth between two different
tiles: the current tile lies between the start tile and the end tile, counted from 0, and the
component plays backwards at the end tile and forwards at the start tile. -/
def PingPongInRange (res : Resources) (c : Component2) : Prop :=
  (animationOf res c).m_StartTile - 1 ≤ c.m_CurrentTile ∧
    c.m_CurrentTile ≤ (animationOf res c).m_EndTile - 1 ∧
    (c.m_CurrentTile = (animationOf res c).m_EndTile - 1 → c.m_PlayBackwards = true) ∧
    (c.m_CurrentTile = (animationOf res c).m_StartTile - 1 → c.m_PlayBackwards = false)

/-- The animation steps of a sequence of updates, one for each time step. -/
def animateAll (svc : SpriteServices) (res : Resources) : List Rat → Component2 → Component2
  | [], c => c
  | m_DT :: rest, c => animateAll svc res rest (animate svc res m_DT c)

end dmGameSystem

namespace dmEngine

/-! ## The engine (`engine.cpp`) -/

/-- Modelled from the spec: collection handles (`dmGameObject::HCollection`, declared outside the
sources); `0` is the null handle. -/
abbrev HCollection := Nat

/-- Modelled from the spec: instance handles (`dmGameObject::HInstance`, declared outside the sources);
`0` is the null handle. -/
abbrev HInstance := Nat

/-- Modelled from the spec: the time-step modes (`dmEngineDDF::TimeStepMode`, declared outside the
sources). -/
inductive TimeStepMode where
  | TIME_STEP_MODE_CONTINUOUS
  | TIME_STEP_MODE_DISCRETE
  deriving DecidableEq, Repr

/-- Modelled from the spec: an input action: action identifier, analog value and the pressed, released and
repeated flags (`dmGameObject::InputAction`, declared outside the sources). -/
structure InputAction where
  m_ActionId : Nat
  m_Value : Rat
  m_Pressed : Bool
  m_Released : Bool
  m_Repeated : Bool
  deriving DecidableEq, Repr

/-- Modelled from the spec: the engine state (`Engine`, declared in `engine_private.h`, not among the
sources).  The fields of `Engine` that the frame loop and the message handler read or write.  The
table `m_Collections` is kept as its entries, hashed name first. -/
structure Engine where
  m_Alive : Bool
  m_ExitCode : Int
  m_MainCollection : HCollection
  m_Collections : List (Nat × HCollection)
  m_ActiveCollection : HCollection
  m_ShowFPS : Bool
  m_ShowProfile : Bool
  m_WarpTimeStep : Bool
  m_TimeStepFactor : Rat
  m_TimeStepMode : TimeStepMode
  m_InputBuffer : List InputAction
  deriving DecidableEq, Repr

/-- Modelled from the spec: the type-tagged messages the engine handles (their types are declared outside
the sources).  A message on the register's socket, by its descriptor (`m_DDFDescriptor`), with the
payload the handler reads; `other` is a message of any further descriptor. -/
inductive Message where
  | Exit (m_Code : Int)
  | LoadCollection (m_Collection : String)
  | UnloadCollection (m_Collection : String)
  | ActivateCollection (m_Collection : String)
  | AcquireInputFocus (m_GameObjectId : String)
  | ReleaseInputFocus (m_GameObjectId : String)
  | GameObjectTransformQuery (m_Instance : HInstance) (m_GameObjectId : String)
  | DrawString (m_Text : String)
  | DrawLine
  | SetTimeStep (m_Factor : Rat) (m_Mode : TimeStepMode)
  | RayCastRequest (m_Instance : HInstance)
  | other (m_MessageId : Nat)
  deriving DecidableEq, Repr

/-- The reply to a transform query as laid out in the local buffer: the header fields, the
offset stored in `m_GameObjectId` of the result, the transform, and the string tail. -/
structure TransformReply where
  m_MessageId : Nat
  m_Instance : HInstance
  m_Component : Nat
  m_GameObjectId : Nat
  m_Position : Nat
  m_Rotation : Nat
  tail : String
  deriving DecidableEq, Repr

/-- Calls into the collaborating libraries, in the order they are made. -/
inductive Effect where
  | DispatchInput (collections : List HCollection) (actions : List InputAction)
  | MessageDispatch (socket : Nat)
  | Update (collections : List HCollection) (m_DT : List Rat)
  | PostUpdate (collections : List HCollection)
  | AcquireInputFocus (collection : HCollection) (inst : HInstance)
  | ReleaseInputFocus (collection : HCollection) (inst : HInstance)
  | Post (socket : Nat) (message_id : Nat) (reply : TransformReply) (size : Nat)
  | LogWarning (text : String)
  | LogError (text : String)
  | ResourceRelease (collection : HCollection)
  | Init (collection : HCollection)
  | RequestRayCast (collection : HCollection) (inst : HInstance)
  | call (name : String)
  deriving DecidableEq, Repr

/-- What the engine asks of the libraries around it: lookups in the collections, the resource
factory, hashing, the register's sockets and the sizes that go into the reply buffer. -/
structure Services where
  /-- `dmGameObject::GetInstanceFromIdentifier`, null when there is no such instance. -/
  GetInstanceFromIdentifier : HCollection → Nat → HInstance
  /-- `dmGameObject::GetIdentifier`. -/
  GetIdentifier : HInstance → Nat
  /-- The value of `id` after `sscanf(s, "%X", &id)`. -/
  sscanf_X : String → Nat
  /-- `dmResource::Get` of a collection, `none` when it fails. -/
  ResourceGet : String → Option HCollection
  dmHashString32 : String → Nat
  /-- `m_ScriptName` of the descriptor of `GameObjectTransformResult`. -/
  transformResultScriptName : String
  GetMessageSocketId : Nat
  GetReplyMessageSocketId : Nat
  GetMessageId : Nat
  GetPosition : HInstance → Nat
  GetRotation : HInstance → Nat
  sizeof_InstanceMessageData : Nat
  sizeof_GameObjectTransformResult : Nat
  INSTANCE_MESSAGE_MAX : Nat

/-- Sets the engine to stop with an exit code: `Exit`. -/
def Exit (engine : Engine) (code : Int) : Engine :=
  { engine with m_Alive := false, m_ExitCode := code }

/-- Modelled from the spec: `Put` of the hash table of dlib (not among the sources), which stores a value
under a key of the table `m_Collections`. -/
def Put (table : List (Nat × HCollection)) (key : Nat) (value : HCollection) :
    List (Nat × HCollection) :=
  (key, value) :: table.filter (fun kv => kv.1 ≠ key)

/-- Modelled from the spec: `Get` of the hash table of dlib (not among the sources), which looks a key up in
the table `m_Collections`. -/
def Get (table : List (Nat × HCollection)) (key : Nat) : Option HCollection :=
  (table.find? (fun kv => kv.1 = key)).map (fun kv => kv.2)

/-- Modelled from the spec: `Erase` of the hash table of dlib (not among the sources), which removes a key
from the table `m_Collections`. -/
def Erase (table : List (Nat × HCollection)) (key : Nat) : List (Nat × HCollection) :=
  table.filter (fun kv => kv.1 ≠ key)

/-- Loads a collection and registers it under its hashed name: `LoadCollection`. -/
def LoadCollection (svc : Services) (engine : Engine) (collection_name : String) : Engine :=
  match svc.ResourceGet collection_name with
  | some collection =>
    { engine with
      m_Collections := Put engine.m_Collections (svc.dmHashString32 collection_name) collection }
  | none => engine

/-- Releases a loaded collection: `UnloadCollection`. -/
def UnloadCollection (svc : Services) (engine : Engine) (collection_name : String) :
    Engine × List Effect :=
  let collection_id := svc.dmHashString32 collection_name
  match Get engine.m_Collections collection_id with
  | some collection =>
    let e1 := { engine with m_Collections := Erase engine.m_Collections collection_id }
    (if collection = e1.m_ActiveCollection then { e1 with m_ActiveCollection := 0 } else e1,
      [Effect.ResourceRelease collection])
  | none => (engine, [])

/-- Makes a loaded collection the active one: `ActivateCollection`. -/
def ActivateCollection (svc : Services) (engine : Engine) (collection_name : String) :
    Engine × List Effect :=
  match Get engine.m_Collections (svc.dmHashString32 collection_name) with
  | some collection => ({ engine with m_ActiveCollection := collection }, [Effect.Init collection])
  | none => (engine, [])

/-- The lookup shared by the branches of `Dispatch` that address a game object: first the
main collection, then the active one if there is one.  The result is the instance and the
collection in which the caller will use it. -/
def findInstance (svc : Services) (self : Engine) (id : Nat) : HInstance × HCollection :=
  let inst := svc.GetInstanceFromIdentifier self.m_MainCollection id
  if inst = 0 ∧ self.m_ActiveCollection ≠ 0 then
    (svc.GetInstanceFromIdentifier self.m_ActiveCollection id, self.m_ActiveCollection)
  else (inst, self.m_MainCollection)

/-- The engine's handler for one message of the register's socket: `Dispatch`. -/
def Dispatch (svc : Services) (self : Engine) : Message → Engine × List Effect
  | Message.Exit m_Code => (Exit self m_Code, [])
  | Message.LoadCollection m_Collection => (LoadCollection svc self m_Collection, [])
  | Message.UnloadCollection m_Collection => UnloadCollection svc self m_Collection
  | Message.ActivateCollection m_Collection => ActivateCollection svc self m_Collection
  | Message.AcquireInputFocus m_GameObjectId =>
    let id := svc.sscanf_X m_GameObjectId
    let found := findInstance svc self id
    if found.1 ≠ 0 then (self, [Effect.AcquireInputFocus found.2 found.1])
    else
      (self, [Effect.LogWarning
        "Game object with id %X could not be found when trying to acquire input focus."])
  | Message.ReleaseInputFocus m_GameObjectId =>
    let id := svc.sscanf_X m_GameObjectId
    let found := findInstance svc self id
    if found.1 ≠ 0 then (self, [Effect.ReleaseInputFocus found.2 found.1])
    else (self, [])
  | Message.GameObjectTransformQuery m_Instance m_GameObjectId =>
    let id := svc.sscanf_X m_GameObjectId
    let found := findInstance svc self id
    if found.1 ≠ 0 then
      let reply : TransformReply :=
        { m_MessageId := svc.dmHashString32 svc.transformResultScriptName
          m_Instance := m_Instance
          m_Component := 255
          m_GameObjectId := svc.sizeof_GameObjectTransformResult
          m_Position := svc.GetPosition found.1
          m_Rotation := svc.GetRotation found.1
          tail := String.mk (m_GameObjectId.data.take 8) }
      (self, [Effect.Post svc.GetReplyMessageSocketId svc.GetMessageId reply
        svc.INSTANCE_MESSAGE_MAX])
    else (self, [Effect.LogWarning "Could not find instance with id %d (%s)."])
  | Message.DrawString _ => (self, [Effect.call "dmRender::FontRendererDrawString"])
  | Message.DrawLine => (self, [Effect.call "dmRenderDebug::Line3D"])
  | Message.SetTimeStep m_Factor m_Mode =>
    ({ self with m_TimeStepFactor := m_Factor, m_TimeStepMode := m_Mode, m_WarpTimeStep := true },
      [])
  | Message.RayCastRequest m_Instance =>
    let id := svc.GetIdentifier m_Instance
    let found := findInstance svc self id
    (self, [Effect.RequestRayCast found.2 m_Instance])
  | Message.other m_MessageId =>
    if m_MessageId = svc.dmHashString32 "toggle_profile" then
      ({ self with m_ShowProfile := !self.m_ShowProfile }, [])
    else if m_MessageId = svc.dmHashString32 "reset_time_step" then
      ({ self with m_WarpTimeStep := false }, [])
    else (self, [Effect.LogError "Unknown message"])

/-- Drains the queue of the socket through the handler, oldest message first:
`dmMessage::Dispatch(socket, &Dispatch, engine)`. -/
def dispatchQueue (svc : Services) : List Message → Engine → Engine × List Effect
  | [], self => (self, [])
  | m :: rest, self =>
    let handled := Dispatch svc self m
    let later := dispatchQueue svc rest handled.1
    (later.1, handled.2 ++ later.2)

/-- What one pass of the loop of `Run` finds outside the engine: whether ESC is held, the
active input actions and the messages queued on the register's socket. -/
structure FrameInput where
  esc : Bool
  actions : List InputAction
  messages : List Message
  deriving DecidableEq, Repr

/-- The state the loop of `Run` carries from pass to pass: the engine and the local
`accumulated_time`. -/
structure LoopState where
  engine : Engine
  accumulated_time : Rat
  deriving DecidableEq, Repr

/-- The step `dt` of a frame and the new `accumulated_time`: the time-step block of `Run`,
with `fixed_dt = 1 / 60`. -/
def frameDT (engine : Engine) (accumulated_time : Rat) : Rat × Rat :=
  let fixed_dt : Rat := 1 / 60
  let dt := fixed_dt
  if engine.m_WarpTimeStep then
    let warped_dt := dt * engine.m_TimeStepFactor
    match engine.m_TimeStepMode with
    | TimeStepMode.TIME_STEP_MODE_CONTINUOUS => (warped_dt, accumulated_time)
    | TimeStepMode.TIME_STEP_MODE_DISCRETE =>
      let accumulated_time := accumulated_time + warped_dt
      if accumulated_time ≥ fixed_dt then (fixed_dt + accumulated_time - fixed_dt, 0)
      else (0, accumulated_time)
  else (dt, accumulated_time)

/-- One pass of the loop of `Run`.  The result is the state after the pass, the calls made,
in order, and whether the pass left the loop through `break`.  Calls that only draw, measure
or poll are recorded by name. -/
def Frame (svc : Services) (st : LoopState) (input : FrameInput) :
    LoopState × List Effect × Bool :=
  let pre := [Effect.call "dmProfile::Begin", Effect.call "dmResource::UpdateFactory",
    Effect.call "Reload", Effect.call "dmHID::Update", Effect.call "dmSound::Update",
    Effect.call "dmHID::GetKeyboardPacket"]
  if input.esc then
    ({ st with engine := { st.engine with m_Alive := false } }, pre, true)
  else
    let fixed_dt : Rat := 1 / 60
    let stepped := frameDT st.engine st.accumulated_time
    let dt := stepped.1
    let e1 := { st.engine with m_InputBuffer := input.actions }
    let inputPhase :=
      if e1.m_InputBuffer.length > 0 then
        [Effect.DispatchInput [e1.m_MainCollection, e1.m_ActiveCollection] e1.m_InputBuffer]
      else []
    let dispatched := dispatchQueue svc input.messages e1
    let e2 := dispatched.1
    let collections := [e2.m_ActiveCollection, e2.m_MainCollection]
    let showFPS :=
      if e2.m_ShowFPS then
        [Effect.call "dmRender::FontRendererDrawString",
          Effect.call "dmRender::FontRendererDrawString",
          Effect.call "dmRender::FontRendererDrawString", Effect.call "dmRender::FontRendererFlush"]
      else []
    let showProfile := if e2.m_ShowProfile then [Effect.call "dmProfileRender::Draw"] else []
    ({ engine := e2, accumulated_time := stepped.2 },
      pre ++
        [Effect.call "dmInput::UpdateBinding", Effect.call "dmGraphics::Clear",
          Effect.call "dmGraphics::SetViewport", Effect.call "dmInput::ForEachActive"] ++
        inputPhase ++ [Effect.MessageDispatch svc.GetMessageSocketId] ++ dispatched.2 ++
        [Effect.Update collections [dt, fixed_dt], Effect.PostUpdate collections] ++
        showFPS ++ [Effect.call "dmProfile::End"] ++ showProfile ++
        [Effect.call "dmRender::SetViewProjectionMatrix", Effect.call "dmRenderDebug::Update",
          Effect.call "dmRender::Update", Effect.call "dmGraphics::Flip"],
      false)

/-- The loop of `Run` over the passes for which input is given: the state it ends in and the
calls of each pass. -/
def runLoop (svc : Services) : List FrameInput → LoopState → LoopState × List (List Effect)
  | [], st => (st, [])
  | input :: rest, st =>
    if st.engine.m_Alive then
      let pass := Frame svc st input
      if pass.2.2 then (pass.1, [pass.2.1])
      else
        let later := runLoop svc rest pass.1
        (later.1, pass.2.1 :: later.2)
    else (st, [])

/-- Runs the engine over the given passes and returns the exit code with the calls of each
pass: `Run`. -/
def Run (svc : Services) (engine : Engine) (inputs : List FrameInput) :
    Int × List (List Effect) :=
  let ended := runLoop svc inputs
    { engine := { engine with m_Alive := true, m_ExitCode := 0 }, accumulated_time := 0 }
  (ended.1.engine.m_ExitCode, ended.2)

/-- The four phases of a frame. -/
inductive Phase where
  | InputDispatch
  | MessageDispatch
  | ComponentUpdate
  | PostUpdate
  deriving DecidableEq, Repr

/-- The phase a call starts, if it is one of the four phase calls. -/
def Effect.phase? : Effect → Option Phase
  | Effect.DispatchInput _ _ => some Phase.InputDispatch
  | Effect.MessageDispatch _ => some Phase.MessageDispatch
  | Effect.Update _ _ => some Phase.ComponentUpdate
  | Effect.PostUpdate _ => some Phase.PostUpdate
  | _ => none

/-- The phases of a pass, in the order their calls are made. -/
def phases (calls : List Effect) : List Phase :=
  calls.filterMap Effect.phase?

/-- Whether a call is one of those a skipped message must not cause: taking or releasing input
focus, or posting a reply. -/
def Effect.acts : Effect → Bool
  | Effect.AcquireInputFocus _ _ => true
  | Effect.ReleaseInputFocus _ _ => true
  | Effect.Post _ _ _ _ => true
  | _ => false

/-- Sample services: collection 1 holds the instance 11 under id 10, collection 2 the
instance 22 under id 32; hexadecimal ids of one digit are read, everything else reads as 0. -/
def sampleServices : Services where
  GetInstanceFromIdentifier := fun c id =>
    if c = 1 ∧ id = 10 then 11 else if c = 2 ∧ id = 32 then 22 else 0
  GetIdentifier := fun i => i
  sscanf_X := fun s =>
    match s.data with
    | [c] => if c.isDigit then c.toNat - 48 else if c = 'A' then 10 else 0
    | _ => 0
  ResourceGet := fun _ => none
  dmHashString32 := fun s => (s.data.map Char.toNat).sum
  transformResultScriptName := "transform_result"
  GetMessageSocketId := 1
  GetReplyMessageSocketId := 2
  GetMessageId := 3
  GetPosition := fun i => i
  GetRotation := fun i => i
  sizeof_InstanceMessageData := 32
  sizeof_GameObjectTransformResult := 48
  INSTANCE_MESSAGE_MAX := 256

/-- A sample engine with main collection 1 and active collection 2. -/
def sampleEngine : Engine :=
  { m_Alive := true, m_ExitCode := 0, m_MainCollection := 1, m_Collections := [(5, 2)],
    m_ActiveCollection := 2, m_ShowFPS := true, m_ShowProfile := false, m_WarpTimeStep := false,
    m_TimeStepFactor := 1, m_TimeStepMode := TimeStepMode.TIME_STEP_MODE_DISCRETE,
    m_InputBuffer := [] }

/-- Input for two passes: one input action and a message in the first, an exit message and no
input action in the second. -/
def sampleInputs : List FrameInput :=
  [⟨false, [⟨1, 1, true, false, false⟩], [Message.AcquireInputFocus "A"]⟩,
   ⟨false, [], [Message.Exit 3]⟩]

/-- The calls of the second pass of the sample run. -/
def sampleSecondPass : List Effect :=
  ((Run sampleServices sampleEngine sampleInputs).2.get? 1).getD []

/-- The collections and time steps of a call of `dmGameObject::Update`. -/
def Effect.update? : Effect → Option (List HCollection × List Rat)
  | Effect.Update collections m_DT => some (collections, m_DT)
  | _ => none

/-- The calls of `dmGameObject::Update` among the calls of a pass: the collections and the
time step given to each. -/
def updates (calls : List Effect) : List (List HCollection × List Rat) :=
  calls.filterMap Effect.update?

/-- The code of the last `Exit` message of a queue, if it holds one. -/
def lastExit : List Message → Option Int
  | [] => none
  | Message.Exit m_Code :: rest =>
    match lastExit rest with
    | some c => some c
    | none => some m_Code
  | Message.LoadCollection _ :: rest => lastExit rest
  | Message.UnloadCollection _ :: rest => lastExit rest
  | Message.ActivateCollection _ :: rest => lastExit rest
  | Message.AcquireInputFocus _ :: rest => lastExit rest
  | Message.ReleaseInputFocus _ :: rest => lastExit rest
  | Message.GameObjectTransformQuery _ _ :: rest => lastExit rest
  | Message.DrawString _ :: rest => lastExit rest
  | Message.DrawLine :: rest => lastExit rest
  | Message.SetTimeStep _ _ :: rest => lastExit rest
  | Message.RayCastRequest _ :: rest => lastExit rest
  | Message.other _ :: rest => lastExit rest

/-- A sample engine in continuous time-step mode with factor 2. -/
def warpedEngine : Engine :=
  { sampleEngine with
    m_WarpTimeStep := true, m_TimeStepFactor := 2,
    m_TimeStepMode := TimeStepMode.TIME_STEP_MODE_CONTINUOUS }

/-- The frame delta-time as described: 1/60 when no time-step warp is set, factor/60 in
continuous warp mode, and in discrete warp mode the accumulated step once it has reached
1/60, else 0. -/
def spec_frameDT (engine : Engine) (accumulated_time : Rat) : Rat :=
  if engine.m_WarpTimeStep = false then 1 / 60
  else
    match engine.m_TimeStepMode with
    | TimeStepMode.TIME_STEP_MODE_CONTINUOUS => engine.m_TimeStepFactor / 60
    | TimeStepMode.TIME_STEP_MODE_DISCRETE =>
      if accumulated_time + engine.m_TimeStepFactor / 60 < 1 / 60 then 0
      else accumulated_time + engine.m_TimeStepFactor / 60

/-- Whether a message leaves the loop running and the time step as it is set: it is no `Exit`,
no `SetTimeStep` and not one of the messages known by their id only. -/
def Message.keepsTimeStep : Message → Bool
  | Message.Exit _ => false
  | Message.LoadCollection _ => true
  | Message.UnloadCollection _ => true
  | Message.ActivateCollection _ => true
  | Message.AcquireInputFocus _ => true
  | Message.ReleaseInputFocus _ => true
  | Message.GameObjectTransformQuery _ _ => true
  | Message.DrawString _ => true
  | Message.DrawLine => true
  | Message.SetTimeStep _ _ => false
  | Message.RayCastRequest _ => true
  | Message.other _ => false

/-- The step given to the active collection in each pass, in order: the first entry of the
steps of every call of `dmGameObject::Update`. -/
def activeSteps : List (List Effect) → List Rat
  | [] => []
  | calls :: rest => (updates calls).map (fun u => u.2.headD 0) ++ activeSteps rest

/-- The size of the local buffer `buf` in which `Dispatch` builds the reply to a transform
query: `offset + 9` with
`offset = sizeof(InstanceMessageData) + sizeof(GameObjectTransformResult)`. -/
def replyBufferSize (svc : Services) : Nat :=
  svc.sizeof_InstanceMessageData + svc.sizeof_GameObjectTransformResult + 9

/-- Whether a pass that starts with this engine takes the discrete branch of the time-step
block of `Run`: the time step is warped and the mode is the discrete one. -/
def Engine.discrete (engine : Engine) : Bool :=
  engine.m_WarpTimeStep &&
    decide (engine.m_TimeStepMode = TimeStepMode.TIME_STEP_MODE_DISCRETE)

/-- The state of the loop of `Run` once the given passes have run: the engine and the local
`accumulated_time` with which the next pass starts. -/
def passStart (svc : Services) (engine : Engine) (passes : List FrameInput) : LoopState :=
  (runLoop svc passes
    { engine := { engine with m_Alive := true, m_ExitCode := 0 }, accumulated_time := 0 }).1

/-- Input for one pass that dispatches a `SetTimeStep` with factor 1/2 and the discrete
mode. -/
def enterDiscrete : List FrameInput :=
  [⟨false, [], [Message.SetTimeStep (1 / 2) TimeStepMode.TIME_STEP_MODE_DISCRETE]⟩]

/-- Input for three passes that dispatch nothing. -/
def quietPasses : List FrameInput :=
  [⟨false, [], []⟩, ⟨false, [], []⟩, ⟨false, [], []⟩]

/-- Input for four passes: the first sets the discrete mode with factor 1/2, the second
dispatches `reset_time_step`, the third sets the discrete mode with factor 1/2 again and
the fourth dispatches nothing. -/
def resetInputs : List FrameInput :=
  [⟨false, [], [Message.SetTimeStep (1 / 2) TimeStepMode.TIME_STEP_MODE_DISCRETE]⟩,
   ⟨false, [], [Message.other (sampleServices.dmHashString32 "reset_time_step")]⟩,
   ⟨false, [], [Message.SetTimeStep (1 / 2) TimeStepMode.TIME_STEP_MODE_DISCRETE]⟩,
   ⟨false, [], []⟩]

/-- Input for three passes: the first sets the discrete mode with factor 1/2, the second sets
it with factor 1/4 and the third dispatches nothing. -/
def refactorInputs : List FrameInput :=
  [⟨false, [], [Message.SetTimeStep (1 / 2) TimeStepMode.TIME_STEP_MODE_DISCRETE]⟩,
   ⟨false, [], [Message.SetTimeStep (1 / 4) TimeStepMode.TIME_STEP_MODE_DISCRETE]⟩,
   ⟨false, [], []⟩]

end dmEngine

/-! # Theorems -/

namespace dmGameObject

/-! ## Bookkeeping: what the steps of a load leave alone -/

@[simp] theorem World.store_heap_same (w : World) (a : Nat) (s : Script) :
    (w.store a s).heap a = s := by
  simp [World.store]

theorem World.store_heap_other (w : World) {a b : Nat} (s : Script) (h : b ≠ a) :
    (w.store a s).heap b = w.heap b := by
  simp [World.store, h]

@[simp] theorem World.store_L (w : World) (a : Nat) (s : Script) : (w.store a s).L = w.L := rfl

@[simp] theorem World.modify_L (w : World) (a : Nat) (f : Script → Script) :
    (w.modify a f).L = w.L := rfl

@[simp] theorem World.modify_heap_same (w : World) (a : Nat) (f : Script → Script) :
    (w.modify a f).heap a = f (w.heap a) := by
  simp [World.modify]

theorem World.modify_heap_other (w : World) {a b : Nat} (f : Script → Script) (h : b ≠ a) :
    (w.modify a f).heap b = w.heap b := by
  simp [World.modify, World.store, h]

/-- A change of the script at one address that keeps a field keeps it at every address. -/
theorem World.modify_field {β : Type} (g : Script → β) (w : World) (a b : Nat)
    (f : Script → Script) (hf : ∀ s, g (f s) = g s) :
    g ((w.modify a f).heap b) = g (w.heap b) := by
  by_cases h : b = a
  · subst h; simp [hf]
  · rw [World.modify_heap_other w f h]

theorem untouched_refl (w : World) : Untouched w w := fun _ => ⟨rfl, rfl, rfl⟩

theorem untouched_trans {w w1 w2 : World} (h1 : Untouched w w1) (h2 : Untouched w1 w2) :
    Untouched w w2 := fun a =>
  ⟨(h2 a).1.trans (h1 a).1, (h2 a).2.1.trans (h1 a).2.1, (h2 a).2.2.trans (h1 a).2.2⟩

theorem untouched_modify_defs (w : World) (a : Nat) (f : dmArray PropertyDef → dmArray PropertyDef) :
    Untouched w (w.modify a (fun s => { s with m_PropertyDefs := f s.m_PropertyDefs })) := by
  intro b
  refine ⟨?_, ?_, ?_⟩
  · exact World.modify_field (fun s => s.m_FunctionReferences) w a b _ (fun _ => rfl)
  · exact World.modify_field (fun s => s.m_OldPropertyDefs) w a b _ (fun _ => rfl)
  · exact World.modify_field (fun s => s.m_Properties) w a b _ (fun _ => rfl)

theorem Script_Property_L (env : Collaborators) (w : World) (args : List LuaValue) :
    (Script_Property env w args).state.L = w.L := by
  unfold Script_Property
  simp only []
  split
  · rfl
  · split
    · rfl
    · split <;> split <;> simp [CallResult.state]

theorem Script_Property_untouched (env : Collaborators) (w : World) (args : List LuaValue) :
    Untouched w (Script_Property env w args).state := by
  unfold Script_Property
  simp only []
  split
  · exact untouched_refl w
  · split
    · exact untouched_refl w
    · have h1 : Untouched w
          (if (w.heap (lua_touserdata (lua_getglobal w.L SCRIPT_NAME))).m_PropertyDefs.Full = true then
            w.modify (lua_touserdata (lua_getglobal w.L SCRIPT_NAME))
              (fun s => { s with m_PropertyDefs := s.m_PropertyDefs.OffsetCapacity 8 })
          else w) := by
        split
        · exact untouched_modify_defs w _ (fun d => d.OffsetCapacity 8)
        · exact untouched_refl w
      split
      · exact untouched_trans h1 (untouched_modify_defs _ _ (fun d => d.Push _))
      · exact h1

theorem exec_untouched (env : Collaborators) (body : List Stmt) (w : World) :
    Untouched w (exec env body w).state := by
  induction body generalizing w with
  | nil => exact untouched_refl w
  | cons st rest ih =>
    cases st with
    | assign name v => exact ih _
    | property args =>
      have h := Script_Property_untouched env w args
      simp only [exec]
      split
      · rename_i w1 heq
        rw [heq] at h
        exact untouched_trans h (ih w1)
      · rename_i msg w1 heq
        rw [heq] at h
        exact h
    | pcall_property args =>
      have h := Script_Property_untouched env w args
      simp only [exec]
      split
      · rename_i w1 heq
        rw [heq] at h
        exact untouched_trans h (ih w1)
      · rename_i msg w1 heq
        rw [heq] at h
        exact untouched_trans h (ih w1)
    | error msg => exact untouched_refl w

theorem sameProperties_refl (w : World) : SameProperties w w := fun _ => ⟨rfl, rfl, rfl⟩

theorem sameProperties_trans {w w1 w2 : World} (h1 : SameProperties w w1)
    (h2 : SameProperties w1 w2) : SameProperties w w2 := fun a =>
  ⟨(h2 a).1.trans (h1 a).1, (h2 a).2.1.trans (h1 a).2.1, (h2 a).2.2.trans (h1 a).2.2⟩

theorem sameProperties_modify_refs (w : World) (a : Nat) (f : (Fin 6 → Int) → Fin 6 → Int) :
    SameProperties w
      (w.modify a (fun s => { s with m_FunctionReferences := f s.m_FunctionReferences })) := by
  intro b
  refine ⟨?_, ?_, ?_⟩
  · exact World.modify_field (fun s => s.m_PropertyDefs) w a b _ (fun _ => rfl)
  · exact World.modify_field (fun s => s.m_OldPropertyDefs) w a b _ (fun _ => rfl)
  · exact World.modify_field (fun s => s.m_Properties) w a b _ (fun _ => rfl)

theorem bindCallbacks_sameProperties (script : Nat) (slots : List (Fin 6)) (w : World) :
    SameProperties w (bindCallbacks script slots w).2 := by
  induction slots generalizing w with
  | nil => exact sameProperties_refl w
  | cons i rest ih =>
    simp only [bindCallbacks]
    split
    · exact sameProperties_trans (sameProperties_modify_refs w script
        (fun r j => if j = i then LUA_NOREF else r j)) (ih _)
    · rename_i f _
      exact sameProperties_trans
        (sameProperties_modify_refs ({ w with L := (luaL_ref w.L (LuaValue.function f)).2 } : World)
          script (fun r j => if j = i then (luaL_ref w.L (LuaValue.function f)).1 else r j))
        (ih _)
    · exact sameProperties_refl w

@[simp] theorem resetCallbacks_heap (slots : List (Fin 6)) (w : World) :
    (resetCallbacks slots w).heap = w.heap := by
  induction slots generalizing w with
  | nil => rfl
  | cons i rest ih => simp [resetCallbacks, ih]

/-- Loading a script never writes the previous definitions or the default store of any
script. -/
theorem LoadScript_keeps_stores (env : Collaborators) (w : World) (buffer : LuaSource)
    (script a : Nat) :
    ((LoadScript env w buffer script).2.heap a).m_OldPropertyDefs = (w.heap a).m_OldPropertyDefs ∧
    ((LoadScript env w buffer script).2.heap a).m_Properties = (w.heap a).m_Properties := by
  have h0 : ∀ b, ((w.modify script
      (fun s => { s with m_FunctionReferences := fun _ => LUA_NOREF })).heap b).m_OldPropertyDefs
        = (w.heap b).m_OldPropertyDefs ∧
      ((w.modify script
      (fun s => { s with m_FunctionReferences := fun _ => LUA_NOREF })).heap b).m_Properties
        = (w.heap b).m_Properties := fun b =>
    ⟨World.modify_field (fun s => s.m_OldPropertyDefs) w script b _ (fun _ => rfl),
     World.modify_field (fun s => s.m_Properties) w script b _ (fun _ => rfl)⟩
  unfold LoadScript
  simp only []
  split
  · rename_i body _
    have he := exec_untouched env body
      ({ (w.modify script (fun s => { s with m_FunctionReferences := fun _ => LUA_NOREF })) with
          L := lua_setglobal (w.modify script
            (fun s => { s with m_FunctionReferences := fun _ => LUA_NOREF })).L SCRIPT_NAME
              (LuaValue.lightuserdata script) } : World)
    split
    · rename_i w2 heq
      rw [heq] at he
      have hb := bindCallbacks_sameProperties script allSlots w2
      split
      · rename_i w3 hbe
        rw [hbe] at hb
        simp only [resetCallbacks_heap]
        exact ⟨((hb a).2.1.trans (he a).2.1).trans (h0 a).1,
          ((hb a).2.2.trans (he a).2.2).trans (h0 a).2⟩
      · rename_i w3 hbe
        rw [hbe] at hb
        simp only [resetCallbacks_heap]
        exact ⟨((hb a).2.1.trans (he a).2.1).trans (h0 a).1,
          ((hb a).2.2.trans (he a).2.2).trans (h0 a).2⟩
    · rename_i msg w2 heq
      rw [heq] at he
      simp only [resetCallbacks_heap]
      exact ⟨(he a).2.1.trans (h0 a).1, (he a).2.2.trans (h0 a).2⟩
  · simp only [resetCallbacks_heap]
    exact h0 a

theorem LoadProperties_false (env : Collaborators) (defs : dmArray PropertyDef)
    (out : Properties) (h : (LoadProperties env defs out).1 = false) :
    (LoadProperties env defs out).2 = out := by
  unfold LoadProperties at h ⊢
  by_cases h0 : defs.Size = 0
  · simp [h0]
  · by_cases h1 : 1024 < (env.SerializeProperties defs.data).length
    · simp [h0, h1]
    · simp [h0, h1] at h

/-! ## Failed reloads -/

/-- C2: whenever `ReloadScript` returns false, the script's property definitions
`m_PropertyDefs` (the whole array: names, ids, type tags, defaults, order) and its default
store `m_Properties` are what they were before the call; what the failed source declared is
gone. -/
theorem ReloadScript_failure_keeps_properties (env : Collaborators) (w : World) (script : Nat)
    (buffer : LuaSource) (hfail : (ReloadScript env w script buffer).1 = false) :
    ((ReloadScript env w script buffer).2.heap script).m_PropertyDefs
        = (w.heap script).m_PropertyDefs ∧
      ((ReloadScript env w script buffer).2.heap script).m_Properties
        = (w.heap script).m_Properties := by
  have hk := LoadScript_keeps_stores env
    (w.modify script (fun s => { s with m_PropertyDefs := dmArray.empty })) buffer script script
  simp only [World.modify_heap_same] at hk
  unfold ReloadScript at hfail ⊢
  simp only [dmArray.Swap] at hfail ⊢
  generalize LoadScript env
    (w.modify script (fun s => { s with m_PropertyDefs := dmArray.empty })) buffer script
      = loaded at hfail hk ⊢
  obtain ⟨ok, w2⟩ := loaded
  cases ok
  · simp only [Bool.false_eq_true, if_false, World.modify_heap_same, true_and]
    exact hk.2
  · simp only [if_true] at hfail ⊢
    generalize hr : LoadProperties env (w2.heap script).m_PropertyDefs
      (w2.heap script).m_Properties = r at hfail ⊢
    obtain ⟨okp, props⟩ := r
    cases okp
    · have hp := LoadProperties_false env (w2.heap script).m_PropertyDefs
        (w2.heap script).m_Properties (by rw [hr])
      rw [hr] at hp
      simp only [Bool.false_eq_true, if_false, World.modify_heap_same, true_and]
      exact hp.trans hk.2
    · simp at hfail

/-- C2, at a concrete input: the sample script is reloaded from a source that declares the
property `mana` and then fails. -/
theorem ReloadScript_failure_keeps_properties_witness :
    (ReloadScript sampleEnv sampleWorld 1 failingSource).1 = false ∧
      ((ReloadScript sampleEnv sampleWorld 1 failingSource).2.heap 1).m_PropertyDefs
        = (sampleWorld.heap 1).m_PropertyDefs ∧
      ((ReloadScript sampleEnv sampleWorld 1 failingSource).2.heap 1).m_Properties
        = (sampleWorld.heap 1).m_Properties :=
  ⟨by decide, ReloadScript_failure_keeps_properties sampleEnv sampleWorld 1 failingSource
    (by decide)⟩

/-- C1, evaluated: the sample script has `init` bound to registry reference 1 and `update`
unbound.  A reload from a source that fails at run time, or that does not compile, returns
false and leaves slot `init` at `LUA_NOREF`; a reload from a source that defines `init` and
binds `update` to a number returns false and leaves slot `init` bound to the new reference 2.
In no case are the slots what they were before the call. -/
theorem ReloadScript_failure_changes_slots :
    (sampleWorld.heap 1).m_FunctionReferences 0 = 1 ∧
      (ReloadScript sampleEnv sampleWorld 1 failingSource).1 = false ∧
      ((ReloadScript sampleEnv sampleWorld 1 failingSource).2.heap 1).m_FunctionReferences 0
        = LUA_NOREF ∧
      (ReloadScript sampleEnv sampleWorld 1 (LuaSource.malformed "syntax error")).1 = false ∧
      ((ReloadScript sampleEnv sampleWorld 1
        (LuaSource.malformed "syntax error")).2.heap 1).m_FunctionReferences 0 = LUA_NOREF ∧
      (ReloadScript sampleEnv sampleWorld 1 nonFunctionSource).1 = false ∧
      ((ReloadScript sampleEnv sampleWorld 1 nonFunctionSource).2.heap 1).m_FunctionReferences 0
        = 2 := by
  decide

/-- C3, evaluated: the sample script, whose store holds the default of `hp`, is reloaded from a
source that declares no property.  The reload succeeds and the script has no definition any
more, but its store still holds the serialised default of `hp` instead of the serialisation
of the (empty) new definitions. -/
theorem ReloadScript_success_keeps_stale_store :
    (sampleWorld.heap 1).m_Properties.m_Buffer = [216] ∧
      (ReloadScript sampleEnv sampleWorld 1
        (LuaSource.chunk [Stmt.assign "init" (LuaValue.function 9)])).1 = true ∧
      ((ReloadScript sampleEnv sampleWorld 1
        (LuaSource.chunk [Stmt.assign "init" (LuaValue.function 9)])).2.heap 1).m_PropertyDefs.data
          = [] ∧
      ((ReloadScript sampleEnv sampleWorld 1
        (LuaSource.chunk [Stmt.assign "init" (LuaValue.function 9)])).2.heap 1).m_Properties.m_Buffer
          = [216] ∧
      sampleEnv.SerializeProperties [] = [] := by
  decide

/-! ## Which callbacks a load binds -/

theorem callback_name_ne_script_name (i : Fin 6) : SCRIPT_FUNCTION_NAMES i ≠ SCRIPT_NAME := by
  revert i; decide

theorem mem_allSlots (i : Fin 6) : i ∈ allSlots := by
  revert i; decide

theorem allSlots_nodup : allSlots.Nodup := by decide

theorem luaL_ref_globals (L : lua_State) (v : LuaValue) : (luaL_ref L v).2.globals = L.globals := by
  unfold luaL_ref
  split
  · rfl
  · split <;> rfl

theorem luaL_ref_ne_noref (L : lua_State) (f : Nat) :
    (luaL_ref L (LuaValue.function f)).1 ≠ LUA_NOREF := by
  unfold luaL_ref LUA_NOREF
  simp only [reduceCtorEq, if_false]
  split
  · simp
  · simp; omega

theorem exec_globals (env : Collaborators) (body : List Stmt) (w w2 : World)
    (h : exec env body w = CallResult.returned w2) (name : String) :
    w2.L.globals name = (lastAssigned body name).getD (w.L.globals name) := by
  induction body generalizing w with
  | nil =>
    simp only [exec, CallResult.returned.injEq] at h
    simp [lastAssigned, h]
  | cons st rest ih =>
    cases st with
    | assign n v =>
      simp only [exec] at h
      have := ih _ h
      rw [this]
      simp only [lastAssigned, lua_setglobal]
      cases lastAssigned rest name with
      | none =>
        by_cases hn : n = name
        · simp [hn]
        · have hn2 : ¬ name = n := fun e => hn e.symm
          simp [hn, hn2]
      | some x => simp
    | property args =>
      have hL := Script_Property_L env w args
      simp only [exec] at h
      split at h
      · rename_i w1 heq
        rw [heq] at hL
        have := ih _ h
        rw [this, lastAssigned]
        simp only [CallResult.state] at hL
        rw [hL]
      · cases h
    | pcall_property args =>
      have hL := Script_Property_L env w args
      simp only [exec] at h
      split at h
      · rename_i w1 heq
        rw [heq] at hL
        have := ih _ h
        rw [this, lastAssigned]
        simp only [CallResult.state] at hL
        rw [hL]
      · rename_i msg w1 heq
        rw [heq] at hL
        have := ih _ h
        rw [this, lastAssigned]
        simp only [CallResult.state] at hL
        rw [hL]
    | error msg => simp [exec] at h

theorem bindCallbacks_globals (script : Nat) (slots : List (Fin 6)) (w : World) :
    (bindCallbacks script slots w).2.L.globals = w.L.globals := by
  induction slots generalizing w with
  | nil => rfl
  | cons i rest ih =>
    simp only [bindCallbacks]
    split
    · rw [ih]; rfl
    · rw [ih]; exact luaL_ref_globals _ _
    · rfl

theorem bindCallbacks_other_slot (script : Nat) (slots : List (Fin 6)) (w : World) (i : Fin 6)
    (hi : i ∉ slots) :
    ((bindCallbacks script slots w).2.heap script).m_FunctionReferences i
      = (w.heap script).m_FunctionReferences i := by
  induction slots generalizing w with
  | nil => rfl
  | cons j rest ih =>
    have hij : i ≠ j := fun e => hi (e ▸ List.mem_cons_self _ _)
    have hrest : i ∉ rest := fun e => hi (List.mem_cons_of_mem _ e)
    simp only [bindCallbacks]
    split
    · rw [ih _ hrest]; simp [hij]
    · rw [ih _ hrest]; simp [hij]
    · rfl

theorem bindCallbacks_true_iff (script : Nat) (slots : List (Fin 6)) (w : World) :
    (bindCallbacks script slots w).1 = true ↔
      ∀ i ∈ slots, w.L.globals (SCRIPT_FUNCTION_NAMES i) = LuaValue.nil ∨
        isFunction (w.L.globals (SCRIPT_FUNCTION_NAMES i)) = true := by
  induction slots generalizing w with
  | nil => simp [bindCallbacks]
  | cons j rest ih =>
    simp only [bindCallbacks, lua_getglobal, List.forall_mem_cons]
    split
    · rename_i hg
      rw [ih]
      simp [hg]
    · rename_i f hg
      rw [ih]
      simp only [World.modify_L, luaL_ref_globals, hg, isFunction, or_true, true_and]
    · rename_i hnil hfun
      constructor
      · intro h; simp at h
      · rintro ⟨h | h, _⟩
        · exact absurd h hnil
        · cases hv : w.L.globals (SCRIPT_FUNCTION_NAMES j) <;> simp_all [isFunction]

theorem bindCallbacks_slot (script : Nat) (slots : List (Fin 6)) (w : World)
    (hok : (bindCallbacks script slots w).1 = true) (hnd : slots.Nodup) (i : Fin 6)
    (hi : i ∈ slots) :
    (isFunction (w.L.globals (SCRIPT_FUNCTION_NAMES i)) = true →
        ((bindCallbacks script slots w).2.heap script).m_FunctionReferences i ≠ LUA_NOREF) ∧
      (isFunction (w.L.globals (SCRIPT_FUNCTION_NAMES i)) = false →
        ((bindCallbacks script slots w).2.heap script).m_FunctionReferences i = LUA_NOREF) := by
  induction slots generalizing w with
  | nil => simp at hi
  | cons j rest ih =>
    have hj : j ∉ rest := (List.nodup_cons.mp hnd).1
    have hnd2 : rest.Nodup := (List.nodup_cons.mp hnd).2
    simp only [bindCallbacks, lua_getglobal] at hok ⊢
    split at hok
    · rename_i hg
      rcases List.mem_cons.mp hi with e | e
      · subst e
        rw [bindCallbacks_other_slot _ _ _ _ hj]
        simp [hg, isFunction]
      · exact ih _ hok hnd2 e
    · rename_i f hg
      rcases List.mem_cons.mp hi with e | e
      · subst e
        rw [bindCallbacks_other_slot _ _ _ _ hj]
        simp [hg, isFunction, luaL_ref_ne_noref]
      · have := ih _ hok hnd2 e
        simpa only [World.modify_L, luaL_ref_globals] using this
    · simp at hok

theorem resetCallbacks_globals (slots : List (Fin 6)) (w : World) (name : String)
    (h : w.L.globals name = LuaValue.nil ∨ ∃ i ∈ slots, SCRIPT_FUNCTION_NAMES i = name) :
    (resetCallbacks slots w).L.globals name = LuaValue.nil := by
  induction slots generalizing w with
  | nil =>
    rcases h with h | ⟨i, hi, _⟩
    · exact h
    · simp at hi
  | cons j rest ih =>
    simp only [resetCallbacks]
    apply ih
    by_cases hj : name = SCRIPT_FUNCTION_NAMES j
    · left; simp [lua_setglobal, hj]
    · rcases h with h | ⟨i, hi, hn⟩
      · left; simp [lua_setglobal, hj, h]
      · rcases List.mem_cons.mp hi with e | e
        · subst e; exact absurd hn.symm hj
        · right; exact ⟨i, e, hn⟩

theorem resetCallbacks_other_global (slots : List (Fin 6)) (w : World) (name : String)
    (h : ∀ i, SCRIPT_FUNCTION_NAMES i ≠ name) :
    (resetCallbacks slots w).L.globals name = w.L.globals name := by
  induction slots generalizing w with
  | nil => rfl
  | cons j rest ih =>
    simp only [resetCallbacks]
    rw [ih]
    simp [lua_setglobal, (h j).symm]

/-- Whatever way `LoadScript` ends, it leaves the six callback globals `nil`. -/
theorem LoadScript_resets_callbacks (env : Collaborators) (w : World) (buffer : LuaSource)
    (script : Nat) (i : Fin 6) :
    (LoadScript env w buffer script).2.L.globals (SCRIPT_FUNCTION_NAMES i) = LuaValue.nil := by
  have hi : ∀ w1 : World, (resetCallbacks allSlots w1).L.globals (SCRIPT_FUNCTION_NAMES i)
      = LuaValue.nil := fun w1 =>
    resetCallbacks_globals allSlots w1 _ (Or.inr ⟨i, mem_allSlots i, rfl⟩)
  unfold LoadScript
  simp only []
  split
  · split
    · split <;> exact hi _
    · exact hi _
  · exact hi _

theorem loadAll_resets_callbacks (env : Collaborators) (prior : List (LuaSource × Nat))
    (w0 : World) (h0 : ∀ i, w0.L.globals (SCRIPT_FUNCTION_NAMES i) = LuaValue.nil) (i : Fin 6) :
    (loadAll env prior w0).L.globals (SCRIPT_FUNCTION_NAMES i) = LuaValue.nil := by
  induction prior generalizing w0 with
  | nil => exact h0 i
  | cons p rest ih =>
    obtain ⟨buffer, script⟩ := p
    simp only [loadAll]
    exact ih _ (fun j => LoadScript_resets_callbacks env w0 buffer script j)

theorem LoadScript_of_chunk (env : Collaborators) (w : World) (buffer : LuaSource)
    (script : Nat) (body : List Stmt) (hb : lua_load buffer = some body) :
    LoadScript env w buffer script =
      match exec env body (chunkEntry w script) with
      | CallResult.returned w2 =>
        match bindCallbacks script allSlots w2 with
        | (true, w3) =>
          (true, resetCallbacks allSlots
            { w3 with L := lua_setglobal w3.L SCRIPT_NAME LuaValue.nil })
        | (false, w3) => (false, resetCallbacks allSlots w3)
      | CallResult.raised _ w2 =>
        (false, resetCallbacks allSlots
          { w2 with L := lua_setglobal w2.L SCRIPT_NAME LuaValue.nil }) := by
  unfold LoadScript
  simp only [hb]
  rfl

theorem LoadScript_malformed (env : Collaborators) (w : World) (buffer : LuaSource)
    (script : Nat) (hb : lua_load buffer = none) :
    LoadScript env w buffer script =
      (false, resetCallbacks allSlots
        (w.modify script (fun s => { s with m_FunctionReferences := fun _ => LUA_NOREF }))) := by
  unfold LoadScript
  simp only [hb]

/-- After a run that returns, a callback global that was `nil` before the run holds a function
exactly when the chunk itself defined one under that name. -/
theorem isFunction_after_run (env : Collaborators) (w w2 : World) (script : Nat)
    (body : List Stmt) (h : exec env body (chunkEntry w script) = CallResult.returned w2)
    (i : Fin 6) (hw : w.L.globals (SCRIPT_FUNCTION_NAMES i) = LuaValue.nil) :
    isFunction (w2.L.globals (SCRIPT_FUNCTION_NAMES i))
      = definesFunction body (SCRIPT_FUNCTION_NAMES i) := by
  rw [exec_globals env body _ w2 h]
  have he : (chunkEntry w script).L.globals (SCRIPT_FUNCTION_NAMES i) = LuaValue.nil := by
    simp [chunkEntry, lua_setglobal, callback_name_ne_script_name i, hw]
  rw [he]
  unfold definesFunction
  cases lastAssigned body (SCRIPT_FUNCTION_NAMES i) <;> simp [isFunction]

/-! ## `go.property` during a load -/

/-- The array is first grown when full, so the append always happens. -/
theorem dmArray.push_after_grow {α : Type} (a : dmArray α) (x : α) :
    ((if a.Full = true then a.OffsetCapacity 8 else a).Push x).data = a.data ++ [x] := by
  have hwf := a.wf
  by_cases hf : a.Full = true
  · have : a.data.length = a.capacity := by simpa [dmArray.Full] using hf
    simp only [hf, if_true, dmArray.Push, dmArray.OffsetCapacity]
    rw [dif_pos (by omega)]
  · have : a.data.length ≠ a.capacity := by simpa [dmArray.Full] using hf
    rw [if_neg hf]
    simp only [dmArray.Push]
    rw [dif_pos (by omega)]

theorem dmArray.grow_data {α : Type} (a : dmArray α) :
    (if a.Full = true then a.OffsetCapacity 8 else a).data = a.data := by
  split <;> rfl

/-- The state `go.property` works on after its capacity check. -/
theorem grown_defs (w : World) (script : Nat) :
    ((if (w.heap script).m_PropertyDefs.Full = true then
        w.modify script (fun s => { s with m_PropertyDefs := s.m_PropertyDefs.OffsetCapacity 8 })
      else w).heap script).m_PropertyDefs
      = (if (w.heap script).m_PropertyDefs.Full = true
          then (w.heap script).m_PropertyDefs.OffsetCapacity 8 else (w.heap script).m_PropertyDefs) := by
  split <;> simp

theorem grown_other (w : World) (script a : Nat) (h : a ≠ script) :
    (if (w.heap script).m_PropertyDefs.Full = true then
        w.modify script (fun s => { s with m_PropertyDefs := s.m_PropertyDefs.OffsetCapacity 8 })
      else w).heap a = w.heap a := by
  split
  · exact World.modify_heap_other w _ h
  · rfl

/-- What `go.property` does while the global `SCRIPT_NAME` refers to a script: the call is
accepted exactly when it declares a definition, which is then appended to that script's
definitions; a rejected call leaves the definitions as they are; no other script changes. -/
theorem Script_Property_during_load (env : Collaborators) (w : World) (script : Nat)
    (args : List LuaValue)
    (hs : w.L.globals SCRIPT_NAME = LuaValue.lightuserdata script) (h0 : script ≠ 0) :
    ((Script_Property env w args).error? = none ↔ (declared env args).isSome = true) ∧
      ((Script_Property env w args).state.heap script).m_PropertyDefs.data
        = (w.heap script).m_PropertyDefs.data ++ (declared env args).toList ∧
      ∀ a, a ≠ script → (Script_Property env w args).state.heap a = w.heap a := by
  unfold Script_Property declared
  simp only [lua_getglobal, hs, lua_touserdata, h0, if_false]
  cases luaL_checkstring env (args.get? 0) with
  | none => simp [CallResult.error?, CallResult.state]
  | some id =>
    cases propertyDefault env (args.get? 1) with
    | none =>
      simp only [CallResult.error?, CallResult.state, Option.isSome_none, Option.toList_none,
        List.append_nil, reduceCtorEq, Bool.false_eq_true]
      refine ⟨trivial, ?_, fun a ha => grown_other w script a ha⟩
      rw [grown_defs, dmArray.grow_data]
    | some tv =>
      obtain ⟨ty, val⟩ := tv
      simp only [CallResult.error?, CallResult.state, Option.isSome_some, Option.toList_some,
        World.modify_heap_same, true_and]
      refine ⟨?_, fun a ha => ?_⟩
      · rw [grown_defs, dmArray.push_after_grow]
      · rw [World.modify_heap_other _ _ ha]
        exact grown_other w script a ha

theorem declared_eq_spec (env : Collaborators) (name : String) (value : LuaValue) :
    declared env [LuaValue.string name, value] = spec_propertyDef env name value := by
  cases value with
  | string s =>
    cases hs : env.luaO_str2d s <;>
      simp [declared, luaL_checkstring, propertyDefault, lua_isnumber, lua_tonumber, content?,
        spec_propertyDef, hs]
  | userdata block c =>
    cases c <;>
      simp [declared, luaL_checkstring, propertyDefault, lua_isnumber, content?,
        spec_propertyDef]
  | _ =>
    simp [declared, luaL_checkstring, propertyDefault, lua_isnumber, lua_tonumber, content?,
      spec_propertyDef]

/-- C7 (amended): for a call `go.property(name, value)` made while a script is being loaded,
if `value` is a number, a string that reads as a number, a url, hash, vector3, vector4 or
quaternion, the call returns and exactly one definition (the name, the hash of the name, the
type tag of that kind with a numeric string counting as a number, the value as default) is
appended at the end of the script's definitions, all earlier ones unchanged; for every other
value an error is raised and the definitions are unchanged. -/
theorem Script_Property_appends_definition (env : Collaborators) (w : World) (script : Nat)
    (name : String) (value : LuaValue)
    (hs : w.L.globals SCRIPT_NAME = LuaValue.lightuserdata script) (h0 : script ≠ 0) :
    (∀ d, spec_propertyDef env name value = some d →
        (Script_Property env w [LuaValue.string name, value]).error? = none ∧
        ((Script_Property env w [LuaValue.string name, value]).state.heap script).m_PropertyDefs.data
          = (w.heap script).m_PropertyDefs.data ++ [d]) ∧
      (spec_propertyDef env name value = none →
        (Script_Property env w [LuaValue.string name, value]).error? ≠ none ∧
        ((Script_Property env w [LuaValue.string name, value]).state.heap script).m_PropertyDefs.data
          = (w.heap script).m_PropertyDefs.data) := by
  have h := Script_Property_during_load env w script [LuaValue.string name, value] hs h0
  rw [declared_eq_spec] at h
  constructor
  · intro d hd
    rw [hd] at h
    exact ⟨h.1.mpr rfl, h.2.1⟩
  · intro hn
    rw [hn] at h
    refine ⟨fun e => ?_, by simpa using h.2.1⟩
    have := h.1.mp e
    simp at this

/-- C7 (amended), at a concrete input: a vector3 default declared while script 1 is loaded. -/
theorem Script_Property_appends_definition_witness :
    (chunkEntry sampleWorld 1).L.globals SCRIPT_NAME = LuaValue.lightuserdata 1 ∧ (1 : Nat) ≠ 0 ∧
      (Script_Property sampleEnv (chunkEntry sampleWorld 1)
        [LuaValue.string "speed", LuaValue.userdata 64 (Userdata.vector3 1 2 3)]).error? = none ∧
      ((Script_Property sampleEnv (chunkEntry sampleWorld 1)
        [LuaValue.string "speed", LuaValue.userdata 64 (Userdata.vector3 1 2 3)]).state.heap 1).m_PropertyDefs.data
        = ((chunkEntry sampleWorld 1).heap 1).m_PropertyDefs.data ++
          [⟨"speed", 529, PropertyType.PROPERTY_TYPE_VECTOR3, PropertyValue.m_V4 [1, 2, 3]⟩] :=
  ⟨by decide, by decide,
    (Script_Property_appends_definition sampleEnv (chunkEntry sampleWorld 1) 1 "speed"
      (LuaValue.userdata 64 (Userdata.vector3 1 2 3)) (by decide) (by decide)).1 _ (by decide)⟩

/-- C7 as stated fails: the value `"100"` is a string, none of the six kinds, yet the call made
during a load returns without error and appends a number property with default 100. -/
theorem Script_Property_accepts_numeric_string :
    (Script_Property sampleEnv (chunkEntry emptyWorld 1)
        [LuaValue.string "hp", LuaValue.string "100"]).error? = none ∧
      ((chunkEntry emptyWorld 1).heap 1).m_PropertyDefs.data = [] ∧
      ((Script_Property sampleEnv (chunkEntry emptyWorld 1)
        [LuaValue.string "hp", LuaValue.string "100"]).state.heap 1).m_PropertyDefs.data
        = [⟨"hp", 216, PropertyType.PROPERTY_TYPE_NUMBER, PropertyValue.m_Number 100⟩] := by
  decide

/-- A chunk that never assigns the global `SCRIPT_NAME` and whose run returns has appended
exactly its declarations, in order, to the script under load. -/
theorem exec_declarations (env : Collaborators) (script : Nat) (h0 : script ≠ 0)
    (body : List Stmt) (w w2 : World)
    (hplain : ∀ v, Stmt.assign SCRIPT_NAME v ∉ body)
    (hs : w.L.globals SCRIPT_NAME = LuaValue.lightuserdata script)
    (h : exec env body w = CallResult.returned w2) :
    (w2.heap script).m_PropertyDefs.data
      = (w.heap script).m_PropertyDefs.data ++ declarations env body := by
  induction body generalizing w with
  | nil =>
    simp only [exec, CallResult.returned.injEq] at h
    simp [declarations, h]
  | cons st rest ih =>
    have hrest : ∀ v, Stmt.assign SCRIPT_NAME v ∉ rest := fun v hv =>
      hplain v (List.mem_cons_of_mem _ hv)
    cases st with
    | assign n v =>
      have hn : SCRIPT_NAME ≠ n := fun e => hplain v (by rw [e]; exact List.mem_cons_self _ _)
      simp only [exec] at h
      rw [ih _ hrest (by simp [lua_setglobal, hn, hs]) h, declarations]
    | property args =>
      have hL := Script_Property_L env w args
      have hP := Script_Property_during_load env w script args hs h0
      simp only [exec] at h
      split at h
      · rename_i w1 heq
        rw [heq] at hL hP
        simp only [CallResult.state] at hL hP
        rw [ih _ hrest (by rw [hL]; exact hs) h, hP.2.1, declarations, List.append_assoc]
      · cases h
    | pcall_property args =>
      have hL := Script_Property_L env w args
      have hP := Script_Property_during_load env w script args hs h0
      simp only [exec] at h
      split at h
      · rename_i w1 heq
        rw [heq] at hL hP
        simp only [CallResult.state] at hL hP
        rw [ih _ hrest (by rw [hL]; exact hs) h, hP.2.1, declarations, List.append_assoc]
      · rename_i msg w1 heq
        rw [heq] at hL hP
        simp only [CallResult.state] at hL hP
        rw [ih _ hrest (by rw [hL]; exact hs) h, hP.2.1, declarations, List.append_assoc]
    | error msg => simp [exec] at h

/-- A successful load of a chunk that never assigns `SCRIPT_NAME` appends exactly the chunk's
declarations to the definitions of the script. -/
theorem LoadScript_declarations (env : Collaborators) (w : World) (buffer : LuaSource)
    (script : Nat) (h0 : script ≠ 0) (body : List Stmt) (hb : lua_load buffer = some body)
    (hplain : ∀ v, Stmt.assign SCRIPT_NAME v ∉ body)
    (hok : (LoadScript env w buffer script).1 = true) :
    ((LoadScript env w buffer script).2.heap script).m_PropertyDefs.data
      = (w.heap script).m_PropertyDefs.data ++ declarations env body := by
  have hentry : ((chunkEntry w script).heap script).m_PropertyDefs
      = (w.heap script).m_PropertyDefs := by
    simp [chunkEntry, World.modify, World.store]
  have hname : (chunkEntry w script).L.globals SCRIPT_NAME = LuaValue.lightuserdata script := by
    simp [chunkEntry, lua_setglobal]
  rw [LoadScript_of_chunk env w buffer script body hb] at hok ⊢
  cases he : exec env body (chunkEntry w script) with
  | raised msg w2 => simp [he] at hok
  | returned w2 =>
    have hd := exec_declarations env script h0 body _ w2 hplain hname he
    rw [he] at hok
    simp only [] at hok ⊢
    have hsame := bindCallbacks_sameProperties script allSlots w2
    cases hbind : bindCallbacks script allSlots w2 with
    | mk ok w3 =>
      rw [hbind] at hok hsame
      cases ok with
      | false => simp at hok
      | true =>
        simp only [resetCallbacks_heap]
        rw [(hsame script).1, hd, hentry]

/-! ## Creating a script -/

theorem LoadProperties_eq (env : Collaborators) (defs : dmArray PropertyDef) (out : Properties) :
    LoadProperties env defs out =
      if defs.data = [] then (true, out)
      else if 1024 < (env.SerializeProperties defs.data).length then (false, out)
      else (true, ⟨env.SerializeProperties defs.data⟩) := by
  unfold LoadProperties
  by_cases h0 : defs.data = []
  · simp [h0, dmArray.Size]
  · have h0s : ¬ defs.Size = 0 := by simpa [dmArray.Size] using h0
    by_cases h1 : 1024 < (env.SerializeProperties defs.data).length
    · simp [h0, h0s, h1]
    · simp only [h0, h0s, h1, if_false, SetProperties]
      have hle : (env.SerializeProperties defs.data).length ≤ 1024 := by omega
      rw [List.take_take, min_eq_left hle, List.take_length]

/-- C5: `NewScript` returns the null handle iff `LoadScript` fails on the new object or the
serialised defaults of its (non-empty) definitions exceed the buffer of 1024 bytes; otherwise
it returns the new script, whose six callback slots and definitions are those `LoadScript`
left and whose store holds the serialisation of the definitions, empty when none was
declared; when the source does not assign the global `SCRIPT_NAME`, the definitions are its
declarations in order. -/
theorem NewScript_all_or_nothing (env : Collaborators) (w : World) (buffer : LuaSource)
    (script : Nat) (h0 : script ≠ 0) :
    ((NewScript env w buffer script).1 = 0 ↔
        (LoadScript env (newScriptObject w script) buffer script).1 = false ∨
        (((LoadScript env (newScriptObject w script) buffer script).2.heap script).m_PropertyDefs.data
            ≠ [] ∧
          1024 < (env.SerializeProperties
            ((LoadScript env (newScriptObject w script) buffer script).2.heap
              script).m_PropertyDefs.data).length)) ∧
      ((NewScript env w buffer script).1 ≠ 0 →
        (NewScript env w buffer script).1 = script ∧
        ((NewScript env w buffer script).2.heap script).m_FunctionReferences
          = ((LoadScript env (newScriptObject w script) buffer script).2.heap
              script).m_FunctionReferences ∧
        ((NewScript env w buffer script).2.heap script).m_PropertyDefs
          = ((LoadScript env (newScriptObject w script) buffer script).2.heap
              script).m_PropertyDefs ∧
        ((NewScript env w buffer script).2.heap script).m_Properties.m_Buffer
          = (if ((NewScript env w buffer script).2.heap script).m_PropertyDefs.data = [] then []
            else env.SerializeProperties
              ((NewScript env w buffer script).2.heap script).m_PropertyDefs.data)) ∧
      (∀ body, lua_load buffer = some body → (∀ v, Stmt.assign SCRIPT_NAME v ∉ body) →
        (NewScript env w buffer script).1 ≠ 0 →
        ((NewScript env w buffer script).2.heap script).m_PropertyDefs.data
          = declarations env body) := by
  have hdecl := LoadScript_declarations env (newScriptObject w script) buffer script h0
  have hnew : ((newScriptObject w script).heap script).m_PropertyDefs.data = [] := by
    simp [newScriptObject, dmArray.empty]
  rw [hnew] at hdecl
  unfold NewScript
  generalize LoadScript env (newScriptObject w script) buffer script = l at hdecl ⊢
  obtain ⟨ok, w1⟩ := l
  cases ok with
  | false => simp
  | true =>
    simp only [World.modify_heap_same, LoadProperties_eq]
    by_cases hd : (w1.heap script).m_PropertyDefs.data = []
    · simp only [hd, if_true, World.modify_heap_same]
      refine ⟨by simp [h0], fun _ => by simp [hd, NewProperties], ?_⟩
      intro body hb hplain _
      have hdb := hdecl body hb hplain rfl
      simpa [hd] using hdb
    · by_cases hbig : 1024 < (env.SerializeProperties (w1.heap script).m_PropertyDefs.data).length
      · simp [hd, hbig]
      · simp only [hd, hbig, if_false, World.modify_heap_same]
        refine ⟨by simp [h0, hd, hbig], fun _ => by simp [hd], ?_⟩
        intro body hb hplain _
        simpa using hdecl body hb hplain rfl

/-- C5, at a concrete input: the sample source is created at address 1. -/
theorem NewScript_all_or_nothing_witness :
    (1 : Nat) ≠ 0 ∧ (NewScript sampleEnv emptyWorld sampleSource 1).1 = 1 ∧
      ((NewScript sampleEnv emptyWorld sampleSource 1).2.heap 1).m_PropertyDefs.data
        = declarations sampleEnv
            [Stmt.property [LuaValue.string "hp", LuaValue.number 100],
             Stmt.assign "init" (LuaValue.function 7)] :=
  ⟨by decide, by decide,
    (NewScript_all_or_nothing sampleEnv emptyWorld sampleSource 1 (by decide)).2.2 _ rfl
      (by intro v; simp [SCRIPT_NAME]) (by decide)⟩

/-- What a successful reload leaves in the default store: the serialisation of the new
definitions when there is one, and otherwise, the defect shown above, whatever the store held
before the call. -/
theorem ReloadScript_success_store (env : Collaborators) (w : World) (script : Nat)
    (buffer : LuaSource) (hok : (ReloadScript env w script buffer).1 = true) :
    (((ReloadScript env w script buffer).2.heap script).m_PropertyDefs.data ≠ [] →
        ((ReloadScript env w script buffer).2.heap script).m_Properties.m_Buffer
          = env.SerializeProperties
              ((ReloadScript env w script buffer).2.heap script).m_PropertyDefs.data) ∧
      (((ReloadScript env w script buffer).2.heap script).m_PropertyDefs.data = [] →
        ((ReloadScript env w script buffer).2.heap script).m_Properties
          = (w.heap script).m_Properties) := by
  have hk := LoadScript_keeps_stores env
    (w.modify script (fun s => { s with m_PropertyDefs := dmArray.empty })) buffer script script
  simp only [World.modify_heap_same] at hk
  unfold ReloadScript at hok ⊢
  simp only [dmArray.Swap] at hok ⊢
  generalize LoadScript env
    (w.modify script (fun s => { s with m_PropertyDefs := dmArray.empty })) buffer script
      = loaded at hok hk ⊢
  obtain ⟨ok, w2⟩ := loaded
  cases ok
  · simp at hok
  · simp only [if_true, LoadProperties_eq] at hok ⊢
    by_cases hd : (w2.heap script).m_PropertyDefs.data = []
    · simp only [hd, if_true, World.modify_heap_same]
      exact ⟨fun h => absurd rfl h, fun _ => hk.2⟩
    · by_cases hbig : 1024 < (env.SerializeProperties (w2.heap script).m_PropertyDefs.data).length
      · simp [hd, hbig] at hok
      · simp [hd, hbig]

/-- A reload from a source that does not compile leaves every callback slot at `LUA_NOREF`,
whatever the slots held before. -/
theorem ReloadScript_malformed_slots (env : Collaborators) (w : World) (script : Nat)
    (buffer : LuaSource) (hb : lua_load buffer = none) (i : Fin 6) :
    (ReloadScript env w script buffer).1 = false ∧
      ((ReloadScript env w script buffer).2.heap script).m_FunctionReferences i = LUA_NOREF := by
  unfold ReloadScript
  simp only [dmArray.Swap, LoadScript_malformed env _ buffer script hb, Bool.false_eq_true,
    if_false, World.modify_heap_same, resetCallbacks_heap, true_and]

/-! ## The script reference after a load -/

/-- C6, evaluated: a source that binds the callback name `update` to a number makes
`LoadScript` fail, and after it has returned the global `SCRIPT_NAME` still refers to the
script (it is not `nil`); a later call of `go.property` raises no error and appends a
definition to that script. -/
theorem LoadScript_bail_keeps_script_reference :
    (LoadScript sampleEnv sampleWorld nonFunctionSource 1).1 = false ∧
      (LoadScript sampleEnv sampleWorld nonFunctionSource 1).2.L.globals SCRIPT_NAME
        = LuaValue.lightuserdata 1 ∧
      (Script_Property sampleEnv (LoadScript sampleEnv sampleWorld nonFunctionSource 1).2
        [LuaValue.string "late", LuaValue.number 1]).error? = none ∧
      ((Script_Property sampleEnv (LoadScript sampleEnv sampleWorld nonFunctionSource 1).2
        [LuaValue.string "late", LuaValue.number 1]).state.heap 1).m_PropertyDefs.data
        = (sampleWorld.heap 1).m_PropertyDefs.data ++
          [⟨"late", 422, PropertyType.PROPERTY_TYPE_NUMBER, PropertyValue.m_Number 1⟩] := by
  decide

/-- The global `SCRIPT_NAME` after `LoadScript`, by exit path: a source that does not compile
leaves it as it was; a run error and a successful load set it to `nil`; the exit through
`bail`, taken when a callback name is bound to a non-function, leaves what the run left. -/
theorem LoadScript_script_reference (env : Collaborators) (w : World) (buffer : LuaSource)
    (script : Nat) :
    (lua_load buffer = none →
        (LoadScript env w buffer script).2.L.globals SCRIPT_NAME = w.L.globals SCRIPT_NAME) ∧
      (∀ body, lua_load buffer = some body →
        (∀ msg w2, exec env body (chunkEntry w script) = CallResult.raised msg w2 →
          (LoadScript env w buffer script).2.L.globals SCRIPT_NAME = LuaValue.nil) ∧
        (∀ w2, exec env body (chunkEntry w script) = CallResult.returned w2 →
          (bindCallbacks script allSlots w2).1 = true →
          (LoadScript env w buffer script).2.L.globals SCRIPT_NAME = LuaValue.nil) ∧
        (∀ w2, exec env body (chunkEntry w script) = CallResult.returned w2 →
          (bindCallbacks script allSlots w2).1 = false →
          (LoadScript env w buffer script).2.L.globals SCRIPT_NAME
            = w2.L.globals SCRIPT_NAME)) := by
  have hne : ∀ i, SCRIPT_FUNCTION_NAMES i ≠ SCRIPT_NAME := callback_name_ne_script_name
  constructor
  · intro hb
    rw [LoadScript_malformed env w buffer script hb, resetCallbacks_other_global _ _ _ hne]
    rfl
  · intro body hb
    rw [LoadScript_of_chunk env w buffer script body hb]
    refine ⟨?_, ?_, ?_⟩
    · intro msg w2 he
      rw [he]
      simp only []
      rw [resetCallbacks_other_global _ _ _ hne]
      simp [lua_setglobal]
    · intro w2 he hbind
      rw [he]
      simp only []
      cases hr : bindCallbacks script allSlots w2 with
      | mk ok w3 =>
        rw [hr] at hbind
        cases hbind
        simp only []
        rw [resetCallbacks_other_global _ _ _ hne]
        simp [lua_setglobal]
    · intro w2 he hbind
      have hg := bindCallbacks_globals script allSlots w2
      rw [he]
      simp only []
      cases hr : bindCallbacks script allSlots w2 with
      | mk ok w3 =>
        rw [hr] at hbind hg
        cases hbind
        simp only [] at hg ⊢
        rw [resetCallbacks_other_global _ _ _ hne, hg]

/-! ## What the references of a load refer to -/

theorem luaL_ref_function (L : lua_State) (f : Nat) (hwf : L.registry.WellFormed) :
    ∃ k : Nat, (luaL_ref L (LuaValue.function f)).1 = (k : Int) ∧
      (luaL_ref L (LuaValue.function f)).2.registry.slots k = LuaValue.function f ∧
      (luaL_ref L (LuaValue.function f)).2.registry.InUse k ∧
      (luaL_ref L (LuaValue.function f)).2.registry.WellFormed := by
  obtain ⟨hnd, hle⟩ := hwf
  unfold luaL_ref
  simp only [reduceCtorEq, if_false]
  cases hfree : L.registry.free with
  | nil =>
    refine ⟨L.registry.size + 1, rfl, by simp, ⟨by simp, by simp⟩, ⟨by simp, by simp⟩⟩
  | cons r rest =>
    rw [hfree] at hnd hle
    have hr : r ∉ rest := (List.nodup_cons.mp hnd).1
    refine ⟨r, rfl, by simp, ⟨?_, by simpa using hr⟩, ⟨?_, ?_⟩⟩
    · exact hle r (List.mem_cons_self _ _)
    · exact (List.nodup_cons.mp hnd).2
    · intro k hk
      exact hle k (List.mem_cons_of_mem _ hk)

theorem luaL_ref_keeps (L : lua_State) (f : Nat) (k : Nat) (hwf : L.registry.WellFormed)
    (hk : L.registry.InUse k) :
    (luaL_ref L (LuaValue.function f)).2.registry.slots k = L.registry.slots k ∧
      (luaL_ref L (LuaValue.function f)).2.registry.InUse k := by
  obtain ⟨hnd, hle⟩ := hwf
  obtain ⟨hks, hkf⟩ := hk
  unfold luaL_ref
  simp only [reduceCtorEq, if_false]
  cases hfree : L.registry.free with
  | nil =>
    have hne : k ≠ L.registry.size + 1 := by omega
    exact ⟨by simp [hne], ⟨by simp; omega, by simp⟩⟩
  | cons r rest =>
    rw [hfree] at hkf
    have hne : k ≠ r := fun e => hkf (e ▸ List.mem_cons_self _ _)
    have hrest : k ∉ rest := fun e => hkf (List.mem_cons_of_mem _ e)
    exact ⟨by simp [hne], ⟨hks, hrest⟩⟩

theorem bindCallbacks_keeps (script : Nat) (slots : List (Fin 6)) (w : World) (k : Nat)
    (hwf : w.L.registry.WellFormed) (hk : w.L.registry.InUse k) :
    (bindCallbacks script slots w).2.L.registry.slots k = w.L.registry.slots k ∧
      (bindCallbacks script slots w).2.L.registry.InUse k ∧
      (bindCallbacks script slots w).2.L.registry.WellFormed := by
  induction slots generalizing w with
  | nil => exact ⟨rfl, hk, hwf⟩
  | cons j rest ih =>
    simp only [bindCallbacks]
    split
    · exact ih _ hwf hk
    · rename_i f _
      obtain ⟨_, _, _, _, hwf2⟩ := luaL_ref_function w.L f hwf
      have hkeep := luaL_ref_keeps w.L f k hwf hk
      have := ih (({ w with L := (luaL_ref w.L (LuaValue.function f)).2 } : World).modify script
        (fun s => { s with m_FunctionReferences := fun i =>
          if i = j then (luaL_ref w.L (LuaValue.function f)).1 else s.m_FunctionReferences i }))
        hwf2 hkeep.2
      exact ⟨this.1.trans hkeep.1, this.2⟩
    · exact ⟨rfl, hk, hwf⟩

theorem bindCallbacks_wellFormed (script : Nat) (slots : List (Fin 6)) (w : World)
    (hwf : w.L.registry.WellFormed) :
    (bindCallbacks script slots w).2.L.registry.WellFormed := by
  induction slots generalizing w with
  | nil => exact hwf
  | cons j rest ih =>
    simp only [bindCallbacks]
    split
    · exact ih _ hwf
    · rename_i f _
      obtain ⟨_, _, _, _, hwf2⟩ := luaL_ref_function w.L f hwf
      exact ih _ hwf2
    · exact hwf

/-- After the binding loop has succeeded, the reference in the slot of a callback whose global
is a function designates that function in the registry. -/
theorem bindCallbacks_registry (script : Nat) (slots : List (Fin 6)) (w : World)
    (hwf : w.L.registry.WellFormed) (hnd : slots.Nodup) (i : Fin 6) (hi : i ∈ slots) (f : Nat)
    (hf : w.L.globals (SCRIPT_FUNCTION_NAMES i) = LuaValue.function f)
    (hok : (bindCallbacks script slots w).1 = true) :
    lua_rawgeti (bindCallbacks script slots w).2.L
      (((bindCallbacks script slots w).2.heap script).m_FunctionReferences i)
        = LuaValue.function f := by
  induction slots generalizing w with
  | nil => simp at hi
  | cons j rest ih =>
    have hj : j ∉ rest := (List.nodup_cons.mp hnd).1
    have hnd2 : rest.Nodup := (List.nodup_cons.mp hnd).2
    simp only [bindCallbacks, lua_getglobal] at hok ⊢
    split at hok
    · rename_i hg
      rcases List.mem_cons.mp hi with e | e
      · subst e
        rw [hf] at hg
        cases hg
      · exact ih _ hwf hnd2 e hf hok
    · rename_i g hg
      obtain ⟨k, hk1, hk2, hk3, hwf2⟩ := luaL_ref_function w.L g hwf
      rcases List.mem_cons.mp hi with e | e
      · subst e
        rw [hf] at hg
        cases hg
        rw [bindCallbacks_other_slot _ _ _ _ hj]
        simp only [World.modify_heap_same, if_true]
        rw [hk1]
        have hkeep := bindCallbacks_keeps script rest
          (({ w with L := (luaL_ref w.L (LuaValue.function f)).2 } : World).modify script
            (fun s => { s with m_FunctionReferences := fun i_1 =>
              if i_1 = i then (luaL_ref w.L (LuaValue.function f)).1
              else s.m_FunctionReferences i_1 })) k hwf2 hk3
        simp only [lua_rawgeti, Int.natCast_nonneg, if_true, Int.toNat_ofNat]
        rw [hk1] at hkeep
        rw [hkeep.1]
        exact hk2
      · have hf2 : (luaL_ref w.L (LuaValue.function g)).2.globals (SCRIPT_FUNCTION_NAMES i)
            = LuaValue.function f := by rw [luaL_ref_globals]; exact hf
        exact ih _ hwf2 hnd2 e hf2 hok
    · simp at hok

theorem exec_registry (env : Collaborators) (body : List Stmt) (w : World) :
    (exec env body w).state.L.registry = w.L.registry := by
  induction body generalizing w with
  | nil => rfl
  | cons st rest ih =>
    cases st with
    | assign n v =>
      simp only [exec]
      rw [ih]
      rfl
    | property args =>
      have hL := Script_Property_L env w args
      simp only [exec]
      split
      · rename_i w1 heq
        rw [heq] at hL
        simp only [CallResult.state] at hL
        rw [ih, hL]
      · rename_i msg w1 heq
        rw [heq] at hL
        simp only [CallResult.state] at hL ⊢
        rw [hL]
    | pcall_property args =>
      have hL := Script_Property_L env w args
      simp only [exec]
      split
      · rename_i w1 heq
        rw [heq] at hL
        simp only [CallResult.state] at hL
        rw [ih, hL]
      · rename_i msg w1 heq
        rw [heq] at hL
        simp only [CallResult.state] at hL
        rw [ih, hL]
    | error msg => rfl

@[simp] theorem resetCallbacks_registry (slots : List (Fin 6)) (w : World) :
    (resetCallbacks slots w).L.registry = w.L.registry := by
  induction slots generalizing w with
  | nil => rfl
  | cons i rest ih => simp [resetCallbacks, ih, lua_setglobal]

theorem lua_rawgeti_congr (L1 L2 : lua_State) (h : L1.registry = L2.registry) (ref : Int) :
    lua_rawgeti L1 ref = lua_rawgeti L2 ref := by
  simp [lua_rawgeti, h]

/-- Loading a script keeps the registry well formed. -/
theorem LoadScript_wellFormed (env : Collaborators) (w : World) (buffer : LuaSource)
    (script : Nat) (hwf : w.L.registry.WellFormed) :
    (LoadScript env w buffer script).2.L.registry.WellFormed := by
  cases hb : lua_load buffer with
  | none =>
    rw [LoadScript_malformed env w buffer script hb]
    simpa using hwf
  | some body =>
    rw [LoadScript_of_chunk env w buffer script body hb]
    have hreg := exec_registry env body (chunkEntry w script)
    cases he : exec env body (chunkEntry w script) with
    | raised msg w2 =>
      rw [he] at hreg
      simp only [CallResult.state] at hreg
      simp only [resetCallbacks_registry, lua_setglobal]
      rw [hreg]
      exact hwf
    | returned w2 =>
      rw [he] at hreg
      simp only [CallResult.state] at hreg
      have hwf2 : w2.L.registry.WellFormed := by rw [hreg]; exact hwf
      have hb3 := bindCallbacks_wellFormed script allSlots w2 hwf2
      simp only []
      cases hbind : bindCallbacks script allSlots w2 with
      | mk ok w3 =>
        rw [hbind] at hb3
        cases ok <;> simpa [lua_setglobal] using hb3

theorem loadAll_wellFormed (env : Collaborators) (prior : List (LuaSource × Nat)) (w0 : World)
    (hwf : w0.L.registry.WellFormed) : (loadAll env prior w0).L.registry.WellFormed := by
  induction prior generalizing w0 with
  | nil => exact hwf
  | cons p rest ih =>
    obtain ⟨buffer, script⟩ := p
    simp only [loadAll]
    exact ih _ (LoadScript_wellFormed env w0 buffer script hwf)

/-- What `LoadScript` does in a state whose callback globals are `nil` and whose registry is
well formed. -/
theorem LoadScript_spec (env : Collaborators) (w : World) (buffer : LuaSource) (script : Nat)
    (hw : ∀ i, w.L.globals (SCRIPT_FUNCTION_NAMES i) = LuaValue.nil)
    (hwf : w.L.registry.WellFormed) :
    ((LoadScript env w buffer script).1 = true ↔
        ∃ body w2, lua_load buffer = some body ∧
          exec env body (chunkEntry w script) = CallResult.returned w2 ∧
          ∀ i, w2.L.globals (SCRIPT_FUNCTION_NAMES i) = LuaValue.nil ∨
            isFunction (w2.L.globals (SCRIPT_FUNCTION_NAMES i)) = true) ∧
      ((LoadScript env w buffer script).1 = true →
        ∀ body, lua_load buffer = some body → ∀ i,
          (definesFunction body (SCRIPT_FUNCTION_NAMES i) = true →
            ((LoadScript env w buffer script).2.heap script).m_FunctionReferences i ≠ LUA_NOREF) ∧
          (∀ f, lastAssigned body (SCRIPT_FUNCTION_NAMES i) = some (LuaValue.function f) →
            lua_rawgeti (LoadScript env w buffer script).2.L
              (((LoadScript env w buffer script).2.heap script).m_FunctionReferences i)
                = LuaValue.function f) ∧
          (definesFunction body (SCRIPT_FUNCTION_NAMES i) = false →
            ((LoadScript env w buffer script).2.heap script).m_FunctionReferences i
              = LUA_NOREF)) := by
  cases hb : lua_load buffer with
  | none =>
    rw [LoadScript_malformed env w buffer script hb]
    simp
  | some body =>
    rw [LoadScript_of_chunk env w buffer script body hb]
    have hreg := exec_registry env body (chunkEntry w script)
    cases he : exec env body (chunkEntry w script) with
    | raised msg w2 => simp [he]
    | returned w2 =>
      rw [he] at hreg
      simp only [CallResult.state] at hreg
      have hwf2 : w2.L.registry.WellFormed := by rw [hreg]; exact hwf
      simp only []
      have hiff := bindCallbacks_true_iff script allSlots w2
      have hregs := fun i f hf hok =>
        bindCallbacks_registry script allSlots w2 hwf2 allSlots_nodup i (mem_allSlots i) f hf hok
      cases hbind : bindCallbacks script allSlots w2 with
      | mk ok w3 =>
        rw [hbind] at hiff hregs
        cases ok with
        | false =>
          simp only [Bool.false_eq_true, false_iff] at hiff
          simp only [Bool.false_eq_true, false_iff, false_implies, and_true]
          rintro ⟨body2, w4, hb2, he2, hall⟩
          cases hb2
          rw [he] at he2
          cases he2
          exact hiff (fun i _ => hall i)
        | true =>
          simp only [true_iff] at hiff
          refine ⟨?_, ?_⟩
          · simp only [true_iff]
            exact ⟨body, w2, rfl, he, fun i => hiff i (mem_allSlots i)⟩
          · intro _ body2 hb2 i
            cases hb2
            have hs := bindCallbacks_slot script allSlots w2 (by rw [hbind]) allSlots_nodup i
              (mem_allSlots i)
            rw [hbind] at hs
            rw [isFunction_after_run env w w2 script body he i (hw i)] at hs
            refine ⟨by simpa only [resetCallbacks_heap] using hs.1, ?_,
              by simpa only [resetCallbacks_heap] using hs.2⟩
            intro f hf
            have hglob : w2.L.globals (SCRIPT_FUNCTION_NAMES i) = LuaValue.function f := by
              rw [exec_globals env body _ w2 he, hf]
              rfl
            have := hregs i f hglob rfl
            simp only [resetCallbacks_heap]
            rw [lua_rawgeti_congr _ w3.L (by simp [lua_setglobal])]
            exact this

/-- C4: scripts are loaded one after another into the shared Lua state, starting from a state
in which the six callback globals are `nil` (and the registry is well formed).  Then
`LoadScript` on a source succeeds iff the source compiles, its chunk runs without error and
each callback global is `nil` or a function afterwards; on success slot `i` holds a reference
(is not `LUA_NOREF`) iff the source itself defined a global function called
`SCRIPT_FUNCTION_NAMES[i]`, the reference then designates that very function in the
registry, and the slot holds `LUA_NOREF` otherwise; and the load leaves the six callback
globals `nil` again. -/
theorem LoadScript_binds_own_callbacks (env : Collaborators) (w0 : World)
    (prior : List (LuaSource × Nat)) (buffer : LuaSource) (script : Nat)
    (h0 : ∀ i, w0.L.globals (SCRIPT_FUNCTION_NAMES i) = LuaValue.nil)
    (hwf : w0.L.registry.WellFormed) :
    ((LoadScript env (loadAll env prior w0) buffer script).1 = true ↔
        ∃ body w2, lua_load buffer = some body ∧
          exec env body (chunkEntry (loadAll env prior w0) script) = CallResult.returned w2 ∧
          ∀ i, w2.L.globals (SCRIPT_FUNCTION_NAMES i) = LuaValue.nil ∨
            isFunction (w2.L.globals (SCRIPT_FUNCTION_NAMES i)) = true) ∧
      ((LoadScript env (loadAll env prior w0) buffer script).1 = true →
        ∀ body, lua_load buffer = some body → ∀ i,
          (definesFunction body (SCRIPT_FUNCTION_NAMES i) = true →
            ((LoadScript env (loadAll env prior w0) buffer script).2.heap script).m_FunctionReferences i
              ≠ LUA_NOREF) ∧
          (∀ f, lastAssigned body (SCRIPT_FUNCTION_NAMES i) = some (LuaValue.function f) →
            lua_rawgeti (LoadScript env (loadAll env prior w0) buffer script).2.L
              (((LoadScript env (loadAll env prior w0) buffer script).2.heap
                script).m_FunctionReferences i) = LuaValue.function f) ∧
          (definesFunction body (SCRIPT_FUNCTION_NAMES i) = false →
            ((LoadScript env (loadAll env prior w0) buffer script).2.heap script).m_FunctionReferences i
              = LUA_NOREF)) ∧
      ∀ i, (LoadScript env (loadAll env prior w0) buffer script).2.L.globals
        (SCRIPT_FUNCTION_NAMES i) = LuaValue.nil :=
  ⟨(LoadScript_spec env _ buffer script (loadAll_resets_callbacks env prior w0 h0)
      (loadAll_wellFormed env prior w0 hwf)).1,
    (LoadScript_spec env _ buffer script (loadAll_resets_callbacks env prior w0 h0)
      (loadAll_wellFormed env prior w0 hwf)).2,
    fun i => LoadScript_resets_callbacks env _ buffer script i⟩

/-- C4, at a concrete input: after the sample script, a script that defines `update` and binds
`on_input` to `nil` is loaded at address 2; its slot `init` stays `LUA_NOREF` although the
sample script defined `init`, and its slot `update` designates its own function. -/
theorem LoadScript_binds_own_callbacks_witness :
    (∀ i, emptyWorld.L.globals (SCRIPT_FUNCTION_NAMES i) = LuaValue.nil) ∧
      emptyWorld.L.registry.WellFormed ∧
      (LoadScript sampleEnv (loadAll sampleEnv [(sampleSource, 1)] emptyWorld)
        (LuaSource.chunk [Stmt.assign "update" (LuaValue.function 3),
          Stmt.assign "on_input" LuaValue.nil]) 2).1 = true ∧
      ((LoadScript sampleEnv (loadAll sampleEnv [(sampleSource, 1)] emptyWorld)
        (LuaSource.chunk [Stmt.assign "update" (LuaValue.function 3),
          Stmt.assign "on_input" LuaValue.nil]) 2).2.heap 2).m_FunctionReferences 0 = LUA_NOREF ∧
      lua_rawgeti (LoadScript sampleEnv (loadAll sampleEnv [(sampleSource, 1)] emptyWorld)
        (LuaSource.chunk [Stmt.assign "update" (LuaValue.function 3),
          Stmt.assign "on_input" LuaValue.nil]) 2).2.L
        (((LoadScript sampleEnv (loadAll sampleEnv [(sampleSource, 1)] emptyWorld)
          (LuaSource.chunk [Stmt.assign "update" (LuaValue.function 3),
            Stmt.assign "on_input" LuaValue.nil]) 2).2.heap 2).m_FunctionReferences 2)
        = LuaValue.function 3 :=
  ⟨fun _ => rfl, ⟨List.nodup_nil, fun _ hk => absurd hk (List.not_mem_nil _)⟩, by decide,
    ((LoadScript_binds_own_callbacks sampleEnv emptyWorld [(sampleSource, 1)]
      (LuaSource.chunk [Stmt.assign "update" (LuaValue.function 3),
        Stmt.assign "on_input" LuaValue.nil]) 2 (fun _ => rfl)
      ⟨List.nodup_nil, fun _ hk => absurd hk (List.not_mem_nil _)⟩).2.1
        (by decide) _ rfl 0).2.2 (by decide),
    ((LoadScript_binds_own_callbacks sampleEnv emptyWorld [(sampleSource, 1)]
      (LuaSource.chunk [Stmt.assign "update" (LuaValue.function 3),
        Stmt.assign "on_input" LuaValue.nil]) 2 (fun _ => rfl)
      ⟨List.nodup_nil, fun _ hk => absurd hk (List.not_mem_nil _)⟩).2.1
        (by decide) _ rfl 2).2.1 3 (by decide)⟩

/-! ## The definitions after a successful reload -/

/-- C18: after a successful `ReloadScript` (of a source that does not itself assign the
global `SCRIPT_NAME`), `m_PropertyDefs` holds exactly the properties the new source declares,
in declaration order, and `m_OldPropertyDefs` is exactly the array that was in
`m_PropertyDefs` immediately before the call. -/
theorem ReloadScript_success_definitions (env : Collaborators) (w : World) (script : Nat)
    (buffer : LuaSource) (body : List Stmt) (h0 : script ≠ 0)
    (hb : lua_load buffer = some body) (hplain : ∀ v, Stmt.assign SCRIPT_NAME v ∉ body)
    (hok : (ReloadScript env w script buffer).1 = true) :
    ((ReloadScript env w script buffer).2.heap script).m_PropertyDefs.data
        = declarations env body ∧
      ((ReloadScript env w script buffer).2.heap script).m_OldPropertyDefs
        = (w.heap script).m_PropertyDefs := by
  have hd := LoadScript_declarations env
    (w.modify script (fun s => { s with m_PropertyDefs := dmArray.empty })) buffer script h0
    body hb hplain
  simp only [World.modify_heap_same] at hd
  unfold ReloadScript at hok ⊢
  simp only [dmArray.Swap] at hok ⊢
  generalize LoadScript env
    (w.modify script (fun s => { s with m_PropertyDefs := dmArray.empty })) buffer script
      = loaded at hok hd ⊢
  obtain ⟨ok, w2⟩ := loaded
  cases ok
  · simp at hok
  · simp only [if_true] at hok ⊢
    have hdata := hd rfl
    by_cases hp : (LoadProperties env (w2.heap script).m_PropertyDefs
        (w2.heap script).m_Properties).1 = true
    · simp only [hp, if_true, World.modify_heap_same, and_true]
      simpa [dmArray.empty] using hdata
    · simp [hp] at hok

/-- C18, at a concrete input: the sample script, which declares `hp`, is reloaded from a
source that declares `mana` and `speed`. -/
theorem ReloadScript_success_definitions_witness :
    (1 : Nat) ≠ 0 ∧ (ReloadScript sampleEnv sampleWorld 1 reloadSource).1 = true ∧
      ((ReloadScript sampleEnv sampleWorld 1 reloadSource).2.heap 1).m_PropertyDefs.data
        = declarations sampleEnv
            [Stmt.property [LuaValue.string "mana", LuaValue.number 5],
             Stmt.assign "update" (LuaValue.function 8),
             Stmt.property [LuaValue.string "speed", LuaValue.userdata 64 (Userdata.vector3 1 2 3)]] ∧
      ((ReloadScript sampleEnv sampleWorld 1 reloadSource).2.heap 1).m_OldPropertyDefs
        = (sampleWorld.heap 1).m_PropertyDefs :=
  ⟨by decide, by decide,
    ReloadScript_success_definitions sampleEnv sampleWorld 1 reloadSource _ (by decide) rfl
      (by intro v; simp [SCRIPT_NAME]) (by decide)⟩

/-! ## Script instances: their state tables -/

theorem luaL_ref_spec (L : lua_State) (v : LuaValue) (hv : v ≠ LuaValue.nil)
    (hwf : L.registry.WellFormed) :
    ∃ k : Nat, (luaL_ref L v).1 = (k : Int) ∧
      (luaL_ref L v).2.registry.slots k = v ∧
      ¬ L.registry.InUse k ∧
      (luaL_ref L v).2.registry.WellFormed ∧
      (∀ x, (luaL_ref L v).2.registry.InUse x ↔ (L.registry.InUse x ∨ x = k)) ∧
      (∀ x, x ≠ k → (luaL_ref L v).2.registry.slots x = L.registry.slots x) ∧
      (luaL_ref L v).2.globals = L.globals := by
  obtain ⟨hnd, hle⟩ := hwf
  unfold luaL_ref
  simp only [hv, if_false]
  cases hfree : L.registry.free with
  | nil =>
    refine ⟨L.registry.size + 1, rfl, by simp, ?_, ⟨by simp, by simp⟩, ?_, ?_, rfl⟩
    · intro h
      have := h.1
      omega
    · intro x
      simp only [Registry.InUse, hfree, List.not_mem_nil, not_false_eq_true, and_true]
      omega
    · intro x hx
      simp [hx]
  | cons r rest =>
    rw [hfree] at hnd hle
    have hr : r ∉ rest := (List.nodup_cons.mp hnd).1
    refine ⟨r, rfl, by simp, ?_, ⟨(List.nodup_cons.mp hnd).2, ?_⟩, ?_, ?_, rfl⟩
    · intro h
      exact h.2 (by rw [hfree]; exact List.mem_cons_self _ _)
    · intro k hk
      exact hle k (List.mem_cons_of_mem _ hk)
    · intro x
      simp only [Registry.InUse, hfree, List.mem_cons, not_or]
      constructor
      · rintro ⟨h1, h2⟩
        by_cases hx : x = r
        · exact Or.inr hx
        · exact Or.inl ⟨h1, hx, h2⟩
      · rintro (⟨h1, _, h3⟩ | h)
        · exact ⟨h1, h3⟩
        · subst h
          exact ⟨hle x (List.mem_cons_self _ _), hr⟩
    · intro x hx
      simp [hx]

theorem luaL_unref_spec (L : lua_State) (k : Nat) (hwf : L.registry.WellFormed)
    (hk : L.registry.InUse k) :
    (luaL_unref L (k : Int)).registry.WellFormed ∧
      (∀ x, (luaL_unref L (k : Int)).registry.InUse x ↔ (L.registry.InUse x ∧ x ≠ k)) ∧
      (∀ x, x ≠ k → (luaL_unref L (k : Int)).registry.slots x = L.registry.slots x) ∧
      (luaL_unref L (k : Int)).globals = L.globals := by
  obtain ⟨hnd, hle⟩ := hwf
  obtain ⟨hks, hkf⟩ := hk
  have h0 : (0 : Int) ≤ (k : Int) := Int.ofNat_nonneg k
  simp only [luaL_unref, h0, if_true, Int.toNat_ofNat]
  refine ⟨⟨List.nodup_cons.mpr ⟨hkf, hnd⟩, ?_⟩, ?_, ?_, trivial⟩
  · intro x hx
    rcases List.mem_cons.mp hx with h | h
    · subst h; exact hks
    · exact hle x h
  · intro x
    simp only [Registry.InUse, List.mem_cons, not_or]
    tauto
  · intro x hx
    simp [hx]

/-- What `NewScriptInstance` leaves: the script instance in its block, the two references, the
new table and store, the metatable, and the stack as it was. -/
theorem NewScriptInstance_eq (rt : Runtime) (script inst component_index : Nat) :
    (NewScriptInstance rt script inst component_index).1 = rt.blockCount + 1 ∧
      (NewScriptInstance rt script inst component_index).2.L
        = (luaL_ref (luaL_ref rt.L (selfOf (rt.blockCount + 1))).2
            (LuaValue.table (rt.tableCount + 1))).2 ∧
      (NewScriptInstance rt script inst component_index).2.stack = rt.stack ∧
      (NewScriptInstance rt script inst component_index).2.tableCount = rt.tableCount + 1 ∧
      (NewScriptInstance rt script inst component_index).2.named = rt.named ∧
      (NewScriptInstance rt script inst component_index).2.blockCount = rt.blockCount + 1 ∧
      (NewScriptInstance rt script inst component_index).2.storeCount = rt.storeCount + 1 := by
  refine ⟨rfl, rfl, ?_, rfl, rfl, rfl, rfl⟩
  simp [NewScriptInstance, lua_pop, lua_setmetatable, lua_push, fromTop, allocProperties,
    Runtime.setBlock, luaL_ref_top, lua_newtable, lua_newuserdata]

theorem NewScriptInstance_heap (rt : Runtime) (script inst component_index : Nat) :
    (NewScriptInstance rt script inst component_index).2.blocks (rt.blockCount + 1)
        = ⟨script, inst, (luaL_ref rt.L (selfOf (rt.blockCount + 1))).1,
            (luaL_ref (luaL_ref rt.L (selfOf (rt.blockCount + 1))).2
              (LuaValue.table (rt.tableCount + 1))).1,
            component_index, rt.storeCount + 1⟩ ∧
      (∀ b, b ≠ rt.blockCount + 1 →
        (NewScriptInstance rt script inst component_index).2.blocks b = rt.blocks b) ∧
      (NewScriptInstance rt script inst component_index).2.metatables (rt.blockCount + 1)
        = rt.named SCRIPTINSTANCE ∧
      (∀ b, b ≠ rt.blockCount + 1 →
        (NewScriptInstance rt script inst component_index).2.metatables b = rt.metatables b) ∧
      (NewScriptInstance rt script inst component_index).2.tables (rt.tableCount + 1)
        = (fun _ => LuaValue.nil) ∧
      (∀ t, t ≠ rt.tableCount + 1 →
        (NewScriptInstance rt script inst component_index).2.tables t = rt.tables t) ∧
      (NewScriptInstance rt script inst component_index).2.stores (rt.storeCount + 1)
        = some NewProperties ∧
      (∀ p, p ≠ rt.storeCount + 1 →
        (NewScriptInstance rt script inst component_index).2.stores p = rt.stores p) := by
  refine ⟨?_, ?_, ?_, ?_, ?_, ?_, ?_, ?_⟩
  · simp [NewScriptInstance, lua_pop, lua_setmetatable, lua_push, fromTop, allocProperties,
      Runtime.setBlock, luaL_ref_top, lua_newtable, lua_newuserdata, selfOf]
  · intro b hb
    simp [NewScriptInstance, lua_pop, lua_setmetatable, lua_push, fromTop, allocProperties,
      Runtime.setBlock, luaL_ref_top, lua_newtable, lua_newuserdata, hb]
  · simp [NewScriptInstance, lua_pop, lua_setmetatable, lua_push, fromTop, allocProperties,
      Runtime.setBlock, luaL_ref_top, lua_newtable, lua_newuserdata]
  · intro b hb
    simp [NewScriptInstance, lua_pop, lua_setmetatable, lua_push, fromTop, allocProperties,
      Runtime.setBlock, luaL_ref_top, lua_newtable, lua_newuserdata, hb]
  · simp [NewScriptInstance, lua_pop, lua_setmetatable, lua_push, fromTop, allocProperties,
      Runtime.setBlock, luaL_ref_top, lua_newtable, lua_newuserdata]
  · intro t ht
    simp [NewScriptInstance, lua_pop, lua_setmetatable, lua_push, fromTop, allocProperties,
      Runtime.setBlock, luaL_ref_top, lua_newtable, lua_newuserdata, ht]
  · simp [NewScriptInstance, lua_pop, lua_setmetatable, lua_push, fromTop, allocProperties,
      Runtime.setBlock, luaL_ref_top, lua_newtable, lua_newuserdata]
  · intro p hp
    simp [NewScriptInstance, lua_pop, lua_setmetatable, lua_push, fromTop, allocProperties,
      Runtime.setBlock, luaL_ref_top, lua_newtable, lua_newuserdata, hp]

/-- The registry after `NewScriptInstance`: two keys not in use before now hold the script
instance and its new state table, and nothing else changed. -/
theorem NewScriptInstance_registry (rt : Runtime) (script inst component_index : Nat)
    (hwf : rt.L.registry.WellFormed) :
    ∃ a b : Nat,
      ((NewScriptInstance rt script inst component_index).2.blocks
          (rt.blockCount + 1)).m_InstanceReference = (a : Int) ∧
      ((NewScriptInstance rt script inst component_index).2.blocks
          (rt.blockCount + 1)).m_ScriptDataReference = (b : Int) ∧
      a ≠ b ∧ ¬ rt.L.registry.InUse a ∧ ¬ rt.L.registry.InUse b ∧
      (NewScriptInstance rt script inst component_index).2.L.registry.slots a
        = selfOf (rt.blockCount + 1) ∧
      (NewScriptInstance rt script inst component_index).2.L.registry.slots b
        = LuaValue.table (rt.tableCount + 1) ∧
      (NewScriptInstance rt script inst component_index).2.L.registry.WellFormed ∧
      (∀ x, (NewScriptInstance rt script inst component_index).2.L.registry.InUse x ↔
        (rt.L.registry.InUse x ∨ x = a ∨ x = b)) ∧
      (∀ x, rt.L.registry.InUse x →
        (NewScriptInstance rt script inst component_index).2.L.registry.slots x
          = rt.L.registry.slots x) ∧
      (NewScriptInstance rt script inst component_index).2.L.globals = rt.L.globals := by
  obtain ⟨a, ha, hsa, hna, hwfa, hiua, hotha, hga⟩ :=
    luaL_ref_spec rt.L (selfOf (rt.blockCount + 1)) (by simp [selfOf]) hwf
  obtain ⟨b, hb, hsb, hnb, hwfb, hiub, hothb, hgb⟩ :=
    luaL_ref_spec (luaL_ref rt.L (selfOf (rt.blockCount + 1))).2
      (LuaValue.table (rt.tableCount + 1)) (by simp) hwfa
  have hab : a ≠ b := fun e => hnb ((hiua b).mpr (Or.inr e.symm))
  have hheap := (NewScriptInstance_heap rt script inst component_index).1
  have hL := (NewScriptInstance_eq rt script inst component_index).2.1
  refine ⟨a, b, ?_, ?_, hab, hna, ?_, ?_, ?_, ?_, ?_, ?_, ?_⟩
  · rw [hheap]; exact ha
  · rw [hheap]; exact hb
  · exact fun h => hnb ((hiua b).mpr (Or.inl h))
  · rw [hL, hothb a hab, hsa]
  · rw [hL, hsb]
  · rw [hL]; exact hwfb
  · intro x
    rw [hL, hiub x, hiua x]
    tauto
  · intro x hx
    have hxa : x ≠ a := fun e => hna (e ▸ hx)
    have hxb : x ≠ b := fun e => hnb ((hiua b).mpr (Or.inl (e ▸ hx)))
    rw [hL, hothb x hxb, hotha x hxa]
  · rw [hL, hgb, hga]

theorem ScriptInstance_index_of_state (rt : Runtime) (i t : Nat) (k : LuaValue)
    (h : rt.StateOf i t) :
    ScriptInstance_index rt [selfOf i, k] = Except.ok (rt.tables t k) := by
  obtain ⟨r, href, _, hslot, _, hm1, hm2⟩ := h
  have hget : lua_rawgeti rt.L (r : Int) = LuaValue.table t := by
    simp [lua_rawgeti, hslot]
  simp [ScriptInstance_index, ScriptInstance_Check_arg, selfOf, hm1, hm2.symm, href, hget,
    lua_gettable]

theorem ScriptInstance_newindex_of_state (rt : Runtime) (i t : Nat) (k v : LuaValue)
    (h : rt.StateOf i t) (hk : k ≠ LuaValue.nil) :
    ScriptInstance_newindex rt [selfOf i, k, v] =
      Except.ok { rt with
        tables := fun a => if a = t then fun key => if key = k then v else rt.tables t key
          else rt.tables a } := by
  obtain ⟨r, href, _, hslot, _, hm1, hm2⟩ := h
  have hget : lua_rawgeti rt.L (r : Int) = LuaValue.table t := by
    simp [lua_rawgeti, hslot]
  simp [ScriptInstance_newindex, ScriptInstance_Check_arg, selfOf, hm1, hm2.symm, href, hget,
    lua_settable, hk]

/-- A state table stays the state table of its instance when only table contents change. -/
theorem stateOf_of_tables (rt : Runtime) (tables : Nat → LuaValue → LuaValue) (i t : Nat)
    (h : rt.StateOf i t) : Runtime.StateOf { rt with tables := tables } i t := h

/-- Creating a script instance leaves every instance that had a state table with it, and
gives the new instance a table that is none of theirs. -/
theorem NewScriptInstance_keeps_state (rt : Runtime) (script inst component_index : Nat)
    (hwf : rt.L.registry.WellFormed) (j tj : Nat) (hj : rt.StateOf j tj)
    (hblock : j ≤ rt.blockCount) :
    (NewScriptInstance rt script inst component_index).2.StateOf j tj ∧
      tj ≠ rt.tableCount + 1 ∧
      (NewScriptInstance rt script inst component_index).2.tables tj = rt.tables tj := by
  obtain ⟨r, href, hin, hslot, hle, hm1, hm2⟩ := hj
  obtain ⟨a, b, _, _, _, _, _, _, _, _, hiu, hkeep, _⟩ :=
    NewScriptInstance_registry rt script inst component_index hwf
  have hheap := NewScriptInstance_heap rt script inst component_index
  have heq := NewScriptInstance_eq rt script inst component_index
  have hjne : j ≠ rt.blockCount + 1 := by omega
  have htne : tj ≠ rt.tableCount + 1 := by omega
  refine ⟨⟨r, ?_, (hiu r).mpr (Or.inl hin), ?_, ?_, ?_, ?_⟩, htne, hheap.2.2.2.2.2.1 tj htne⟩
  · rw [hheap.2.1 j hjne]; exact href
  · rw [hkeep r hin]; exact hslot
  · rw [heq.2.2.2.1]; omega
  · rw [hheap.2.2.2.1 j hjne]; exact hm1
  · rw [hheap.2.2.2.1 j hjne, heq.2.2.2.2.1]; exact hm2

/-- The new script instance has the new table as its state table, if the metatable of script
instances has been registered. -/
theorem NewScriptInstance_state (rt : Runtime) (script inst component_index : Nat)
    (hwf : rt.L.registry.WellFormed) (hmeta : rt.named SCRIPTINSTANCE ≠ LuaValue.nil) :
    (NewScriptInstance rt script inst component_index).2.StateOf
      (NewScriptInstance rt script inst component_index).1 (rt.tableCount + 1) := by
  obtain ⟨a, b, _, hb, _, _, _, _, hsb, _, hiu, _, _⟩ :=
    NewScriptInstance_registry rt script inst component_index hwf
  have hheap := NewScriptInstance_heap rt script inst component_index
  have heq := NewScriptInstance_eq rt script inst component_index
  rw [heq.1]
  refine ⟨b, hb, (hiu b).mpr (Or.inr (Or.inr rfl)), hsb, ?_, ?_, ?_⟩
  · rw [heq.2.2.2.1]
  · rw [hheap.2.2.1]; exact hmeta
  · rw [hheap.2.2.1, heq.2.2.2.2.1]

/-- Claim C16.  The state of a script instance is a private key-value store.  For script
instances `i` and `j` with different state tables and a key `k` that is not `nil`: writing
`self[k] = v` through `i` succeeds, reading `self[k]` through `i` then yields `v`, every other
key of `i` and every key of `j` reads as before, and both keep their state tables.
`NewScriptInstance` gives the new instance a new table of its own, in which every key reads
`nil`, different from the state table of `i`, and leaves `i` with its table and what it
reads. -/
theorem ScriptInstance_state_is_private (rt : Runtime) (i j ti tj : Nat) (k v : LuaValue)
    (script inst component_index : Nat) (hwf : rt.L.registry.WellFormed)
    (hi : rt.StateOf i ti) (hj : rt.StateOf j tj) (hne : ti ≠ tj) (hblock : i ≤ rt.blockCount)
    (hk : k ≠ LuaValue.nil) :
    (∃ rt2, ScriptInstance_newindex rt [selfOf i, k, v] = Except.ok rt2 ∧
      ScriptInstance_index rt2 [selfOf i, k] = Except.ok v ∧
      (∀ k2, k2 ≠ k →
        ScriptInstance_index rt2 [selfOf i, k2] = ScriptInstance_index rt [selfOf i, k2]) ∧
      (∀ k2, ScriptInstance_index rt2 [selfOf j, k2] = ScriptInstance_index rt [selfOf j, k2]) ∧
      rt2.StateOf i ti ∧ rt2.StateOf j tj ∧ rt2.L = rt.L ∧ rt2.blockCount = rt.blockCount) ∧
    (∃ tn, (NewScriptInstance rt script inst component_index).2.StateOf
        (NewScriptInstance rt script inst component_index).1 tn ∧
      tn ≠ ti ∧ (NewScriptInstance rt script inst component_index).1 ≠ i ∧
      (∀ k2, ScriptInstance_index (NewScriptInstance rt script inst component_index).2
        [selfOf (NewScriptInstance rt script inst component_index).1, k2]
          = Except.ok LuaValue.nil) ∧
      (NewScriptInstance rt script inst component_index).2.StateOf i ti ∧
      (∀ k2, ScriptInstance_index (NewScriptInstance rt script inst component_index).2
        [selfOf i, k2] = ScriptInstance_index rt [selfOf i, k2]) ∧
      (NewScriptInstance rt script inst component_index).2.L.registry.WellFormed ∧
      i ≤ (NewScriptInstance rt script inst component_index).2.blockCount ∧
      (NewScriptInstance rt script inst component_index).1
        ≤ (NewScriptInstance rt script inst component_index).2.blockCount) := by
  constructor
  · refine ⟨_, ScriptInstance_newindex_of_state rt i ti k v hi hk, ?_, ?_, ?_,
      stateOf_of_tables rt _ i ti hi, stateOf_of_tables rt _ j tj hj, rfl, rfl⟩
    · rw [ScriptInstance_index_of_state _ i ti k (stateOf_of_tables rt _ i ti hi)]
      simp
    · intro k2 hk2
      rw [ScriptInstance_index_of_state _ i ti k2 (stateOf_of_tables rt _ i ti hi),
        ScriptInstance_index_of_state rt i ti k2 hi]
      simp [hk2]
    · intro k2
      rw [ScriptInstance_index_of_state _ j tj k2 (stateOf_of_tables rt _ j tj hj),
        ScriptInstance_index_of_state rt j tj k2 hj]
      simp [hne.symm]
  · have hmeta : rt.named SCRIPTINSTANCE ≠ LuaValue.nil := by
      obtain ⟨_, _, _, _, _, hm1, hm2⟩ := hi
      rw [← hm2]; exact hm1
    have hnew := NewScriptInstance_state rt script inst component_index hwf hmeta
    obtain ⟨hkeep, htne, htab⟩ :=
      NewScriptInstance_keeps_state rt script inst component_index hwf i ti hi hblock
    have heq := NewScriptInstance_eq rt script inst component_index
    have hheap := NewScriptInstance_heap rt script inst component_index
    obtain ⟨_, _, _, _, _, _, _, _, _, hwf2, _, _, _⟩ :=
      NewScriptInstance_registry rt script inst component_index hwf
    refine ⟨rt.tableCount + 1, hnew, fun e => htne e.symm, ?_, ?_, hkeep, ?_, hwf2, ?_, ?_⟩
    · rw [heq.1]; omega
    · intro k2
      rw [ScriptInstance_index_of_state _ _ _ k2 hnew, hheap.2.2.2.2.1]
    · intro k2
      rw [ScriptInstance_index_of_state _ i ti k2 hkeep,
        ScriptInstance_index_of_state rt i ti k2 hi, htab]
    · rw [heq.2.2.2.2.2.1]; omega
    · rw [heq.1, heq.2.2.2.2.2.1]

theorem ScriptInstance_state_is_private_witness :
    ∃ rt2, ScriptInstance_newindex sampleRuntime
        [selfOf 1, LuaValue.string "hp", LuaValue.number 7] = Except.ok rt2 ∧
      ScriptInstance_index rt2 [selfOf 1, LuaValue.string "hp"] = Except.ok (LuaValue.number 7) ∧
      ScriptInstance_index rt2 [selfOf 2, LuaValue.string "hp"] = Except.ok LuaValue.nil := by
  have hj : sampleRuntime.StateOf 2 2 :=
    ⟨4, rfl, ⟨by decide, by decide⟩, rfl, by decide, by decide, rfl⟩
  obtain ⟨rt2, h1, h2, _, h4, _⟩ :=
    (ScriptInstance_state_is_private sampleRuntime 1 2 1 2 (LuaValue.string "hp")
      (LuaValue.number 7) 1 13 0 ⟨by decide, by decide⟩
      ⟨2, rfl, ⟨by decide, by decide⟩, rfl, by decide, by decide, rfl⟩ hj
      (by decide) (by decide) (by decide)).1
  refine ⟨rt2, h1, h2, ?_⟩
  rw [h4 (LuaValue.string "hp"), ScriptInstance_index_of_state sampleRuntime 2 2 _ hj]
  rfl

/-! ## Script instances: release -/

theorem DeleteScriptInstance_eq (rt : Runtime) (i : Nat) :
    (DeleteScriptInstance rt i).L
        = luaL_unref (luaL_unref rt.L (rt.blocks i).m_InstanceReference)
            (rt.blocks i).m_ScriptDataReference ∧
      (DeleteScriptInstance rt i).stack = rt.stack ∧
      (DeleteScriptInstance rt i).stores (rt.blocks i).m_Properties = none ∧
      (∀ p, p ≠ (rt.blocks i).m_Properties → (DeleteScriptInstance rt i).stores p = rt.stores p) ∧
      (DeleteScriptInstance rt i).tables = rt.tables ∧
      (DeleteScriptInstance rt i).blocks = rt.blocks := by
  refine ⟨rfl, rfl, ?_, ?_, rfl, rfl⟩
  · simp [DeleteScriptInstance, DeleteProperties]
  · intro p hp
    simp [DeleteScriptInstance, DeleteProperties, hp]

/-- Releasing two different keys in use leaves in use exactly the other keys that were. -/
theorem DeleteScriptInstance_registry (rt : Runtime) (i a b : Nat)
    (hwf : rt.L.registry.WellFormed)
    (ha : (rt.blocks i).m_InstanceReference = (a : Int))
    (hb : (rt.blocks i).m_ScriptDataReference = (b : Int))
    (hab : a ≠ b) (hina : rt.L.registry.InUse a) (hinb : rt.L.registry.InUse b) :
    (DeleteScriptInstance rt i).L.registry.WellFormed ∧
      ∀ x, (DeleteScriptInstance rt i).L.registry.InUse x ↔
        (rt.L.registry.InUse x ∧ x ≠ a ∧ x ≠ b) := by
  obtain ⟨hwf1, hiu1, _, _⟩ := luaL_unref_spec rt.L a hwf hina
  have hinb1 : (luaL_unref rt.L (a : Int)).registry.InUse b := (hiu1 b).mpr ⟨hinb, hab.symm⟩
  obtain ⟨hwf2, hiu2, _, _⟩ := luaL_unref_spec (luaL_unref rt.L (a : Int)) b hwf1 hinb1
  rw [(DeleteScriptInstance_eq rt i).1, ha, hb]
  refine ⟨hwf2, fun x => ?_⟩
  rw [hiu2 x, hiu1 x]
  tauto

/-- Claim C17.  `NewScriptInstance` creates two registry references, `a` for the instance and
`b` for its state table, neither in use before, and a property store.
`DeleteScriptInstance` on the new instance releases exactly `a` and `b`, deletes exactly that
store, and leaves in use the keys that were in use before `NewScriptInstance`, with the stack
as high as it was before. -/
theorem DeleteScriptInstance_releases_references (rt : Runtime)
    (script inst component_index : Nat) (hwf : rt.L.registry.WellFormed) :
    ∃ a b : Nat,
      ((NewScriptInstance rt script inst component_index).2.blocks
        (NewScriptInstance rt script inst component_index).1).m_InstanceReference = (a : Int) ∧
      ((NewScriptInstance rt script inst component_index).2.blocks
        (NewScriptInstance rt script inst component_index).1).m_ScriptDataReference = (b : Int) ∧
      a ≠ b ∧ ¬ rt.L.registry.InUse a ∧ ¬ rt.L.registry.InUse b ∧
      (∀ x, (NewScriptInstance rt script inst component_index).2.L.registry.InUse x ↔
        (rt.L.registry.InUse x ∨ x = a ∨ x = b)) ∧
      (NewScriptInstance rt script inst component_index).2.stores
        ((NewScriptInstance rt script inst component_index).2.blocks
          (NewScriptInstance rt script inst component_index).1).m_Properties
        = some NewProperties ∧
      (∀ x,
        (DeleteScriptInstance (NewScriptInstance rt script inst component_index).2
          (NewScriptInstance rt script inst component_index).1).L.registry.InUse x ↔
        ((NewScriptInstance rt script inst component_index).2.L.registry.InUse x ∧
          x ≠ a ∧ x ≠ b)) ∧
      (DeleteScriptInstance (NewScriptInstance rt script inst component_index).2
          (NewScriptInstance rt script inst component_index).1).stores
        ((NewScriptInstance rt script inst component_index).2.blocks
          (NewScriptInstance rt script inst component_index).1).m_Properties = none ∧
      (∀ p, p ≠ ((NewScriptInstance rt script inst component_index).2.blocks
          (NewScriptInstance rt script inst component_index).1).m_Properties →
        (DeleteScriptInstance (NewScriptInstance rt script inst component_index).2
          (NewScriptInstance rt script inst component_index).1).stores p
          = (NewScriptInstance rt script inst component_index).2.stores p) ∧
      (∀ x,
        (DeleteScriptInstance (NewScriptInstance rt script inst component_index).2
          (NewScriptInstance rt script inst component_index).1).L.registry.InUse x ↔
        rt.L.registry.InUse x) ∧
      lua_gettop (NewScriptInstance rt script inst component_index).2 = lua_gettop rt ∧
      lua_gettop (DeleteScriptInstance (NewScriptInstance rt script inst component_index).2
        (NewScriptInstance rt script inst component_index).1) = lua_gettop rt := by
  obtain ⟨a, b, ha, hb, hab, hna, hnb, _, _, hwf2, hiu, _, _⟩ :=
    NewScriptInstance_registry rt script inst component_index hwf
  have heq := NewScriptInstance_eq rt script inst component_index
  have hheap := NewScriptInstance_heap rt script inst component_index
  have hdel := DeleteScriptInstance_eq (NewScriptInstance rt script inst component_index).2
    (NewScriptInstance rt script inst component_index).1
  rw [← heq.1] at ha hb
  obtain ⟨_, hreg⟩ := DeleteScriptInstance_registry
    (NewScriptInstance rt script inst component_index).2
    (NewScriptInstance rt script inst component_index).1 a b hwf2 ha hb hab
    ((hiu a).mpr (Or.inr (Or.inl rfl))) ((hiu b).mpr (Or.inr (Or.inr rfl)))
  refine ⟨a, b, ha, hb, hab, hna, hnb, hiu, ?_, hreg, hdel.2.2.1, hdel.2.2.2.1, ?_, ?_, ?_⟩
  · rw [heq.1, hheap.1]
    exact hheap.2.2.2.2.2.2.1
  · intro x
    rw [hreg x, hiu x]
    constructor
    · rintro ⟨h | h | h, h1, h2⟩
      · exact h
      · exact absurd h h1
      · exact absurd h h2
    · intro h
      exact ⟨Or.inl h, fun e => hna (e ▸ h), fun e => hnb (e ▸ h)⟩
  · simp only [lua_gettop, heq.2.2.1]
  · simp only [lua_gettop, hdel.2.1, heq.2.2.1]

theorem DeleteScriptInstance_releases_references_witness :
    lua_gettop (DeleteScriptInstance (NewScriptInstance emptyRuntime 1 11 0).2
        (NewScriptInstance emptyRuntime 1 11 0).1) = lua_gettop emptyRuntime ∧
      ∀ x,
        (DeleteScriptInstance (NewScriptInstance emptyRuntime 1 11 0).2
          (NewScriptInstance emptyRuntime 1 11 0).1).L.registry.InUse x ↔
        emptyRuntime.L.registry.InUse x := by
  obtain ⟨a, b, _, _, _, _, _, _, _, _, _, _, h1, _, h2⟩ :=
    DeleteScriptInstance_releases_references emptyRuntime 1 11 0 ⟨by decide, by decide⟩
  exact ⟨h2, h1⟩

/-! ## The script functions that address instances -/

theorem ScriptInstance_Check_installed (rt : Runtime) (i : Nat) (content : Userdata)
    (hi : i ≠ 0)
    (hinst : lua_getglobal rt.L SCRIPT_INSTANCE_NAME = LuaValue.userdata i content) :
    ScriptInstance_Check rt = Except.ok i := by
  simp [ScriptInstance_Check, hinst, lua_touserdata, hi]

/-- Claim C13.  When the global of the running script instance holds the userdata of a script
instance, `GetURLCallback` fills the URL with the component socket of the collection of its
game-object instance, the identifier of that instance, and the id of the component of its
prototype at the component index of the script instance; when the global holds no userdata,
it raises an error and produces no URL. -/
theorem GetURLCallback_fills_url (go : GameObjects) (rt : Runtime) :
    (∀ (i : Nat) (content : Userdata), i ≠ 0 →
      lua_getglobal rt.L SCRIPT_INSTANCE_NAME = LuaValue.userdata i content →
      GetURLCallback go rt = Except.ok
        { m_Socket :=
            (go.collections (go.instances (rt.blocks i).m_Instance).m_Collection).m_ComponentSocket,
          m_Path := (go.instances (rt.blocks i).m_Instance).m_Identifier,
          m_Fragment :=
            ((go.prototypes (go.instances (rt.blocks i).m_Instance).m_Prototype).m_Components
              (rt.blocks i).m_ComponentIndex).m_Id }) ∧
    (lua_touserdata (lua_getglobal rt.L SCRIPT_INSTANCE_NAME) = 0 →
      ∃ msg, GetURLCallback go rt = Except.error msg) := by
  constructor
  · intro i content hi hinst
    simp [GetURLCallback, hinst, lua_touserdata, hi]
  · intro h
    refine ⟨"You can only create empty URLs outside functions with a self-reference, use msg.url() instead.", ?_⟩
    simp [GetURLCallback, h]

theorem GetURLCallback_fills_url_witness :
    GetURLCallback sampleGameObjects (install sampleRuntime 2) = Except.ok ⟨50, 2, 100⟩ ∧
      ∃ msg, GetURLCallback sampleGameObjects sampleRuntime = Except.error msg :=
  ⟨(GetURLCallback_fills_url sampleGameObjects (install sampleRuntime 2)).1 2
      Userdata.scriptInstance (by decide) rfl,
    (GetURLCallback_fills_url sampleGameObjects sampleRuntime).2 rfl⟩

/-- Claim C12.  With a script instance running: `go.get_id()` without argument returns the
identifier of its game-object instance; with a path, it returns what `GetAbsoluteIdentifier`
gives for that instance and the path, which for a path that is not empty is what
`ResolvePathCallback` returns for the same path; and `ResolvePathCallback` on an empty path
returns the identifier of the instance. -/
theorem Script_GetId_resolves (go : GameObjects) (env : Collaborators) (rt : Runtime) (i : Nat)
    (content : Userdata) (hi : i ≠ 0)
    (hinst : lua_getglobal rt.L SCRIPT_INSTANCE_NAME = LuaValue.userdata i content) :
    Script_GetId go env rt [] = Except.ok (go.instances (rt.blocks i).m_Instance).m_Identifier ∧
      (∀ (path : LuaValue) (rest : List LuaValue) (ident : String),
        luaL_checkstring env (some path) = some ident →
        Script_GetId go env rt (path :: rest)
            = Except.ok (go.GetAbsoluteIdentifier (rt.blocks i).m_Instance ident (strlen ident)) ∧
          (0 < strlen ident →
            Script_GetId go env rt (path :: rest)
              = ResolvePathCallback go rt ident (strlen ident))) ∧
      (∀ path : String, ResolvePathCallback go rt path 0
        = Except.ok (go.instances (rt.blocks i).m_Instance).m_Identifier) := by
  have hcheck := ScriptInstance_Check_installed rt i content hi hinst
  refine ⟨by simp [Script_GetId, hcheck], fun path rest ident hident => ?_, fun path => ?_⟩
  · have hget : Script_GetId go env rt (path :: rest)
        = Except.ok (go.GetAbsoluteIdentifier (rt.blocks i).m_Instance ident (strlen ident)) := by
      simp [Script_GetId, hcheck, hident]
    refine ⟨hget, fun hlen => ?_⟩
    rw [hget]
    simp [ResolvePathCallback, hcheck, hlen]
  · simp [ResolvePathCallback, hcheck]

theorem Script_GetId_resolves_witness :
    Script_GetId sampleGameObjects sampleEnv (install sampleRuntime 1) [] = Except.ok 111 ∧
      Script_GetId sampleGameObjects sampleEnv (install sampleRuntime 1) [LuaValue.string "ab"]
        = ResolvePathCallback sampleGameObjects (install sampleRuntime 1) "ab" (strlen "ab") :=
  have h := Script_GetId_resolves sampleGameObjects sampleEnv (install sampleRuntime 1) 1
    Userdata.scriptInstance (by decide) rfl
  ⟨h.1, (h.2.1 (LuaValue.string "ab") [] "ab" rfl).2 (by decide)⟩

/-- Claim C11.  With a script instance running: `go.delete()` without argument requests the
deletion of its game-object instance; with one argument that is a hash, or a string resolved
against that instance, it requests the deletion of the instance found under that identifier
in the collection of the calling instance, and of nothing else; and when no instance is found
it raises an error and requests no deletion. -/
theorem Script_Delete_requests (go : GameObjects) (env : Collaborators) (rt : Runtime) (i : Nat)
    (content : Userdata) (hi : i ≠ 0)
    (hinst : lua_getglobal rt.L SCRIPT_INSTANCE_NAME = LuaValue.userdata i content) :
    Script_Delete go env rt []
        = (none, [((go.instances (rt.blocks i).m_Instance).m_Collection,
            (rt.blocks i).m_Instance)]) ∧
      (∀ (arg : LuaValue) (id : dmhash_t),
        ((∃ block, arg = LuaValue.userdata block (Userdata.hash id)) ∨
          (∃ ident, lua_isstring (some arg) = true ∧ luaL_checkstring env (some arg) = some ident ∧
            id = go.GetAbsoluteIdentifier (rt.blocks i).m_Instance ident (strlen ident))) →
        (go.GetInstanceFromIdentifier (go.instances (rt.blocks i).m_Instance).m_Collection id ≠ 0 →
          Script_Delete go env rt [arg]
            = (none, [((go.instances (rt.blocks i).m_Instance).m_Collection,
                go.GetInstanceFromIdentifier
                  (go.instances (rt.blocks i).m_Instance).m_Collection id)])) ∧
        (go.GetInstanceFromIdentifier (go.instances (rt.blocks i).m_Instance).m_Collection id = 0 →
          (Script_Delete go env rt [arg]).1.isSome = true ∧
            (Script_Delete go env rt [arg]).2 = [])) := by
  have hcheck := ScriptInstance_Check_installed rt i content hi hinst
  refine ⟨by simp [Script_Delete, hcheck], fun arg id harg => ?_⟩
  rcases harg with ⟨block, rfl⟩ | ⟨ident, hstr, hident, rfl⟩
  · constructor
    · intro hfound
      simp [Script_Delete, hcheck, lua_isstring, CheckHash, content?, hfound]
    · intro hnone
      simp [Script_Delete, hcheck, lua_isstring, CheckHash, content?, hnone]
  · constructor
    · intro hfound
      simp [Script_Delete, hcheck, hstr, hident, hfound]
    · intro hnone
      simp [Script_Delete, hcheck, hstr, hident, hnone]

theorem Script_Delete_requests_witness :
    Script_Delete sampleGameObjects sampleEnv (install sampleRuntime 1) [] = (none, [(5, 11)]) ∧
      Script_Delete sampleGameObjects sampleEnv (install sampleRuntime 1)
        [LuaValue.userdata 9 (Userdata.hash 2)] = (none, [(5, 12)]) ∧
      (Script_Delete sampleGameObjects sampleEnv (install sampleRuntime 1)
        [LuaValue.string "abc"]).2 = [] :=
  have h := Script_Delete_requests sampleGameObjects sampleEnv (install sampleRuntime 1) 1
    Userdata.scriptInstance (by decide) rfl
  ⟨h.1,
    (h.2 (LuaValue.userdata 9 (Userdata.hash 2)) 2 (Or.inl ⟨9, rfl⟩)).1 (by decide),
    ((h.2 (LuaValue.string "abc") 3 (Or.inr ⟨"abc", rfl, rfl, by decide⟩)).2 (by decide)).2⟩

end dmGameObject



namespace dmGameSystem

/-! ## Creating sprite components -/

/-- C9: when the sprite world has no free slot (`m_ComponentIndices.Remaining() == 0`),
`CompSprite2Create` returns `CREATE_RESULT_UNKNOWN_ERROR`, leaves `*params.m_UserData` as it
was and leaves the world (component array and index pool) unchanged; in every other case it
returns `CREATE_RESULT_OK` and the pool has exactly one free slot less, the component array
keeping its size and changing at most in the slot handed out. -/
theorem CompSprite2Create_full_or_one_slot (res : Resources) (sprite_world : SpriteWorld2)
    (m_Instance m_Resource m_UserData : Nat) :
    (sprite_world.m_ComponentIndices.Remaining = 0 →
        CompSprite2Create res sprite_world m_Instance m_Resource m_UserData
          = (CreateResult.CREATE_RESULT_UNKNOWN_ERROR, sprite_world, m_UserData)) ∧
      (sprite_world.m_ComponentIndices.Remaining ≠ 0 →
        (CompSprite2Create res sprite_world m_Instance m_Resource m_UserData).1
          = CreateResult.CREATE_RESULT_OK ∧
        (CompSprite2Create res sprite_world m_Instance m_Resource
            m_UserData).2.1.m_ComponentIndices.Remaining + 1
          = sprite_world.m_ComponentIndices.Remaining ∧
        (CompSprite2Create res sprite_world m_Instance m_Resource
            m_UserData).2.1.m_Components.length = sprite_world.m_Components.length ∧
        ∀ j, j ≠ (CompSprite2Create res sprite_world m_Instance m_Resource m_UserData).2.2 →
          (CompSprite2Create res sprite_world m_Instance m_Resource
              m_UserData).2.1.m_Components.getD j Component2.zero
            = sprite_world.m_Components.getD j Component2.zero) := by
  constructor
  · intro h
    simp [CompSprite2Create, h]
  · intro h
    simp only [CompSprite2Create, h, if_false]
    refine ⟨?_, ?_, ?_, ?_⟩
    · trivial
    · simp only [dmIndexPool32.Remaining, dmIndexPool32.Pop] at h ⊢
      omega
    · simp
    · intro j hj
      simp only [List.getD_eq_getElem?_getD]
      rw [List.getElem?_set_ne (fun e => hj e.symm)]

/-! ## Updating sprites -/

theorem effectsFor_append (slot : Nat) (a b : List SpriteEffect) :
    effectsFor slot (a ++ b) = effectsFor slot a ++ effectsFor slot b := by
  simp [effectsFor]

theorem renderObjects_append (a b : List SpriteEffect) :
    renderObjects (a ++ b) = renderObjects a ++ renderObjects b := by
  simp [renderObjects]

theorem stopOnce_effects (svc : SpriteServices) (res : Resources) (slot : Nat)
    (component : Component2) :
    renderObjects (stopOnce svc res slot component).2.1 = [] ∧
      ∀ s, s ≠ slot → effectsFor s (stopOnce svc res slot component).2.1 = [] := by
  unfold stopOnce
  constructor
  · simp only []
    split_ifs <;> rfl
  · intro s hs
    have hne : ¬ slot = s := fun e => hs e.symm
    simp only []
    split_ifs <;> simp [effectsFor, SpriteEffect.slot?, hne]

theorem updateComponent_disabled (svc : SpriteServices) (res : Resources) (m_DT : Rat)
    (slot : Nat) (component : Component2) (h : component.m_Enabled = false) :
    updateComponent svc res m_DT slot component = some (component, [], false) := by
  simp [updateComponent, h]

theorem updateComponent_enabled (svc : SpriteServices) (res : Resources) (m_DT : Rat)
    (slot : Nat) (component : Component2) (h : component.m_Enabled = true)
    (hdef : tilesPerRow svc res component ≠ 0) :
    updateComponent svc res m_DT slot component =
      some (if (stopOnce svc res slot component).2.2 then (stopOnce svc res slot component).1
          else animate svc res m_DT (stopOnce svc res slot component).1,
        SpriteEffect.AddToRender slot :: (stopOnce svc res slot component).2.1,
        (stopOnce svc res slot component).2.2) := by
  simp only [updateComponent, h, if_true, hdef, if_false]
  cases (stopOnce svc res slot component).2.2 <;> simp

theorem updateComponent_effects (svc : SpriteServices) (res : Resources) (m_DT : Rat)
    (slot : Nat) (component component2 : Component2) (effects : List SpriteEffect)
    (failed : Bool)
    (h : updateComponent svc res m_DT slot component = some (component2, effects, failed)) :
    (renderObjects effects).length = (if component.m_Enabled then 1 else 0) ∧
      ∀ s, s ≠ slot → effectsFor s effects = [] := by
  cases hen : component.m_Enabled with
  | false =>
    rw [updateComponent_disabled svc res m_DT slot component hen] at h
    simp only [Option.some.injEq, Prod.mk.injEq] at h
    obtain ⟨_, he, _⟩ := h
    subst he
    exact ⟨rfl, fun _ _ => rfl⟩
  | true =>
    by_cases hdef : tilesPerRow svc res component = 0
    · simp [updateComponent, hen, hdef] at h
    · rw [updateComponent_enabled svc res m_DT slot component hen hdef] at h
      simp only [Option.some.injEq, Prod.mk.injEq] at h
      obtain ⟨_, he, _⟩ := h
      subst he
      have hstop := stopOnce_effects svc res slot component
      constructor
      · have : renderObjects (SpriteEffect.AddToRender slot :: (stopOnce svc res slot component).2.1)
            = slot :: renderObjects (stopOnce svc res slot component).2.1 := rfl
        rw [this, hstop.1]
        rfl
      · intro s hs
        have hne : ¬ slot = s := fun e => hs e.symm
        have : effectsFor s (SpriteEffect.AddToRender slot :: (stopOnce svc res slot component).2.1)
            = effectsFor s (stopOnce svc res slot component).2.1 := by
          simp [effectsFor, SpriteEffect.slot?, hne]
        rw [this, hstop.2 s hs]

theorem updateComponents_cons (svc : SpriteServices) (res : Resources) (m_DT : Rat)
    (slot : Nat) (component : Component2) (rest : List Component2)
    (component2 : Component2) (effects : List SpriteEffect) (failed : Bool)
    (h : updateComponent svc res m_DT slot component = some (component2, effects, failed)) :
    updateComponents svc res m_DT slot (component :: rest) =
      if failed then some (component2 :: rest, effects, true)
      else
        match updateComponents svc res m_DT (slot + 1) rest with
        | none => none
        | some (rest2, effects2, failed2) =>
          some (component2 :: rest2, effects ++ effects2, failed2) := by
  cases failed <;> simp [updateComponents, h]

/-- The update has a result when no enabled component divides by zero. -/
theorem updateComponents_some (svc : SpriteServices) (res : Resources) (m_DT : Rat)
    (components : List Component2) (slot : Nat)
    (hdef : ∀ x ∈ components, x.m_Enabled = true → tilesPerRow svc res x ≠ 0) :
    ∃ r, updateComponents svc res m_DT slot components = some r := by
  induction components generalizing slot with
  | nil => exact ⟨_, rfl⟩
  | cons c rest ih =>
    have hc : ∃ r, updateComponent svc res m_DT slot c = some r := by
      cases hen : c.m_Enabled with
      | false => exact ⟨_, updateComponent_disabled svc res m_DT slot c hen⟩
      | true =>
        exact ⟨_, updateComponent_enabled svc res m_DT slot c hen
          (hdef c (List.mem_cons_self _ _) hen)⟩
    obtain ⟨⟨c2, e, f⟩, hc⟩ := hc
    rw [updateComponents_cons svc res m_DT slot c rest c2 e f hc]
    cases f with
    | true => exact ⟨_, rfl⟩
    | false =>
      obtain ⟨⟨r2, e2, f2⟩, hr⟩ := ih (slot + 1) (fun x hx => hdef x (List.mem_cons_of_mem _ hx))
      rw [hr]
      exact ⟨_, rfl⟩

/-- An update that does not return from inside the loop emits one render object for each
enabled component. -/
theorem updateComponents_count (svc : SpriteServices) (res : Resources) (m_DT : Rat)
    (components : List Component2) (slot : Nat) (components2 : List Component2)
    (effects : List SpriteEffect)
    (h : updateComponents svc res m_DT slot components = some (components2, effects, false)) :
    (renderObjects effects).length = enabledCount components := by
  induction components generalizing slot components2 effects with
  | nil =>
    simp only [updateComponents, Option.some.injEq, Prod.mk.injEq] at h
    obtain ⟨_, he, _⟩ := h
    subst he
    rfl
  | cons c rest ih =>
    cases hc : updateComponent svc res m_DT slot c with
    | none => simp [updateComponents, hc] at h
    | some r =>
      obtain ⟨c2, e, f⟩ := r
      rw [updateComponents_cons svc res m_DT slot c rest c2 e f hc] at h
      cases f with
      | true => simp at h
      | false =>
        simp only [Bool.false_eq_true, if_false] at h
        cases hr : updateComponents svc res m_DT (slot + 1) rest with
        | none => simp [hr] at h
        | some r2 =>
          obtain ⟨rest2, e2, f2⟩ := r2
          simp only [hr, Option.some.injEq, Prod.mk.injEq] at h
          obtain ⟨_, he, hf⟩ := h
          subst he
          subst hf
          have hcount := (updateComponent_effects svc res m_DT slot c c2 e false hc).1
          rw [renderObjects_append, List.length_append, hcount, ih (slot + 1) rest2 e2 hr]
          cases hen : c.m_Enabled <;> simp [enabledCount, List.filter_cons, hen]
          omega

theorem updateComponents_below (svc : SpriteServices) (res : Resources) (m_DT : Rat)
    (components : List Component2) (slot : Nat) (components2 : List Component2)
    (effects : List SpriteEffect) (failed : Bool)
    (h : updateComponents svc res m_DT slot components = some (components2, effects, failed))
    (s : Nat) (hs : s < slot) : effectsFor s effects = [] := by
  induction components generalizing slot components2 effects failed with
  | nil =>
    simp only [updateComponents, Option.some.injEq, Prod.mk.injEq] at h
    obtain ⟨_, he, _⟩ := h
    subst he
    rfl
  | cons c rest ih =>
    cases hc : updateComponent svc res m_DT slot c with
    | none => simp [updateComponents, hc] at h
    | some r =>
      obtain ⟨c2, e, f⟩ := r
      have hce := (updateComponent_effects svc res m_DT slot c c2 e f hc).2 s (by omega)
      rw [updateComponents_cons svc res m_DT slot c rest c2 e f hc] at h
      cases f with
      | true =>
        simp only [if_true, Option.some.injEq, Prod.mk.injEq] at h
        obtain ⟨_, he, _⟩ := h
        subst he
        exact hce
      | false =>
        simp only [Bool.false_eq_true, if_false] at h
        cases hr : updateComponents svc res m_DT (slot + 1) rest with
        | none => simp [hr] at h
        | some r2 =>
          obtain ⟨rest2, e2, f2⟩ := r2
          simp only [hr, Option.some.injEq, Prod.mk.injEq] at h
          obtain ⟨_, he, _⟩ := h
          subst he
          rw [effectsFor_append, hce, ih (slot + 1) rest2 e2 f2 hr (by omega)]
          rfl

theorem get_focus {α : Type} (pre : List α) (c : α) (post : List α) :
    (pre ++ c :: post).get? pre.length = some c := by
  induction pre with
  | nil => rfl
  | cons p pre ih => exact ih

/-- What an update does with the component in one slot.  Either the loop returned before it
reached the slot, and then the component is as before and nothing is done for it; or the
component and the calls for it are those of the loop body. -/
theorem updateComponents_focus (svc : SpriteServices) (res : Resources) (m_DT : Rat)
    (pre : List Component2) (c : Component2) (post : List Component2) (slot : Nat)
    (components2 : List Component2) (effects : List SpriteEffect) (failed : Bool)
    (h : updateComponents svc res m_DT slot (pre ++ c :: post)
      = some (components2, effects, failed)) :
    ∃ pre2 e1 f1, updateComponents svc res m_DT slot pre = some (pre2, e1, f1) ∧
      (f1 = true → components2.get? pre.length = some c ∧
        effectsFor (slot + pre.length) effects = [] ∧ failed = true) ∧
      (f1 = false → ∃ c2 e2 f2,
        updateComponent svc res m_DT (slot + pre.length) c = some (c2, e2, f2) ∧
        components2.get? pre.length = some c2 ∧
        effectsFor (slot + pre.length) effects = effectsFor (slot + pre.length) e2 ∧
        (f2 = true → failed = true)) := by
  induction pre generalizing slot components2 effects failed with
  | nil =>
    refine ⟨[], [], false, rfl, fun hf => by simp at hf, fun _ => ?_⟩
    simp only [List.nil_append] at h
    cases hc : updateComponent svc res m_DT slot c with
    | none => simp [updateComponents, hc] at h
    | some r =>
      obtain ⟨c2, e2, f2⟩ := r
      rw [updateComponents_cons svc res m_DT slot c post c2 e2 f2 hc] at h
      cases f2 with
      | true =>
        simp only [if_true, Option.some.injEq, Prod.mk.injEq] at h
        obtain ⟨hl, he, hf⟩ := h
        subst hl; subst he; subst hf
        exact ⟨c2, e2, true, hc, rfl, rfl, fun _ => rfl⟩
      | false =>
        simp only [Bool.false_eq_true, if_false] at h
        cases hr : updateComponents svc res m_DT (slot + 1) post with
        | none => simp [hr] at h
        | some r2 =>
          obtain ⟨rest2, e3, f3⟩ := r2
          simp only [hr, Option.some.injEq, Prod.mk.injEq] at h
          obtain ⟨hl, he, hf⟩ := h
          subst hl; subst he; subst hf
          refine ⟨c2, e2, false, hc, rfl, ?_, fun hf => by simp at hf⟩
          simp only [List.length_nil, Nat.add_zero]
          rw [effectsFor_append,
            updateComponents_below svc res m_DT post (slot + 1) rest2 e3 f3 hr slot (by omega)]
          simp
  | cons p pre ih =>
    simp only [List.cons_append] at h
    have harith : slot + (p :: pre).length = slot + 1 + pre.length := by
      simp only [List.length_cons]; omega
    rw [harith]
    cases hp : updateComponent svc res m_DT slot p with
    | none => simp [updateComponents, hp] at h
    | some r =>
      obtain ⟨p2, ep, fp⟩ := r
      have hpe := (updateComponent_effects svc res m_DT slot p p2 ep fp hp).2
        (slot + 1 + pre.length) (by omega)
      rw [updateComponents_cons svc res m_DT slot p _ p2 ep fp hp] at h
      rw [updateComponents_cons svc res m_DT slot p pre p2 ep fp hp]
      cases fp with
      | true =>
        simp only [if_true, Option.some.injEq, Prod.mk.injEq] at h
        obtain ⟨hl, he, hf⟩ := h
        subst hl; subst he; subst hf
        exact ⟨p2 :: pre, ep, true, rfl, fun _ => ⟨get_focus pre c post, hpe, rfl⟩,
          fun hf => by simp at hf⟩
      | false =>
        simp only [Bool.false_eq_true, if_false] at h ⊢
        cases hr : updateComponents svc res m_DT (slot + 1) (pre ++ c :: post) with
        | none => simp [hr] at h
        | some r2 =>
          obtain ⟨rest2, e3, f3⟩ := r2
          simp only [hr, Option.some.injEq, Prod.mk.injEq] at h
          obtain ⟨hl, he, hf⟩ := h
          subst hl; subst he; subst hf
          obtain ⟨pre2, e1, f1, hpre, htrue, hfalse⟩ := ih (slot + 1) rest2 e3 f3 hr
          rw [hpre]
          refine ⟨p2 :: pre2, ep ++ e1, f1, rfl, fun hf => ?_, fun hf => ?_⟩
          · obtain ⟨h1, h2, h3⟩ := htrue hf
            refine ⟨by simpa using h1, ?_, h3⟩
            rw [effectsFor_append, hpe, h2]
            rfl
          · obtain ⟨c2, e2, f2, h1, h2, h3, h4⟩ := hfalse hf
            refine ⟨c2, e2, f2, h1, by simpa using h2, ?_, h4⟩
            rw [effectsFor_append, hpe, h3]
            rfl

theorem CompSprite2Update_unmapped (svc : SpriteServices) (res : Resources)
    (sprite_world : SpriteWorld2) (m_DT : Rat) (hmap : svc.MapVertexBuffer = false) :
    CompSprite2Update svc res sprite_world m_DT =
      some (UpdateResult.UPDATE_RESULT_UNKNOWN_ERROR, sprite_world,
        [SpriteEffect.MapVertexBuffer,
          SpriteEffect.LogError "Could not map vertex buffer when drawing sprites."]) := by
  simp [CompSprite2Update, hmap]

/-- The calls of an update that maps the vertex buffer: the map, the calls of the loop, and,
unless the update returned from inside the loop, the unmap and the error logged when it
fails. -/
theorem CompSprite2Update_trace (svc : SpriteServices) (res : Resources)
    (sprite_world : SpriteWorld2) (m_DT : Rat) (hmap : svc.MapVertexBuffer = true)
    (components : List Component2) (e : List SpriteEffect) (failed : Bool)
    (h : updateComponents svc res m_DT 0 sprite_world.m_Components = some (components, e, failed)) :
    ∃ result,
      CompSprite2Update svc res sprite_world m_DT =
        some (result,
          { sprite_world with m_Components := components, m_RenderObjects := renderObjects e },
          SpriteEffect.MapVertexBuffer :: e ++
            (if failed then []
              else SpriteEffect.UnmapVertexBuffer ::
                (if svc.UnmapVertexBuffer then []
                  else
                    [SpriteEffect.LogError
                      "Could not unmap vertex buffer when drawing sprites."]))) := by
  simp only [CompSprite2Update, hmap, Bool.true_eq_false, if_false, h]
  cases failed with
  | true => exact ⟨UpdateResult.UPDATE_RESULT_UNKNOWN_ERROR, by simp⟩
  | false =>
    cases hun : svc.UnmapVertexBuffer with
    | true => exact ⟨UpdateResult.UPDATE_RESULT_OK, by simp⟩
    | false => exact ⟨UpdateResult.UPDATE_RESULT_UNKNOWN_ERROR, by simp⟩

theorem CompSprite2Update_mapped (svc : SpriteServices) (res : Resources)
    (sprite_world : SpriteWorld2) (m_DT : Rat) (hmap : svc.MapVertexBuffer = true)
    (components : List Component2) (e : List SpriteEffect) (failed : Bool)
    (h : updateComponents svc res m_DT 0 sprite_world.m_Components = some (components, e, failed)) :
    ∃ result effects,
      CompSprite2Update svc res sprite_world m_DT =
        some (result,
          { sprite_world with m_Components := components, m_RenderObjects := renderObjects e },
          effects) ∧
      renderObjects effects = renderObjects e ∧ ∀ s, effectsFor s effects = effectsFor s e := by
  obtain ⟨result, hupd⟩ :=
    CompSprite2Update_trace svc res sprite_world m_DT hmap components e failed h
  refine ⟨result, _, hupd, ?_, fun s => ?_⟩
  · have hcons : ∀ l, renderObjects (SpriteEffect.MapVertexBuffer :: l) = renderObjects l :=
      fun _ => rfl
    rw [renderObjects_append, hcons]
    cases failed <;> cases svc.UnmapVertexBuffer <;>
      simp [renderObjects, SpriteEffect.rendered?]
  · have hcons : ∀ l, effectsFor s (SpriteEffect.MapVertexBuffer :: l) = effectsFor s l := by
      intro l
      simp [effectsFor, SpriteEffect.slot?]
    rw [effectsFor_append, hcons]
    cases failed <;> cases svc.UnmapVertexBuffer <;> simp [effectsFor, SpriteEffect.slot?]

theorem stopOnce_posts_succeed (svc : SpriteServices) (res : Resources) (slot : Nat)
    (component : Component2) (hpost : ∀ receiver id tile, svc.Post receiver id tile = true) :
    (stopOnce svc res slot component).2.2 = false := by
  unfold stopOnce
  simp only [hpost, Bool.true_eq_false, if_false]
  split_ifs <;> rfl

theorem updateComponents_posts_succeed (svc : SpriteServices) (res : Resources) (m_DT : Rat)
    (components : List Component2) (slot : Nat) (components2 : List Component2)
    (effects : List SpriteEffect) (failed : Bool)
    (hpost : ∀ receiver id tile, svc.Post receiver id tile = true)
    (h : updateComponents svc res m_DT slot components = some (components2, effects, failed)) :
    failed = false := by
  induction components generalizing slot components2 effects failed with
  | nil =>
    simp only [updateComponents, Option.some.injEq, Prod.mk.injEq] at h
    exact h.2.2.symm
  | cons c rest ih =>
    cases hc : updateComponent svc res m_DT slot c with
    | none => simp [updateComponents, hc] at h
    | some r =>
      obtain ⟨c2, e, f⟩ := r
      have hf : f = false := by
        cases hen : c.m_Enabled with
        | false =>
          rw [updateComponent_disabled svc res m_DT slot c hen] at hc
          simp only [Option.some.injEq, Prod.mk.injEq] at hc
          exact hc.2.2.symm
        | true =>
          by_cases hdef : tilesPerRow svc res c = 0
          · simp [updateComponent, hen, hdef] at hc
          · rw [updateComponent_enabled svc res m_DT slot c hen hdef] at hc
            simp only [Option.some.injEq, Prod.mk.injEq] at hc
            rw [← hc.2.2]
            exact stopOnce_posts_succeed svc res slot c hpost
      subst hf
      rw [updateComponents_cons svc res m_DT slot c rest c2 e false hc] at h
      simp only [Bool.false_eq_true, if_false] at h
      cases hr : updateComponents svc res m_DT (slot + 1) rest with
      | none => simp [hr] at h
      | some r2 =>
        obtain ⟨rest2, e2, f2⟩ := r2
        simp only [hr, Option.some.injEq, Prod.mk.injEq] at h
        rw [← h.2.2]
        exact ih (slot + 1) rest2 e2 f2 hr

/-- Claim C15, amended.  `Enable` sets and `Disable` clears the enabled flag of a component,
each changing no other field and each with the same result when repeated.  An update
leaves a disabled component as it is and makes no call for it: no render object, no message.
An update that maps the vertex buffer and in which every post succeeds emits as many render
objects as there are enabled components; an update that cannot map the vertex buffer emits
none. -/
theorem CompSprite2Update_enabled_flag (svc : SpriteServices) (res : Resources)
    (sprite_world : SpriteWorld2) (m_DT : Rat) (pre post : List Component2) (c : Component2)
    (m_Message : SpriteMessage) (hw : sprite_world.m_Components = pre ++ c :: post)
    (hdef : ∀ x ∈ sprite_world.m_Components, x.m_Enabled = true → tilesPerRow svc res x ≠ 0)
    (hids : svc.enableId ≠ svc.disableId) :
    (m_Message.m_Id = svc.enableId →
      CompSprite2OnMessage svc res c m_Message = { c with m_Enabled := true } ∧
        CompSprite2OnMessage svc res (CompSprite2OnMessage svc res c m_Message) m_Message
          = CompSprite2OnMessage svc res c m_Message) ∧
    (m_Message.m_Id = svc.disableId →
      CompSprite2OnMessage svc res c m_Message = { c with m_Enabled := false } ∧
        CompSprite2OnMessage svc res (CompSprite2OnMessage svc res c m_Message) m_Message
          = CompSprite2OnMessage svc res c m_Message) ∧
    ∃ result world effects,
      CompSprite2Update svc res sprite_world m_DT = some (result, world, effects) ∧
      (c.m_Enabled = false →
        world.m_Components.get? pre.length = some c ∧ effectsFor pre.length effects = []) ∧
      (svc.MapVertexBuffer = true → (∀ receiver id tile, svc.Post receiver id tile = true) →
        (renderObjects effects).length = enabledCount sprite_world.m_Components ∧
          world.m_RenderObjects = renderObjects effects) ∧
      (svc.MapVertexBuffer = false → renderObjects effects = []) := by
  refine ⟨fun h => ?_, fun h => ?_, ?_⟩
  · simp [CompSprite2OnMessage, h]
  · have hne : ¬ svc.disableId = svc.enableId := fun e => hids e.symm
    simp [CompSprite2OnMessage, h, hne]
  · cases hmap : svc.MapVertexBuffer with
    | false =>
      refine ⟨_, _, _, CompSprite2Update_unmapped svc res sprite_world m_DT hmap, fun _ => ?_,
        fun h => by simp at h, fun _ => rfl⟩
      rw [hw]
      exact ⟨get_focus pre c post, rfl⟩
    | true =>
      obtain ⟨⟨l, e, f⟩, hl⟩ :=
        updateComponents_some svc res m_DT sprite_world.m_Components 0 hdef
      obtain ⟨result, effects, hupd, hro, heff⟩ :=
        CompSprite2Update_mapped svc res sprite_world m_DT hmap l e f hl
      refine ⟨_, _, effects, hupd, fun hdis => ?_, fun _ hpost => ?_, fun h => by simp at h⟩
      · rw [hw] at hl
        obtain ⟨pre2, e1, f1, _, htrue, hfalse⟩ :=
          updateComponents_focus svc res m_DT pre c post 0 l e f hl
        rw [heff pre.length]
        simp only [Nat.zero_add] at htrue hfalse
        cases f1 with
        | true => exact ⟨(htrue rfl).1, (htrue rfl).2.1⟩
        | false =>
          obtain ⟨c2, e2, f2, hc, hget, he, _⟩ := hfalse rfl
          rw [updateComponent_disabled svc res m_DT pre.length c hdis] at hc
          simp only [Option.some.injEq, Prod.mk.injEq] at hc
          obtain ⟨hc2, he2, _⟩ := hc
          subst hc2; subst he2
          exact ⟨hget, he⟩
      · have hf := updateComponents_posts_succeed svc res m_DT _ 0 l e f hpost hl
        subst hf
        rw [hro]
        exact ⟨updateComponents_count svc res m_DT _ 0 l e hl, rfl⟩

theorem CompSprite2Update_enabled_flag_witness :
    CompSprite2OnMessage sampleSpriteServices onceResources doneComponent ⟨3, 0, 0, 0, 0⟩
        = { doneComponent with m_Enabled := false } ∧
      ∃ result world effects,
        CompSprite2Update sampleSpriteServices onceResources doneWorld (1 / 60)
          = some (result, world, effects) ∧
        (renderObjects effects).length = 1 := by
  have h := CompSprite2Update_enabled_flag sampleSpriteServices onceResources doneWorld (1 / 60)
    [] [] doneComponent ⟨3, 0, 0, 0, 0⟩ rfl
    (by
      intro x hx _
      have hx2 : x = doneComponent := by simpa [doneWorld] using hx
      subst hx2
      decide)
    (by decide)
  obtain ⟨_, hdis, result, world, effects, hupd, _, hcount, _⟩ := h
  exact ⟨(hdis rfl).1, result, world, effects, hupd, (hcount rfl (fun _ _ _ => rfl)).1⟩

/-- Claim C15 as stated fails when the vertex buffer cannot be mapped: the update emits no
render object although the one component of the world is enabled. -/
theorem CompSprite2Update_unmapped_emits_nothing :
    enabledCount doneWorld.m_Components = 1 ∧
      ∃ effects,
        CompSprite2Update unmappedServices onceResources doneWorld (1 / 60)
          = some (UpdateResult.UPDATE_RESULT_UNKNOWN_ERROR, doneWorld, effects) ∧
        (renderObjects effects).length = 0 :=
  ⟨rfl, _, CompSprite2Update_unmapped unmappedServices onceResources doneWorld (1 / 60) rfl, rfl⟩

theorem animate_stopped (svc : SpriteServices) (res : Resources) (m_DT : Rat)
    (component : Component2) (h : component.m_Playing = false) :
    animate svc res m_DT component = component := by
  simp [animate, h]

/-- The loop body for an enabled component of a once-animation whose tile is the end tile. -/
theorem updateComponent_at_end (svc : SpriteServices) (res : Resources) (m_DT : Rat)
    (slot : Nat) (c : Component2) (hen : c.m_Enabled = true)
    (hdef : tilesPerRow svc res c ≠ 0)
    (honce : (animationOf res c).m_Playback = Playback2.PLAYBACK2_ONCE_FORWARD
      ∨ (animationOf res c).m_Playback = Playback2.PLAYBACK2_ONCE_BACKWARD)
    (hend : (c.m_CurrentTile : Int) = endTile (animationOf res c)) :
    ∃ c2 e f, updateComponent svc res m_DT slot c = some (c2, e, f) ∧
      (c.m_ListenerInstance ≠ 0 →
        c2 = { c with m_Playing := false, m_ListenerInstance := 0, m_ListenerComponent := 255 } ∧
        effectsFor slot e = SpriteEffect.AddToRender slot ::
          (if svc.IsSocketValid (svc.GetMessageSocket (svc.GetCollection c.m_ListenerInstance))
            then
              [SpriteEffect.Post slot
                ⟨svc.GetMessageSocket (svc.GetCollection c.m_ListenerInstance),
                  svc.GetIdentifier c.m_ListenerInstance, c.m_ListenerComponent⟩
                svc.animationDoneId c.m_CurrentTile]
            else [])) ∧
      (c.m_ListenerInstance = 0 →
        c2 = { c with m_Playing := false } ∧ effectsFor slot e = [SpriteEffect.AddToRender slot]) := by
  refine ⟨_, _, _, updateComponent_enabled svc res m_DT slot c hen hdef, fun hl => ?_, fun hl => ?_⟩
  · cases hvalid : svc.IsSocketValid (svc.GetMessageSocket (svc.GetCollection c.m_ListenerInstance)) with
    | false =>
      have hstop : stopOnce svc res slot c
          = ({ c with m_Playing := false, m_ListenerInstance := 0, m_ListenerComponent := 255 },
              [], false) := by
        simp [stopOnce, honce, hend, hl, hvalid]
      rw [hstop]
      simp [animate_stopped, effectsFor, SpriteEffect.slot?]
    | true =>
      cases hpost : svc.Post
          ⟨svc.GetMessageSocket (svc.GetCollection c.m_ListenerInstance),
            svc.GetIdentifier c.m_ListenerInstance, c.m_ListenerComponent⟩
          svc.animationDoneId c.m_CurrentTile with
      | false =>
        have hstop : stopOnce svc res slot c
            = ({ c with m_Playing := false, m_ListenerInstance := 0, m_ListenerComponent := 255 },
                [SpriteEffect.Post slot
                  ⟨svc.GetMessageSocket (svc.GetCollection c.m_ListenerInstance),
                    svc.GetIdentifier c.m_ListenerInstance, c.m_ListenerComponent⟩
                  svc.animationDoneId c.m_CurrentTile,
                  SpriteEffect.LogError "Could not send animation_done to listener."], true) := by
          simp [stopOnce, honce, hend, hl, hvalid, hpost]
        rw [hstop]
        simp [effectsFor, SpriteEffect.slot?]
      | true =>
        have hstop : stopOnce svc res slot c
            = ({ c with m_Playing := false, m_ListenerInstance := 0, m_ListenerComponent := 255 },
                [SpriteEffect.Post slot
                  ⟨svc.GetMessageSocket (svc.GetCollection c.m_ListenerInstance),
                    svc.GetIdentifier c.m_ListenerInstance, c.m_ListenerComponent⟩
                  svc.animationDoneId c.m_CurrentTile], false) := by
          simp [stopOnce, honce, hend, hl, hvalid, hpost]
        rw [hstop]
        simp [animate_stopped, effectsFor, SpriteEffect.slot?]
  · have hstop : stopOnce svc res slot c = ({ c with m_Playing := false }, [], false) := by
      simp [stopOnce, honce, hend, hl]
    rw [hstop]
    simp [animate_stopped, effectsFor, SpriteEffect.slot?]

/-- Claim C14, amended.  For an enabled component whose animation is played once, forward or
backward, and whose current tile is the end tile of the animation.  An update reaches the
component when it maps the vertex buffer and no post for a component in an earlier slot
fails.  An update that reaches it stops playback and leaves the tile as it is; if a listener
is registered, the listener is cleared and, when the socket of the listener's collection is
valid, one `animation_done` with that tile is posted to that socket, the listener's
identifier and the listener component, and when the socket is not valid nothing is posted;
if no listener is registered, as after it has been cleared, nothing is posted.  An update
that does not reach the component leaves it as it is and posts nothing for it. -/
theorem CompSprite2Update_animation_done (svc : SpriteServices) (res : Resources)
    (sprite_world : SpriteWorld2) (m_DT : Rat) (pre post : List Component2) (c : Component2)
    (hw : sprite_world.m_Components = pre ++ c :: post)
    (hdef : ∀ x ∈ sprite_world.m_Components, x.m_Enabled = true → tilesPerRow svc res x ≠ 0)
    (hen : c.m_Enabled = true)
    (honce : (animationOf res c).m_Playback = Playback2.PLAYBACK2_ONCE_FORWARD
      ∨ (animationOf res c).m_Playback = Playback2.PLAYBACK2_ONCE_BACKWARD)
    (hend : (c.m_CurrentTile : Int) = endTile (animationOf res c)) :
    ∃ result world effects,
      CompSprite2Update svc res sprite_world m_DT = some (result, world, effects) ∧
      ((svc.MapVertexBuffer = true ∧
          ∃ pre2 e1, updateComponents svc res m_DT 0 pre = some (pre2, e1, false)) →
        (c.m_ListenerInstance ≠ 0 →
          world.m_Components.get? pre.length
            = some { c with
                m_Playing := false, m_ListenerInstance := 0, m_ListenerComponent := 255 } ∧
          effectsFor pre.length effects = SpriteEffect.AddToRender pre.length ::
            (if svc.IsSocketValid (svc.GetMessageSocket (svc.GetCollection c.m_ListenerInstance))
              then
                [SpriteEffect.Post pre.length
                  ⟨svc.GetMessageSocket (svc.GetCollection c.m_ListenerInstance),
                    svc.GetIdentifier c.m_ListenerInstance, c.m_ListenerComponent⟩
                  svc.animationDoneId c.m_CurrentTile]
              else [])) ∧
        (c.m_ListenerInstance = 0 →
          world.m_Components.get? pre.length = some { c with m_Playing := false } ∧
          effectsFor pre.length effects = [SpriteEffect.AddToRender pre.length])) ∧
      (¬ (svc.MapVertexBuffer = true ∧
          ∃ pre2 e1, updateComponents svc res m_DT 0 pre = some (pre2, e1, false)) →
        world.m_Components.get? pre.length = some c ∧ effectsFor pre.length effects = []) := by
  cases hmap : svc.MapVertexBuffer with
  | false =>
    refine ⟨_, _, _, CompSprite2Update_unmapped svc res sprite_world m_DT hmap,
      fun h => by simp at h, fun _ => ?_⟩
    rw [hw]
    exact ⟨get_focus pre c post, rfl⟩
  | true =>
    obtain ⟨⟨l, e, f⟩, hl⟩ := updateComponents_some svc res m_DT sprite_world.m_Components 0 hdef
    obtain ⟨result, effects, hupd, _, heff⟩ :=
      CompSprite2Update_mapped svc res sprite_world m_DT hmap l e f hl
    have hc : c ∈ sprite_world.m_Components := by rw [hw]; simp
    rw [hw] at hl
    obtain ⟨pre2, e1, f1, hpre, htrue, hfalse⟩ :=
      updateComponents_focus svc res m_DT pre c post 0 l e f hl
    simp only [Nat.zero_add] at htrue hfalse
    obtain ⟨c3, e3, f3, hstep, hlistener, hnone⟩ :=
      updateComponent_at_end svc res m_DT pre.length c hen (hdef c hc hen) honce hend
    refine ⟨_, _, effects, hupd, fun hreach => ?_, fun hnot => ?_⟩
    · obtain ⟨_, pre3, e4, hpre3⟩ := hreach
      rw [hpre] at hpre3
      simp only [Option.some.injEq, Prod.mk.injEq] at hpre3
      obtain ⟨c2, e2, f2, hc2, hget, he, _⟩ := hfalse hpre3.2.2
      rw [hstep] at hc2
      simp only [Option.some.injEq, Prod.mk.injEq] at hc2
      obtain ⟨h1, h2, _⟩ := hc2
      subst h1; subst h2
      rw [heff pre.length, he]
      constructor
      · intro hne
        obtain ⟨hc3, he3⟩ := hlistener hne
        rw [← hc3]
        exact ⟨hget, he3⟩
      · intro h0
        obtain ⟨hc3, he3⟩ := hnone h0
        rw [← hc3]
        exact ⟨hget, he3⟩
    · have hf1 : f1 = true := by
        cases f1 with
        | true => rfl
        | false => exact absurd ⟨rfl, pre2, e1, hpre⟩ hnot
      rw [heff pre.length]
      exact ⟨(htrue hf1).1, (htrue hf1).2.1⟩

theorem CompSprite2Update_animation_done_witness :
    ∃ result world effects,
      CompSprite2Update sampleSpriteServices onceResources doneWorld (1 / 60)
        = some (result, world, effects) ∧
      effectsFor 0 effects
        = [SpriteEffect.AddToRender 0, SpriteEffect.Post 0 ⟨50, 112, 5⟩ 1 1] := by
  obtain ⟨result, world, effects, hupd, hreach, _⟩ :=
    CompSprite2Update_animation_done sampleSpriteServices onceResources doneWorld (1 / 60)
      [] [] doneComponent rfl
      (by
        intro x hx _
        have hx2 : x = doneComponent := by simpa [doneWorld] using hx
        subst hx2
        decide)
      rfl (Or.inl rfl) (by decide)
  exact ⟨result, world, effects, hupd, ((hreach ⟨rfl, [], [], rfl⟩).1 (by decide)).2⟩

/-- Claim C14 as stated fails when the socket of the listener's collection is not valid: the
update of a component with a listener, at the end tile of its once-animation, stops playback
and clears the listener but posts no `animation_done`. -/
theorem CompSprite2Update_invalid_socket_posts_nothing :
    doneComponent.m_ListenerInstance = 12 ∧
      (doneComponent.m_CurrentTile : Int) = endTile (animationOf onceResources doneComponent) ∧
      CompSprite2Update invalidSocketServices onceResources doneWorld (1 / 60)
        = some (UpdateResult.UPDATE_RESULT_OK,
            ⟨[{ doneComponent with
                m_Playing := false, m_ListenerInstance := 0, m_ListenerComponent := 255 }],
              ⟨[0], 1⟩, [0]⟩,
            [SpriteEffect.MapVertexBuffer, SpriteEffect.AddToRender 0,
              SpriteEffect.UnmapVertexBuffer]) :=
  ⟨rfl, by decide, rfl⟩

/-- Claim C27 on a world whose one component has reached the end tile of its once-animation
and has a listener, when the post fails: the update maps the vertex buffer, emits the render
object, posts, logs the error and returns the error without a call of
`dmGraphics::UnmapVertexBuffer`. -/
theorem CompSprite2Update_returns_without_unmap :
    CompSprite2Update failingPostServices onceResources doneWorld (1 / 60)
      = some (UpdateResult.UPDATE_RESULT_UNKNOWN_ERROR,
          ⟨[{ doneComponent with
              m_Playing := false, m_ListenerInstance := 0, m_ListenerComponent := 255 }],
            ⟨[0], 1⟩, [0]⟩,
          [SpriteEffect.MapVertexBuffer, SpriteEffect.AddToRender 0,
            SpriteEffect.Post 0 ⟨50, 112, 5⟩ 1 1,
            SpriteEffect.LogError "Could not send animation_done to listener."]) :=
  rfl

/-! ## Starting an animation -/

theorem findAnimation_none (animation_id : dmGameObject.dmhash_t) (ids : List dmGameObject.dmhash_t) (k : Nat) :
    findAnimation animation_id ids k = none ↔ animation_id ∉ ids := by
  induction ids generalizing k with
  | nil => simp [findAnimation]
  | cons id rest ih =>
    by_cases h : animation_id = id
    · simp [findAnimation, h]
    · simp [findAnimation, h, ih]

theorem findAnimation_first (animation_id : dmGameObject.dmhash_t) (ids : List dmGameObject.dmhash_t) (k i : Nat)
    (hi : ids.get? i = some animation_id) (hmin : ∀ j, j < i → ids.get? j ≠ some animation_id) :
    findAnimation animation_id ids k = some (k + i) := by
  induction ids generalizing k i with
  | nil => simp at hi
  | cons id rest ih =>
    cases i with
    | zero =>
      simp only [List.get?_cons_zero, Option.some.injEq] at hi
      simp [findAnimation, hi]
    | succ i =>
      have hne : animation_id ≠ id := by
        intro e
        exact hmin 0 (Nat.succ_pos i) (by simp [e])
      simp only [findAnimation, hne, if_false]
      rw [ih (k + 1) i (by simpa using hi)
        (fun j hj => by simpa using hmin (j + 1) (Nat.succ_lt_succ hj))]
      congr 1
      omega

theorem PlayAnimation_not_found (res : Resources) (component : Component2)
    (animation_id : dmGameObject.dmhash_t)
    (h : animation_id ∉
      (res.tileSets (res.sprites component.m_Resource).m_TileSet).m_AnimationIds) :
    PlayAnimation res component animation_id = (false, component) := by
  simp [PlayAnimation, (findAnimation_none animation_id _ 0).mpr h]

theorem PlayAnimation_found_iff (res : Resources) (component : Component2)
    (animation_id : dmGameObject.dmhash_t) :
    (PlayAnimation res component animation_id).1 = true ↔
      animation_id ∈ (res.tileSets (res.sprites component.m_Resource).m_TileSet).m_AnimationIds := by
  constructor
  · intro h
    by_contra hn
    rw [PlayAnimation_not_found res component animation_id hn] at h
    simp at h
  · intro h
    cases hf : findAnimation animation_id
        (res.tileSets (res.sprites component.m_Resource).m_TileSet).m_AnimationIds 0 with
    | none => exact absurd h ((findAnimation_none animation_id _ 0).mp hf)
    | some i => simp [PlayAnimation, hf]

theorem PlayAnimation_keeps_instance (res : Resources) (component : Component2)
    (animation_id : dmGameObject.dmhash_t) :
    (PlayAnimation res component animation_id).2.m_Instance = component.m_Instance := by
  simp only [PlayAnimation]
  cases findAnimation animation_id
    (res.tileSets (res.sprites component.m_Resource).m_TileSet).m_AnimationIds 0 <;> rfl

/-- Claim C29, amended.  `PlayAnimation` returns true exactly when the id occurs in the list
of animation ids of the tile set, and leaves the component as it is when it does not.  When
the smallest index holding the id is below 65536 and the animation at that index of the
animation table starts at a tile between 1 and 65536, the component gets that index as
current animation, the start tile minus one as current tile, plays forwards with frame timer
0 and frame time 1/fps, and is playing exactly when the playback mode is not `NONE`.  A
`PlayAnimation2` message with descriptor sets the listener to the instance that the sender's
path names in the collection of the component and to the sender's fragment when
`PlayAnimation` returned true, and leaves the component as it is when it returned false. -/
theorem PlayAnimation_starts_animation (svc : SpriteServices) (res : Resources)
    (c : Component2) (animation_id : dmGameObject.dmhash_t) (m_Message : SpriteMessage) :
    ((PlayAnimation res c animation_id).1 = true ↔
      animation_id ∈ (res.tileSets (res.sprites c.m_Resource).m_TileSet).m_AnimationIds) ∧
    (animation_id ∉ (res.tileSets (res.sprites c.m_Resource).m_TileSet).m_AnimationIds →
      (PlayAnimation res c animation_id).2 = c) ∧
    (∀ (i : Nat) (animation : Animation),
      (res.tileSets (res.sprites c.m_Resource).m_TileSet).m_AnimationIds.get? i
        = some animation_id →
      (∀ j, j < i →
        (res.tileSets (res.sprites c.m_Resource).m_TileSet).m_AnimationIds.get? j
          ≠ some animation_id) →
      i < 65536 →
      (res.messages (res.tileSets (res.sprites c.m_Resource).m_TileSet).m_TileSet).m_Animations.get? i
        = some animation →
      1 ≤ animation.m_StartTile → animation.m_StartTile ≤ 65536 →
      (PlayAnimation res c animation_id).2 =
        { c with
          m_CurrentAnimation := i
          m_CurrentTile := animation.m_StartTile - 1
          m_PlayBackwards := false
          m_FrameTime := 1 / (animation.m_Fps : Rat)
          m_FrameTimer := 0
          m_Playing := decide (animation.m_Playback ≠ Playback2.PLAYBACK2_NONE) }) ∧
    (m_Message.m_Id = svc.playAnimationId → m_Message.m_Id ≠ svc.enableId →
      m_Message.m_Id ≠ svc.disableId → m_Message.m_Descriptor ≠ 0 →
      ((PlayAnimation res c m_Message.m_Data).1 = true →
        CompSprite2OnMessage svc res c m_Message =
          { (PlayAnimation res c m_Message.m_Data).2 with
            m_ListenerInstance :=
              svc.GetInstanceFromIdentifier (svc.GetCollection c.m_Instance)
                m_Message.m_SenderPath
            m_ListenerComponent := m_Message.m_SenderFragment }) ∧
      ((PlayAnimation res c m_Message.m_Data).1 = false →
        CompSprite2OnMessage svc res c m_Message = c)) := by
  refine ⟨PlayAnimation_found_iff res c animation_id,
    fun h => by rw [PlayAnimation_not_found res c animation_id h], ?_, ?_⟩
  · intro i animation hi hmin hlt hanim h1 h2
    have hfind := findAnimation_first animation_id _ 0 i hi hmin
    rw [Nat.zero_add] at hfind
    have hmod : i % 65536 = i := Nat.mod_eq_of_lt hlt
    have hget :
        (res.messages (res.tileSets (res.sprites c.m_Resource).m_TileSet).m_TileSet).m_Animations.getD
          i Animation.unset = animation := by
      rw [List.getD_eq_getElem?_getD, ← List.get?_eq_getElem?, hanim]
      rfl
    have htile : (animation.m_StartTile + 4294967295) % 4294967296 % 65536
        = animation.m_StartTile - 1 := by omega
    simp only [PlayAnimation, hfind, hmod, hget, htile]
  · intro hid hen hdis hdesc
    have hne : ¬ svc.playAnimationId = svc.enableId := fun e => hen (hid.trans e)
    have hnd : ¬ svc.playAnimationId = svc.disableId := fun e => hdis (hid.trans e)
    constructor
    · intro hplayed
      simp [CompSprite2OnMessage, hid, hne, hnd, hdesc, hplayed, PlayAnimation_keeps_instance]
    · intro hplayed
      have hnot : m_Message.m_Data ∉
          (res.tileSets (res.sprites c.m_Resource).m_TileSet).m_AnimationIds := by
        intro hmem
        rw [(PlayAnimation_found_iff res c m_Message.m_Data).mpr hmem] at hplayed
        simp at hplayed
      simp [CompSprite2OnMessage, hid, hne, hnd, hdesc,
        PlayAnimation_not_found res c m_Message.m_Data hnot]

theorem PlayAnimation_starts_animation_witness :
    (PlayAnimation sampleResources Component2.zero 7).2.m_CurrentTile = 0 ∧
      (PlayAnimation sampleResources Component2.zero 7).2.m_Playing = true := by
  have h := (PlayAnimation_starts_animation sampleSpriteServices sampleResources Component2.zero
    7 ⟨4, 1, 7, 112, 5⟩).2.2.1 0 ⟨"walk", 1, 4, Playback2.PLAYBACK2_LOOP_FORWARD, 30⟩
    rfl (fun j hj => absurd hj (Nat.not_lt_zero j)) (by decide) rfl (by decide) (by decide)
  rw [h]
  exact ⟨rfl, rfl⟩

/-- Claim C29 as stated fails for an animation whose start tile does not fit 16 bits: the
animation found starts at tile 65537, and the current tile becomes 0, not 65536. -/
theorem PlayAnimation_truncates_start_tile :
    (PlayAnimation wideResources Component2.zero 7).1 = true ∧
      ((wideResources.messages 3).m_Animations.get? 0).map (fun a => a.m_StartTile)
        = some 65537 ∧
      (PlayAnimation wideResources Component2.zero 7).2.m_CurrentAnimation = 0 ∧
      (PlayAnimation wideResources Component2.zero 7).2.m_CurrentTile = 0 :=
  ⟨rfl, rfl, rfl, rfl⟩

/-! ## Playing back and forth -/

/-- One animation step of a component that plays back and forth: the tile moves by one in
the play direction, wraps at the ends of the tile set, and the direction is reversed when the
tile is then the start or the end tile. -/
theorem animate_pingpong (svc : SpriteServices) (res : Resources) (m_DT : Rat) (c : Component2)
    (hplay : c.m_Playing = true)
    (hmode : (animationOf res c).m_Playback = Playback2.PLAYBACK2_LOOP_PINGPONG)
    (htime : c.m_FrameTimer + m_DT ≥ c.m_FrameTime) (moved wrapped : Int)
    (hmoved : moved = if c.m_PlayBackwards then toInt16 (toInt16 c.m_CurrentTile - 1)
      else toInt16 (toInt16 c.m_CurrentTile + 1))
    (hwrapped : wrapped =
      if moved < 0 then toInt16 (((tileCount svc res c + 4294967295) % 4294967296 : Nat) : Int)
      else if toUInt16 moved ≥ tileCount svc res c then 0
      else moved) :
    animate svc res m_DT c =
      { c with
        m_FrameTimer := c.m_FrameTimer + m_DT - c.m_FrameTime
        m_CurrentTile := toUInt16 wrapped
        m_PlayBackwards :=
          if wrapped = startTile (animationOf res c) ∨ wrapped = endTile (animationOf res c) then
            !c.m_PlayBackwards
          else c.m_PlayBackwards } := by
  subst hmoved
  subst hwrapped
  simp only [animate, hplay, if_true, htime, hmode, true_and]
  split_ifs <;> rfl

/-- Claim C26 on an animation whose start and end tile are both tile 1 of a tile set of 16
tiles: from the state `PlayAnimation` establishes, tile 0 played forwards, one animation step
moves the current tile to 1, outside the range from start to end, without reversing the
direction. -/
theorem animate_pingpong_single_tile_leaves_range :
    (PlayAnimation blinkResources blinkComponent 7).2.m_CurrentTile = blinkComponent.m_CurrentTile ∧
      (PlayAnimation blinkResources blinkComponent 7).2.m_PlayBackwards = false ∧
      (PlayAnimation blinkResources blinkComponent 7).2.m_Playing = true ∧
      startTile (animationOf blinkResources blinkComponent) = 0 ∧
      endTile (animationOf blinkResources blinkComponent) = 0 ∧
      tileCount sampleSpriteServices blinkResources blinkComponent = 16 ∧
      (animate sampleSpriteServices blinkResources (1 / 30) blinkComponent).m_CurrentTile = 1 ∧
      (animate sampleSpriteServices blinkResources (1 / 30) blinkComponent).m_PlayBackwards
        = false := by
  have hstep := animate_pingpong sampleSpriteServices blinkResources (1 / 30) blinkComponent
    rfl rfl (by norm_num [blinkComponent]) 1 1 (by decide) (by decide)
  refine ⟨rfl, rfl, rfl, by decide, by decide, by decide, ?_, ?_⟩
  · rw [hstep]
    rfl
  · rw [hstep]
    rfl

/-! ## Creating and destroying sprites -/

theorem worldInvariant_new (capacity : Nat) :
    WorldInvariant capacity (CompSprite2NewWorld capacity, []) := by
  refine ⟨by simp [CompSprite2NewWorld, dmIndexPool32.SetCapacity],
    by simp [CompSprite2NewWorld], by simp [CompSprite2NewWorld, dmIndexPool32.SetCapacity],
    ?_, ?_, List.nodup_nil, by simp, by simp, rfl⟩
  · simp [CompSprite2NewWorld, dmIndexPool32.SetCapacity, dmIndexPool32.free, List.nodup_range]
  · intro s hs
    simpa [CompSprite2NewWorld, dmIndexPool32.SetCapacity, dmIndexPool32.free] using hs

/-- The slot `Pop` hands out is the first free slot, and the free slots after it are the
others. -/
theorem pop_free (p : dmIndexPool32) (h : p.m_Size < p.m_Pool.length) :
    p.free = p.Pop.1 :: p.Pop.2.free := by
  simp only [dmIndexPool32.free, dmIndexPool32.Pop]
  rw [List.drop_eq_getElem_cons h]
  simp [List.getD_eq_getElem?_getD, h]

/-- After `Push` the free slots are the slot given back and those free before. -/
theorem push_free (p : dmIndexPool32) (index : Nat) (h0 : 0 < p.m_Size)
    (h : p.m_Size ≤ p.m_Pool.length) :
    (p.Push index).free = index :: p.free := by
  simp only [dmIndexPool32.free, dmIndexPool32.Push]
  have hlt : p.m_Size - 1 < (p.m_Pool.set (p.m_Size - 1) index).length := by
    simp only [List.length_set]; omega
  rw [List.drop_eq_getElem_cons hlt,
    List.drop_set_of_lt index p.m_Pool (Nat.lt_succ_self (p.m_Size - 1))]
  have hs : (p.m_Size - 1).succ = p.m_Size := by omega
  rw [hs]
  simp

theorem CompSprite2Create_full (res : Resources) (sprite_world : SpriteWorld2)
    (m_Instance m_Resource m_UserData : Nat)
    (h : sprite_world.m_ComponentIndices.Remaining = 0) :
    CompSprite2Create res sprite_world m_Instance m_Resource m_UserData
      = (CreateResult.CREATE_RESULT_UNKNOWN_ERROR, sprite_world, m_UserData) := by
  simp [CompSprite2Create, h]

theorem CompSprite2Create_room (res : Resources) (sprite_world : SpriteWorld2)
    (m_Instance m_Resource m_UserData : Nat)
    (h : sprite_world.m_ComponentIndices.Remaining ≠ 0) :
    (CompSprite2Create res sprite_world m_Instance m_Resource m_UserData).1
        = CreateResult.CREATE_RESULT_OK ∧
      (CompSprite2Create res sprite_world m_Instance m_Resource m_UserData).2.2
        = sprite_world.m_ComponentIndices.Pop.1 ∧
      (CompSprite2Create res sprite_world m_Instance m_Resource m_UserData).2.1.m_ComponentIndices
        = sprite_world.m_ComponentIndices.Pop.2 ∧
      (CompSprite2Create res sprite_world m_Instance m_Resource m_UserData).2.1.m_Components.length
        = sprite_world.m_Components.length := by
  simp [CompSprite2Create, h]

theorem worldInvariant_create (res : Resources) (capacity : Nat)
    (state : SpriteWorld2 × List Nat) (m_Instance m_Resource : Nat)
    (h : WorldInvariant capacity state) :
    WorldInvariant capacity
      (applyCall res state (SpriteCall.Create m_Instance m_Resource)) := by
  obtain ⟨hpool, hcomp, hsize, hfree, hfreelt, hlive, hlivelt, hdisj, hlen⟩ := h
  by_cases hrem : state.1.m_ComponentIndices.Remaining = 0
  · simp only [applyCall, CompSprite2Create_full res state.1 m_Instance m_Resource 0 hrem]
    exact ⟨hpool, hcomp, hsize, hfree, hfreelt, hlive, hlivelt, hdisj, hlen⟩
  · obtain ⟨hok, hslot, hindices, hlength⟩ :=
      CompSprite2Create_room res state.1 m_Instance m_Resource 0 hrem
    have hlt : state.1.m_ComponentIndices.m_Size < state.1.m_ComponentIndices.m_Pool.length := by
      simp only [dmIndexPool32.Remaining] at hrem
      omega
    have hpop := pop_free state.1.m_ComponentIndices hlt
    rw [hpop] at hfree hfreelt hdisj
    have hnew : state.1.m_ComponentIndices.Pop.1 ∉ state.2 := by
      intro hmem
      exact hdisj _ hmem (List.mem_cons_self _ _)
    simp only [applyCall, hok, if_true]
    refine ⟨?_, ?_, ?_, ?_, ?_, ?_, ?_, ?_, ?_⟩
    · rw [hindices]; exact hpool
    · rw [hlength]; exact hcomp
    · rw [hindices]; simp only [dmIndexPool32.Pop]; omega
    · rw [hindices]; exact (List.nodup_cons.mp hfree).2
    · rw [hindices]
      intro s hs
      exact hfreelt s (List.mem_cons_of_mem _ hs)
    · rw [hslot]; exact List.nodup_cons.mpr ⟨hnew, hlive⟩
    · rw [hslot]
      intro s hs
      rcases List.mem_cons.mp hs with e | hmem
      · rw [e]; exact hfreelt _ (List.mem_cons_self _ _)
      · exact hlivelt s hmem
    · rw [hslot, hindices]
      intro s hs
      rcases List.mem_cons.mp hs with e | hmem
      · rw [e]; exact (List.nodup_cons.mp hfree).1
      · exact fun hin => hdisj s hmem (List.mem_cons_of_mem _ hin)
    · rw [hslot, hindices]
      simp only [List.length_cons, dmIndexPool32.Pop, hlen]

theorem worldInvariant_destroy (res : Resources) (capacity : Nat)
    (state : SpriteWorld2 × List Nat) (m_UserData : Nat)
    (h : WorldInvariant capacity state) (hu : m_UserData ∈ state.2) :
    WorldInvariant capacity (applyCall res state (SpriteCall.Destroy m_UserData)) := by
  obtain ⟨hpool, hcomp, hsize, hfree, hfreelt, hlive, hlivelt, hdisj, hlen⟩ := h
  have hpos : 0 < state.1.m_ComponentIndices.m_Size := by
    rw [← hlen]
    exact List.length_pos_of_mem hu
  have hpush := push_free state.1.m_ComponentIndices m_UserData hpos (by omega)
  simp only [applyCall, CompSprite2Destroy]
  refine ⟨?_, ?_, ?_, ?_, ?_, ?_, ?_, ?_, ?_⟩
  · simp only [dmIndexPool32.Push, List.length_set]; exact hpool
  · simp only [List.length_set]; exact hcomp
  · simp only [dmIndexPool32.Push]; omega
  · rw [hpush]; exact List.nodup_cons.mpr ⟨hdisj _ hu, hfree⟩
  · rw [hpush]
    intro s hs
    rcases List.mem_cons.mp hs with e | hmem
    · rw [e]; exact hlivelt _ hu
    · exact hfreelt s hmem
  · exact hlive.erase _
  · intro s hs
    exact hlivelt s (List.mem_of_mem_erase hs)
  · rw [hpush]
    intro s hs hin
    rcases List.mem_cons.mp hin with e | hmem
    · rw [e] at hs
      exact List.Nodup.not_mem_erase hlive hs
    · exact hdisj s (List.mem_of_mem_erase hs) hmem
  · rw [List.length_erase_of_mem hu, hlen]
    simp only [dmIndexPool32.Push]

theorem worldInvariant_calls (res : Resources) (capacity : Nat) (calls : List SpriteCall)
    (state : SpriteWorld2 × List Nat) (h : WorldInvariant capacity state)
    (hadm : admissible res calls state = true) :
    WorldInvariant capacity (applyCalls res calls state) := by
  induction calls generalizing state with
  | nil => exact h
  | cons call rest ih =>
    cases call with
    | Create m_Instance m_Resource =>
      simp only [admissible] at hadm
      exact ih _ (worldInvariant_create res capacity state m_Instance m_Resource h) hadm
    | Destroy m_UserData =>
      simp only [admissible, Bool.and_eq_true, decide_eq_true_eq] at hadm
      exact ih _ (worldInvariant_destroy res capacity state m_UserData h hadm.1) hadm.2

/-- Claim C28.  After any sequence of `CompSprite2Create` and `CompSprite2Destroy` calls on a
new sprite world, each `Destroy` given a component created and not yet destroyed: the slots
handed out and not yet destroyed are distinct indices below the capacity, and their number
plus the remaining count of the pool is the capacity.  `CompSprite2Destroy` of such a slot
zeroes its component, leaves the others, and gives exactly that slot back to the pool, so the
remaining count grows by one.  A `CompSprite2Create` that finds room succeeds, and destroying
the component it created restores the remaining count. -/
theorem CompSprite2_slots_invariant (res : Resources) (capacity : Nat)
    (calls : List SpriteCall)
    (hadm : admissible res calls (CompSprite2NewWorld capacity, []) = true) :
    (worldAfter res capacity calls).2.Nodup ∧
      (∀ s ∈ (worldAfter res capacity calls).2, s < capacity) ∧
      (worldAfter res capacity calls).2.length
          + (worldAfter res capacity calls).1.m_ComponentIndices.Remaining = capacity ∧
      (∀ u ∈ (worldAfter res capacity calls).2,
        (CompSprite2Destroy (worldAfter res capacity calls).1 u).2.m_Components.get? u
            = some Component2.zero ∧
          (∀ s, s ≠ u →
            (CompSprite2Destroy (worldAfter res capacity calls).1 u).2.m_Components.get? s
              = (worldAfter res capacity calls).1.m_Components.get? s) ∧
          (CompSprite2Destroy (worldAfter res capacity calls).1 u).2.m_ComponentIndices.free
            = u :: (worldAfter res capacity calls).1.m_ComponentIndices.free ∧
          (CompSprite2Destroy (worldAfter res capacity calls).1 u).2.m_ComponentIndices.Remaining
            = (worldAfter res capacity calls).1.m_ComponentIndices.Remaining + 1) ∧
      (∀ m_Instance m_Resource,
        (worldAfter res capacity calls).1.m_ComponentIndices.Remaining ≠ 0 →
        (CompSprite2Create res (worldAfter res capacity calls).1 m_Instance m_Resource 0).1
            = CreateResult.CREATE_RESULT_OK ∧
          (CompSprite2Destroy
              (CompSprite2Create res (worldAfter res capacity calls).1 m_Instance m_Resource 0).2.1
              (CompSprite2Create res (worldAfter res capacity calls).1 m_Instance m_Resource
                0).2.2).2.m_ComponentIndices.Remaining
            = (worldAfter res capacity calls).1.m_ComponentIndices.Remaining) := by
  obtain ⟨hpool, hcomp, hsize, hfree, hfreelt, hlive, hlivelt, hdisj, hlen⟩ :=
    worldInvariant_calls res capacity calls _ (worldInvariant_new capacity) hadm
  refine ⟨hlive, hlivelt, ?_, ?_, ?_⟩
  · show (applyCalls res calls (CompSprite2NewWorld capacity, [])).2.length + _ = capacity
    rw [hlen]
    simp only [worldAfter, dmIndexPool32.Remaining, hpool]
    omega
  · intro u hu
    have hpos : 0 < (worldAfter res capacity calls).1.m_ComponentIndices.m_Size := by
      show 0 < (applyCalls res calls (CompSprite2NewWorld capacity, [])).1.m_ComponentIndices.m_Size
      rw [← hlen]
      exact List.length_pos_of_mem hu
    have hult : u < (worldAfter res capacity calls).1.m_Components.length := by
      show u < (applyCalls res calls (CompSprite2NewWorld capacity, [])).1.m_Components.length
      rw [hcomp]
      exact hlivelt u hu
    have hle : (worldAfter res capacity calls).1.m_ComponentIndices.m_Size
        ≤ (worldAfter res capacity calls).1.m_ComponentIndices.m_Pool.length := by
      show (applyCalls res calls (CompSprite2NewWorld capacity, [])).1.m_ComponentIndices.m_Size
        ≤ (applyCalls res calls (CompSprite2NewWorld capacity, [])).1.m_ComponentIndices.m_Pool.length
      rw [hpool]
      exact hsize
    refine ⟨?_, ?_, push_free _ u hpos hle, ?_⟩
    · simp [CompSprite2Destroy, List.get?_eq_getElem?, List.getElem?_set_self, hult]
    · intro s hs
      simp [CompSprite2Destroy, List.get?_eq_getElem?, List.getElem?_set_ne (Ne.symm hs)]
    · simp only [CompSprite2Destroy, dmIndexPool32.Push, dmIndexPool32.Remaining,
        List.length_set]
      omega
  · intro m_Instance m_Resource hrem
    obtain ⟨hok, _, hindices, _⟩ :=
      CompSprite2Create_room res (worldAfter res capacity calls).1 m_Instance m_Resource 0 hrem
    refine ⟨hok, ?_⟩
    simp only [CompSprite2Destroy, hindices, dmIndexPool32.Push, dmIndexPool32.Pop,
      dmIndexPool32.Remaining, List.length_set]
    omega

theorem CompSprite2_slots_invariant_witness :
    (worldAfter sampleResources 2
      [SpriteCall.Create 11 1, SpriteCall.Create 12 1, SpriteCall.Destroy 0]).2.Nodup :=
  (CompSprite2_slots_invariant sampleResources 2
    [SpriteCall.Create 11 1, SpriteCall.Create 12 1, SpriteCall.Destroy 0] rfl).1

/-! ## The tile-set resource -/

/-- Claim C23 on a tile set created with the animations `walk` and `run` and reloaded from
data with the one animation `idle`: the reload succeeds and the message, texture, hull
collision groups and hull set are the new ones, but `m_AnimationIds` still holds the hashes
of `walk` and `run`, not the hash of `idle`; `PlayAnimation` of `run` then selects index 1,
which the new animation table, of length 1, does not have. -/
theorem ResTileSetRecreate_keeps_old_animation_ids :
    ResTileSetCreate sampleSpriteServices sampleResourceServices loaderResources [1]
        = (Result.RESULT_OK, some walkTileSet,
            [ResEffect.Get "tiles.png", ResEffect.NewHullSet2D 40]) ∧
      ResTileSetRecreate sampleSpriteServices sampleResourceServices loaderResources [2]
          walkTileSet
        = (Result.RESULT_OK, ⟨5, 9, [431, 341], [432], 43⟩,
            [ResEffect.Get "tiles.png", ResEffect.NewHullSet2D 43, ResEffect.Release 9,
              ResEffect.FreeMessage 3, ResEffect.DeleteHullSet2D 40]) ∧
      (loaderResources.messages 5).m_Animations.map
          (fun animation => sampleResourceServices.dmHashString64 animation.m_Id) = [414] ∧
      (PlayAnimation reloadedResources Component2.zero 341).1 = true ∧
      (PlayAnimation reloadedResources Component2.zero 341).2.m_CurrentAnimation = 1 ∧
      (reloadedResources.messages 5).m_Animations.length = 1 := by
  refine ⟨?_, ?_, ?_, ?_, ?_, ?_⟩ <;> rfl

/-- Claim C24.  `ResTileSetRecreate` returns an error exactly when the buffer is not a valid
message, the texture cannot be obtained, or the texture is narrower or lower than one tile.
In each of these cases it returns `RESULT_FORMAT_ERROR`, the error of `dmResource::Get` or
`RESULT_INVALID_DATA`, the resource is as before, and nothing of the resource is released:
the only calls are the `Get` of the new image, the release of the texture that `Get` returned
and the freeing of the new message. -/
theorem ResTileSetRecreate_failure_keeps_resource (svc : SpriteServices)
    (rsv : ResourceServices) (res : Resources) (buffer : List Nat) (tile_set : TileSetResource) :
    (rsv.LoadMessage buffer = none →
      ResTileSetRecreate svc rsv res buffer tile_set
        = (Result.RESULT_FORMAT_ERROR, tile_set, [])) ∧
    (∀ m, rsv.LoadMessage buffer = some m →
      (rsv.Get (res.messages m).m_Image).1 ≠ Result.RESULT_OK →
      ResTileSetRecreate svc rsv res buffer tile_set
        = ((rsv.Get (res.messages m).m_Image).1, tile_set,
            [ResEffect.Get (res.messages m).m_Image, ResEffect.FreeMessage m])) ∧
    (∀ m, rsv.LoadMessage buffer = some m →
      (rsv.Get (res.messages m).m_Image).1 = Result.RESULT_OK →
      (svc.GetTextureWidth (rsv.Get (res.messages m).m_Image).2 % 65536
          < (res.messages m).m_TileWidth ∨
        svc.GetTextureHeight (rsv.Get (res.messages m).m_Image).2 % 65536
          < (res.messages m).m_TileHeight) →
      ResTileSetRecreate svc rsv res buffer tile_set
        = (Result.RESULT_INVALID_DATA, tile_set,
            [ResEffect.Get (res.messages m).m_Image] ++
              ((if (rsv.Get (res.messages m).m_Image).2 ≠ 0 then
                  [ResEffect.Release (rsv.Get (res.messages m).m_Image).2]
                else []) ++
                (if m ≠ 0 then [ResEffect.FreeMessage m] else [])))) ∧
    ((ResTileSetRecreate svc rsv res buffer tile_set).1 ≠ Result.RESULT_OK →
      (ResTileSetRecreate svc rsv res buffer tile_set).2.1 = tile_set ∧
      (rsv.LoadMessage buffer = none ∨
        ∃ m, rsv.LoadMessage buffer = some m ∧
          ((rsv.Get (res.messages m).m_Image).1 ≠ Result.RESULT_OK ∨
            svc.GetTextureWidth (rsv.Get (res.messages m).m_Image).2 % 65536
              < (res.messages m).m_TileWidth ∨
            svc.GetTextureHeight (rsv.Get (res.messages m).m_Image).2 % 65536
              < (res.messages m).m_TileHeight))) := by
  refine ⟨fun hload => ?_, fun m hload hget => ?_, fun m hload hget hdim => ?_, fun hfail => ?_⟩
  · simp [ResTileSetRecreate, AcquireResources, hload, ReleaseResources, TileSetResource.new]
  · simp [ResTileSetRecreate, AcquireResources, hload, hget, ReleaseResources,
      TileSetResource.new]
  · simp [ResTileSetRecreate, AcquireResources, hload, hget, hdim, ReleaseResources,
      TileSetResource.new]
  · constructor
    · unfold ResTileSetRecreate at hfail ⊢
      simp only [] at hfail ⊢
      by_cases hok : (AcquireResources svc rsv res buffer TileSetResource.new).1
          = Result.RESULT_OK
      · rw [if_pos hok] at hfail
        exact absurd hok hfail
      · rw [if_neg hok]
    · cases hload : rsv.LoadMessage buffer with
      | none => exact Or.inl rfl
      | some m =>
        refine Or.inr ⟨m, rfl, ?_⟩
        by_cases hget : (rsv.Get (res.messages m).m_Image).1 = Result.RESULT_OK
        · by_cases hdim : svc.GetTextureWidth (rsv.Get (res.messages m).m_Image).2 % 65536
              < (res.messages m).m_TileWidth ∨
              svc.GetTextureHeight (rsv.Get (res.messages m).m_Image).2 % 65536
                < (res.messages m).m_TileHeight
          · exact Or.inr hdim
          · exfalso
            apply hfail
            simp [ResTileSetRecreate, AcquireResources, hload, hget, hdim]
        · exact Or.inl hget

theorem ResTileSetRecreate_failure_keeps_resource_witness :
    ResTileSetRecreate sampleSpriteServices sampleResourceServices loaderResources [9]
        walkTileSet
      = (Result.RESULT_FORMAT_ERROR, walkTileSet, []) :=
  (ResTileSetRecreate_failure_keeps_resource sampleSpriteServices sampleResourceServices
    loaderResources [9] walkTileSet).1 rfl

/-- Claim C25 on a tile set of tiles of 16 by 16 with a tile margin of 1 and a texture of
16 by 16: `AcquireResources` accepts it, the texture being as wide and as high as a tile, but
`CalculateTileCount` gives 0 tiles per row, (16 + 0) / (2 * 1 + 0 + 16), and the update of an
enabled sprite of this tile set divides by zero. -/
theorem CalculateTileCount_zero_for_accepted_tile_set :
    AcquireResources smallTextureServices sampleResourceServices loaderResources [3]
        TileSetResource.new
      = (Result.RESULT_OK, ⟨7, 9, [414], [], 40⟩,
          [ResEffect.Get "tiles.png", ResEffect.NewHullSet2D 40]) ∧
      (marginResources.messages 7).m_TileWidth = 16 ∧
      (marginResources.messages 7).m_TileMargin = 1 ∧
      CalculateTileCount 16 16 1 0 = 0 ∧
      tilesPerRow smallTextureServices marginResources marginComponent = 0 ∧
      CompSprite2Update smallTextureServices marginResources
        ⟨[marginComponent], ⟨[0], 1⟩, []⟩ (1 / 60) = none := by
  refine ⟨?_, ?_, ?_, ?_, ?_, ?_⟩ <;> rfl

theorem animate_keeps_animation (svc : SpriteServices) (res : Resources) (m_DT : Rat)
    (c : Component2) :
    (animate svc res m_DT c).m_Resource = c.m_Resource ∧
      (animate svc res m_DT c).m_CurrentAnimation = c.m_CurrentAnimation ∧
      (animate svc res m_DT c).m_Playing = c.m_Playing := by
  unfold animate
  simp only []
  split_ifs <;> exact ⟨rfl, rfl, rfl⟩

theorem animate_idle (svc : SpriteServices) (res : Resources) (m_DT : Rat) (c : Component2)
    (h : c.m_Playing = false ∨ ¬ c.m_FrameTimer + m_DT ≥ c.m_FrameTime) :
    (animate svc res m_DT c).m_CurrentTile = c.m_CurrentTile ∧
      (animate svc res m_DT c).m_PlayBackwards = c.m_PlayBackwards := by
  rcases h with h | h
  · simp [animate, h]
  · cases hp : c.m_Playing with
    | false => simp [animate, hp]
    | true => simp [animate, hp, h]

/-- An animation played back and forth between two different tiles of the tile set stays
between them in every animation step. -/
theorem animate_pingpong_in_range (svc : SpriteServices) (res : Resources) (m_DT : Rat)
    (c : Component2)
    (hmode : (animationOf res c).m_Playback = Playback2.PLAYBACK2_LOOP_PINGPONG)
    (hstart : 1 ≤ (animationOf res c).m_StartTile)
    (hlt : (animationOf res c).m_StartTile < (animationOf res c).m_EndTile)
    (hend : (animationOf res c).m_EndTile ≤ tileCount svc res c)
    (hcount : tileCount svc res c ≤ 32767) (h : PingPongInRange res c) :
    PingPongInRange res (animate svc res m_DT c) := by
  have hkeep := animate_keeps_animation svc res m_DT c
  have hanim : animationOf res (animate svc res m_DT c) = animationOf res c := by
    simp only [animationOf, hkeep.1, hkeep.2.1]
  obtain ⟨h1, h2, h3, h4⟩ := h
  by_cases hstep : c.m_Playing = true ∧ c.m_FrameTimer + m_DT ≥ c.m_FrameTime
  · obtain ⟨hplay, htime⟩ := hstep
    have hs : startTile (animationOf res c) = ((animationOf res c).m_StartTile : Int) - 1 := by
      simp only [startTile, toInt16]; omega
    have he : endTile (animationOf res c) = ((animationOf res c).m_EndTile : Int) - 1 := by
      simp only [endTile, toInt16]; omega
    cases hback : c.m_PlayBackwards with
    | true =>
      have hne : c.m_CurrentTile ≠ (animationOf res c).m_StartTile - 1 := by
        intro e; rw [h4 e] at hback; exact absurd hback (by simp)
      have hstepEq := animate_pingpong svc res m_DT c hplay hmode htime
        ((c.m_CurrentTile : Int) - 1) ((c.m_CurrentTile : Int) - 1)
        (by rw [hback]; simp only [if_true, toInt16]; omega)
        (by
          have hnn : ¬ ((c.m_CurrentTile : Int) - 1 < 0) := by omega
          have hin : ¬ (toUInt16 ((c.m_CurrentTile : Int) - 1) ≥ tileCount svc res c) := by
            simp only [toUInt16]; omega
          rw [if_neg hnn, if_neg hin])
      unfold PingPongInRange
      rw [hanim, hstepEq, hs, he, hback]
      simp only [toUInt16]
      refine ⟨by omega, by omega, fun e => ?_, fun e => ?_⟩
      · exfalso; omega
      · have : ((c.m_CurrentTile : Int) - 1 = ((animationOf res c).m_StartTile : Int) - 1 ∨
            (c.m_CurrentTile : Int) - 1 = ((animationOf res c).m_EndTile : Int) - 1) :=
          Or.inl (by omega)
        rw [if_pos this]
        rfl
    | false =>
      have hne : c.m_CurrentTile ≠ (animationOf res c).m_EndTile - 1 := by
        intro e; rw [h3 e] at hback; exact absurd hback (by simp)
      have hstepEq := animate_pingpong svc res m_DT c hplay hmode htime
        ((c.m_CurrentTile : Int) + 1) ((c.m_CurrentTile : Int) + 1)
        (by rw [hback]; simp only [Bool.false_eq_true, if_false, toInt16]; omega)
        (by
          have hnn : ¬ ((c.m_CurrentTile : Int) + 1 < 0) := by omega
          have hin : ¬ (toUInt16 ((c.m_CurrentTile : Int) + 1) ≥ tileCount svc res c) := by
            simp only [toUInt16]; omega
          rw [if_neg hnn, if_neg hin])
      unfold PingPongInRange
      rw [hanim, hstepEq, hs, he, hback]
      simp only [toUInt16]
      refine ⟨by omega, by omega, fun e => ?_, fun e => ?_⟩
      · have : ((c.m_CurrentTile : Int) + 1 = ((animationOf res c).m_StartTile : Int) - 1 ∨
            (c.m_CurrentTile : Int) + 1 = ((animationOf res c).m_EndTile : Int) - 1) :=
          Or.inr (by omega)
        rw [if_pos this]
        rfl
      · exfalso; omega
  · have hidle := animate_idle svc res m_DT c (by
      by_cases hp : c.m_Playing = true
      · exact Or.inr (fun ht => hstep ⟨hp, ht⟩)
      · exact Or.inl (by simpa using hp))
    unfold PingPongInRange
    rw [hanim, hidle.1, hidle.2]
    exact ⟨h1, h2, h3, h4⟩

/-- An animation played back and forth between two different tiles of the tile set stays
between them after every number of animation steps. -/
theorem animateAll_pingpong_in_range (svc : SpriteServices) (res : Resources)
    (steps : List Rat) (c : Component2)
    (hmode : (animationOf res c).m_Playback = Playback2.PLAYBACK2_LOOP_PINGPONG)
    (hstart : 1 ≤ (animationOf res c).m_StartTile)
    (hlt : (animationOf res c).m_StartTile < (animationOf res c).m_EndTile)
    (hend : (animationOf res c).m_EndTile ≤ tileCount svc res c)
    (hcount : tileCount svc res c ≤ 32767) (h : PingPongInRange res c) :
    PingPongInRange res (animateAll svc res steps c) ∧
      animationOf res (animateAll svc res steps c) = animationOf res c := by
  induction steps generalizing c with
  | nil => exact ⟨h, rfl⟩
  | cons m_DT rest ih =>
    have hkeep := animate_keeps_animation svc res m_DT c
    have hanim : animationOf res (animate svc res m_DT c) = animationOf res c := by
      simp only [animationOf, hkeep.1, hkeep.2.1]
    have htiles : tileCount svc res (animate svc res m_DT c) = tileCount svc res c := by
      simp only [tileCount, tilesPerRow, hkeep.1]
    have hnext := animate_pingpong_in_range svc res m_DT c hmode hstart hlt hend hcount h
    have hrec := ih (animate svc res m_DT c) (by rw [hanim]; exact hmode)
      (by rw [hanim]; exact hstart) (by rw [hanim]; exact hlt)
      (by rw [hanim, htiles]; exact hend) (by rw [htiles]; exact hcount) hnext
    exact ⟨hrec.1, hrec.2.trans hanim⟩

end dmGameSystem

namespace dmEngine

/-! ## The message handler -/

theorem findInstance_not_found (svc : Services) (self : Engine) (id : Nat)
    (hmain : svc.GetInstanceFromIdentifier self.m_MainCollection id = 0)
    (hactive : self.m_ActiveCollection ≠ 0 →
      svc.GetInstanceFromIdentifier self.m_ActiveCollection id = 0) :
    (findInstance svc self id).1 = 0 := by
  unfold findInstance
  by_cases ha : self.m_ActiveCollection = 0
  · simp [ha, hmain]
  · simp [ha, hmain, hactive ha]

/-- C10: an AcquireInputFocus, ReleaseInputFocus or GameObjectTransformQuery message whose
game-object id is found neither in the main collection nor (when there is one) in the
active collection is skipped by `Dispatch`: none of the calls it makes takes or releases
input focus or posts a reply, and the engine is left exactly as it was. -/
theorem Dispatch_skips_unknown_game_object (svc : Services) (self : Engine) (m : Message)
    (m_GameObjectId : String) (m_Instance : HInstance)
    (hm : m = Message.AcquireInputFocus m_GameObjectId ∨
      m = Message.ReleaseInputFocus m_GameObjectId ∨
      m = Message.GameObjectTransformQuery m_Instance m_GameObjectId)
    (hmain : svc.GetInstanceFromIdentifier self.m_MainCollection
      (svc.sscanf_X m_GameObjectId) = 0)
    (hactive : self.m_ActiveCollection ≠ 0 →
      svc.GetInstanceFromIdentifier self.m_ActiveCollection (svc.sscanf_X m_GameObjectId) = 0) :
    (Dispatch svc self m).1 = self ∧ ∀ e ∈ (Dispatch svc self m).2, e.acts = false := by
  have hf := findInstance_not_found svc self _ hmain hactive
  rcases hm with h | h | h <;> subst h <;> simp [Dispatch, hf, Effect.acts]

/-- C10, at a concrete input: the id `7` is in neither sample collection. -/
theorem Dispatch_skips_unknown_game_object_witness :
    (Dispatch sampleServices sampleEngine (Message.GameObjectTransformQuery 11 "7")).1
        = sampleEngine ∧
      ∀ e ∈ (Dispatch sampleServices sampleEngine (Message.GameObjectTransformQuery 11 "7")).2,
        e.acts = false :=
  Dispatch_skips_unknown_game_object sampleServices sampleEngine
    (Message.GameObjectTransformQuery 11 "7") "7" 11 (Or.inr (Or.inr rfl)) (by decide)
    (fun _ => by decide)

/-! ## The phases of a frame -/

theorem Dispatch_no_phase (svc : Services) (self : Engine) (m : Message) :
    phases (Dispatch svc self m).2 = [] := by
  cases m <;> simp only [Dispatch, UnloadCollection, ActivateCollection]
  all_goals (repeat' split) <;> simp [phases, Effect.phase?]

theorem phases_append (a b : List Effect) : phases (a ++ b) = phases a ++ phases b := by
  simp [phases, List.filterMap_append]

theorem dispatchQueue_no_phase (svc : Services) (queue : List Message) (self : Engine) :
    phases (dispatchQueue svc queue self).2 = [] := by
  induction queue generalizing self with
  | nil => rfl
  | cons m rest ih =>
    simp only [dispatchQueue, phases_append, Dispatch_no_phase, ih, List.append_nil]

/-- The phase calls of a pass that ESC does not abort: `DispatchInput` only when the input
buffer is not empty, then message dispatch, update and post-update, once each. -/
theorem Frame_phases (svc : Services) (st : LoopState) (input : FrameInput)
    (hesc : input.esc = false) :
    phases (Frame svc st input).2.1 =
      (if input.actions = [] then [] else [Phase.InputDispatch]) ++
        [Phase.MessageDispatch, Phase.ComponentUpdate, Phase.PostUpdate] := by
  simp only [Frame, hesc, Bool.false_eq_true, if_false, phases_append, dispatchQueue_no_phase]
  by_cases ha : input.actions = []
  · simp only [ha, List.length_nil, gt_iff_lt, lt_self_iff_false, if_false, if_true]
    split_ifs <;> rfl
  · have hl : input.actions.length > 0 := List.length_pos.mpr ha
    rw [if_pos hl, if_neg ha]
    split_ifs <;> rfl

theorem Frame_break (svc : Services) (st : LoopState) (input : FrameInput) :
    (Frame svc st input).2.2 = input.esc := by
  unfold Frame
  cases input.esc <;> simp

theorem Frame_phases_esc (svc : Services) (st : LoopState) (input : FrameInput)
    (hesc : input.esc = true) : phases (Frame svc st input).2.1 = [] := by
  simp only [Frame, hesc, if_true]
  rfl

theorem runLoop_phases (svc : Services) (inputs : List FrameInput) (st : LoopState) (n : Nat)
    (calls : List Effect) (h : (runLoop svc inputs st).2.get? n = some calls) :
    ∃ input, inputs.get? n = some input ∧
      ((input.esc = true ∧ phases calls = []) ∨
        (input.esc = false ∧
          phases calls = (if input.actions = [] then [] else [Phase.InputDispatch]) ++
            [Phase.MessageDispatch, Phase.ComponentUpdate, Phase.PostUpdate])) := by
  induction inputs generalizing st n with
  | nil => simp [runLoop] at h
  | cons input rest ih =>
    simp only [runLoop] at h
    by_cases halive : st.engine.m_Alive = true
    · simp only [halive, if_true, Frame_break] at h
      cases hesc : input.esc with
      | true =>
        simp only [hesc, if_true] at h
        cases n with
        | zero =>
          simp only [List.get?_cons_zero, Option.some.injEq] at h
          subst h
          exact ⟨input, rfl, Or.inl ⟨hesc, Frame_phases_esc svc st input hesc⟩⟩
        | succ m => simp at h
      | false =>
        simp only [hesc, Bool.false_eq_true, if_false] at h
        cases n with
        | zero =>
          simp only [List.get?_cons_zero, Option.some.injEq] at h
          subst h
          exact ⟨input, rfl, Or.inr ⟨hesc, Frame_phases svc st input hesc⟩⟩
        | succ m =>
          simp only [List.get?_cons_succ] at h
          exact ih _ m h
    · simp [halive] at h

/-- C8 (amended): in every pass of the loop of `Run`, a pass that ESC aborts makes no phase
call, and in every pass that ESC does not abort the phase calls are made in this order:
`DispatchInput`, only when the input buffer of the frame is not empty, then
`dmMessage::Dispatch` on the register's socket, then `dmGameObject::Update`, then
`dmGameObject::PostUpdate`; the last three are made exactly once each. -/
theorem Run_phases (svc : Services) (engine : Engine) (inputs : List FrameInput) (n : Nat)
    (calls : List Effect) (h : (Run svc engine inputs).2.get? n = some calls) :
    ∃ input, inputs.get? n = some input ∧
      ((input.esc = true ∧ phases calls = []) ∨
        (input.esc = false ∧
          phases calls = (if input.actions = [] then [] else [Phase.InputDispatch]) ++
            [Phase.MessageDispatch, Phase.ComponentUpdate, Phase.PostUpdate])) :=
  runLoop_phases svc inputs _ n calls h

/-- C8 (amended), at a concrete input: the second pass of a run whose first pass has one input
action and whose second pass has none. -/
theorem Run_phases_witness :
    ∃ input, sampleInputs.get? 1 = some input ∧
      ((input.esc = true ∧ phases sampleSecondPass = []) ∨
        (input.esc = false ∧
          phases sampleSecondPass = (if input.actions = [] then [] else [Phase.InputDispatch]) ++
            [Phase.MessageDispatch, Phase.ComponentUpdate, Phase.PostUpdate])) :=
  Run_phases sampleServices sampleEngine sampleInputs 1 sampleSecondPass (by
    have hl : (Run sampleServices sampleEngine sampleInputs).2.length = 2 := by decide
    cases hx : (Run sampleServices sampleEngine sampleInputs).2.get? 1 with
    | none =>
      rw [List.get?_eq_none] at hx
      omega
    | some c =>
      unfold sampleSecondPass
      rw [hx]
      rfl)

/-- C8 as stated fails: in a run of two passes that ESC does not abort, the first with an
active input action and the second without, the second pass skips the input-dispatch phase:
its phase calls are only message dispatch, update and post-update. -/
theorem Run_without_input_skips_DispatchInput :
    sampleInputs.map (fun input => input.esc) = [false, false] ∧
      (Run sampleServices sampleEngine sampleInputs).2.map phases
        = [[Phase.InputDispatch, Phase.MessageDispatch, Phase.ComponentUpdate, Phase.PostUpdate],
            [Phase.MessageDispatch, Phase.ComponentUpdate, Phase.PostUpdate]] := by
  decide

/-! ## The time step given to the collections -/

theorem updates_append (a b : List Effect) : updates (a ++ b) = updates a ++ updates b := by
  simp [updates, List.filterMap_append]

theorem Dispatch_no_update (svc : Services) (self : Engine) (m : Message) :
    updates (Dispatch svc self m).2 = [] := by
  cases m <;> simp only [Dispatch, UnloadCollection, ActivateCollection]
  all_goals (repeat' split) <;> simp [updates, Effect.update?]

theorem dispatchQueue_no_update (svc : Services) (queue : List Message) (self : Engine) :
    updates (dispatchQueue svc queue self).2 = [] := by
  induction queue generalizing self with
  | nil => rfl
  | cons m rest ih =>
    simp only [dispatchQueue, updates_append, Dispatch_no_update, ih, List.append_nil]

/-- The calls of `dmGameObject::Update` of a pass that ESC does not abort: one call, for the
active and the main collection, with the step of the frame and the fixed step. -/
theorem Frame_updates (svc : Services) (st : LoopState) (input : FrameInput)
    (hesc : input.esc = false) :
    updates (Frame svc st input).2.1 =
      [([(Frame svc st input).1.engine.m_ActiveCollection,
          (Frame svc st input).1.engine.m_MainCollection],
        [(frameDT st.engine st.accumulated_time).1, 1 / 60])] := by
  simp only [Frame, hesc, Bool.false_eq_true, if_false, updates_append, dispatchQueue_no_update]
  split_ifs <;> rfl

theorem frameDT_eq_spec (engine : Engine) (accumulated_time : Rat) :
    (frameDT engine accumulated_time).1 = spec_frameDT engine accumulated_time := by
  unfold frameDT spec_frameDT
  cases hw : engine.m_WarpTimeStep with
  | false => simp
  | true =>
    cases hm : engine.m_TimeStepMode with
    | TIME_STEP_MODE_CONTINUOUS =>
      simp only [if_true, Bool.true_eq_false, if_false]
      ring
    | TIME_STEP_MODE_DISCRETE =>
      simp only [if_true, Bool.true_eq_false, if_false]
      have e : accumulated_time + 1 / 60 * engine.m_TimeStepFactor
          = accumulated_time + engine.m_TimeStepFactor / 60 := by ring
      rw [e]
      by_cases hlt : accumulated_time + engine.m_TimeStepFactor / 60 < 1 / 60
      · have hge : ¬ accumulated_time + engine.m_TimeStepFactor / 60 ≥ 1 / 60 := not_le.mpr hlt
        rw [if_neg hge, if_pos hlt]
      · have hge : accumulated_time + engine.m_TimeStepFactor / 60 ≥ 1 / 60 := not_lt.mp hlt
        rw [if_pos hge, if_neg hlt]
        ring

/-- C19 (amended): in every frame that ESC does not abort the engine invokes the component
update exactly once, for the pair (active collection, main collection); the active collection
receives the frame's dt (1/60 when no time-step warp is set, factor/60 in continuous warp
mode, the accumulated step or 0 in discrete warp mode) and the main collection always
receives the fixed step 1/60, whatever the warp. -/
theorem Frame_update_steps (svc : Services) (st : LoopState) (input : FrameInput)
    (hesc : input.esc = false) :
    updates (Frame svc st input).2.1 =
      [([(Frame svc st input).1.engine.m_ActiveCollection,
          (Frame svc st input).1.engine.m_MainCollection],
        [spec_frameDT st.engine st.accumulated_time, 1 / 60])] := by
  rw [Frame_updates svc st input hesc, frameDT_eq_spec]

/-- C19 (amended), at a concrete input: a frame of the sample engine with one message. -/
theorem Frame_update_steps_witness :
    updates (Frame sampleServices ⟨sampleEngine, 0⟩ ⟨false, [], [Message.Exit 3]⟩).2.1 =
      [([(Frame sampleServices ⟨sampleEngine, 0⟩
            ⟨false, [], [Message.Exit 3]⟩).1.engine.m_ActiveCollection,
          (Frame sampleServices ⟨sampleEngine, 0⟩
            ⟨false, [], [Message.Exit 3]⟩).1.engine.m_MainCollection],
        [spec_frameDT sampleEngine 0, 1 / 60])] :=
  Frame_update_steps sampleServices ⟨sampleEngine, 0⟩ ⟨false, [], [Message.Exit 3]⟩ rfl

/-- C19 as stated fails: in continuous warp mode with factor 2 the active collection (2)
receives the step 1/30 while the main collection (1) receives 1/60, not the same step. -/
theorem Frame_main_step_differs :
    updates (Frame sampleServices ⟨warpedEngine, 0⟩ ⟨false, [], []⟩).2.1
        = [([2, 1], [1 / 30, 1 / 60])] ∧
      (1 / 30 : Rat) ≠ 1 / 60 := by
  constructor
  · rw [Frame_updates sampleServices ⟨warpedEngine, 0⟩ ⟨false, [], []⟩ rfl]
    have h1 : (Frame sampleServices ⟨warpedEngine, 0⟩ ⟨false, [], []⟩).1.engine.m_ActiveCollection
        = 2 := rfl
    have h2 : (Frame sampleServices ⟨warpedEngine, 0⟩ ⟨false, [], []⟩).1.engine.m_MainCollection
        = 1 := rfl
    have h3 : (frameDT warpedEngine 0).1 = 1 / 30 := by
      simp only [frameDT, warpedEngine, if_true]
      norm_num
    rw [h1, h2, h3]
  · norm_num

/-! ## Leaving the loop -/

theorem Dispatch_keeps_exit_state (svc : Services) (self : Engine) (m : Message)
    (hm : ∀ c, m ≠ Message.Exit c) :
    (Dispatch svc self m).1.m_Alive = self.m_Alive ∧
      (Dispatch svc self m).1.m_ExitCode = self.m_ExitCode := by
  cases m with
  | Exit c => exact absurd rfl (hm c)
  | LoadCollection n =>
    simp only [Dispatch, LoadCollection]
    split <;> exact ⟨rfl, rfl⟩
  | UnloadCollection n =>
    simp only [Dispatch, UnloadCollection]
    split
    · split <;> exact ⟨rfl, rfl⟩
    · exact ⟨rfl, rfl⟩
  | ActivateCollection n =>
    simp only [Dispatch, ActivateCollection]
    split <;> exact ⟨rfl, rfl⟩
  | AcquireInputFocus id =>
    simp only [Dispatch]
    split <;> exact ⟨rfl, rfl⟩
  | ReleaseInputFocus id =>
    simp only [Dispatch]
    split <;> exact ⟨rfl, rfl⟩
  | GameObjectTransformQuery i id =>
    simp only [Dispatch]
    split <;> exact ⟨rfl, rfl⟩
  | DrawString t => exact ⟨rfl, rfl⟩
  | DrawLine => exact ⟨rfl, rfl⟩
  | SetTimeStep f mode => exact ⟨rfl, rfl⟩
  | RayCastRequest i => exact ⟨rfl, rfl⟩
  | other id =>
    simp only [Dispatch]
    split
    · exact ⟨rfl, rfl⟩
    · split <;> exact ⟨rfl, rfl⟩

/-- After a queue has been dispatched the engine is alive only if it was and the queue held
no `Exit`, and its exit code is that of the last `Exit` of the queue, if there was one. -/
theorem dispatchQueue_exit_state (svc : Services) (queue : List Message) (self : Engine) :
    (dispatchQueue svc queue self).1.m_Alive
        = (match lastExit queue with
          | some _ => false
          | none => self.m_Alive) ∧
      (dispatchQueue svc queue self).1.m_ExitCode = (lastExit queue).getD self.m_ExitCode := by
  induction queue generalizing self with
  | nil => exact ⟨rfl, rfl⟩
  | cons m rest ih =>
    have hrest := ih (Dispatch svc self m).1
    simp only [dispatchQueue]
    cases m with
    | Exit c =>
      simp only [lastExit]
      rw [hrest.1, hrest.2]
      cases lastExit rest <;> simp [Dispatch, Exit]
    | LoadCollection n =>
      have hk := Dispatch_keeps_exit_state svc self (Message.LoadCollection n) (by simp)
      simp only [lastExit]; rw [hrest.1, hrest.2, hk.1, hk.2]; exact ⟨rfl, rfl⟩
    | UnloadCollection n =>
      have hk := Dispatch_keeps_exit_state svc self (Message.UnloadCollection n) (by simp)
      simp only [lastExit]; rw [hrest.1, hrest.2, hk.1, hk.2]; exact ⟨rfl, rfl⟩
    | ActivateCollection n =>
      have hk := Dispatch_keeps_exit_state svc self (Message.ActivateCollection n) (by simp)
      simp only [lastExit]; rw [hrest.1, hrest.2, hk.1, hk.2]; exact ⟨rfl, rfl⟩
    | AcquireInputFocus id =>
      have hk := Dispatch_keeps_exit_state svc self (Message.AcquireInputFocus id) (by simp)
      simp only [lastExit]; rw [hrest.1, hrest.2, hk.1, hk.2]; exact ⟨rfl, rfl⟩
    | ReleaseInputFocus id =>
      have hk := Dispatch_keeps_exit_state svc self (Message.ReleaseInputFocus id) (by simp)
      simp only [lastExit]; rw [hrest.1, hrest.2, hk.1, hk.2]; exact ⟨rfl, rfl⟩
    | GameObjectTransformQuery i id =>
      have hk := Dispatch_keeps_exit_state svc self (Message.GameObjectTransformQuery i id)
        (by simp)
      simp only [lastExit]; rw [hrest.1, hrest.2, hk.1, hk.2]; exact ⟨rfl, rfl⟩
    | DrawString t =>
      have hk := Dispatch_keeps_exit_state svc self (Message.DrawString t) (by simp)
      simp only [lastExit]; rw [hrest.1, hrest.2, hk.1, hk.2]; exact ⟨rfl, rfl⟩
    | DrawLine =>
      have hk := Dispatch_keeps_exit_state svc self Message.DrawLine (by simp)
      simp only [lastExit]; rw [hrest.1, hrest.2, hk.1, hk.2]; exact ⟨rfl, rfl⟩
    | SetTimeStep f mode =>
      have hk := Dispatch_keeps_exit_state svc self (Message.SetTimeStep f mode) (by simp)
      simp only [lastExit]; rw [hrest.1, hrest.2, hk.1, hk.2]; exact ⟨rfl, rfl⟩
    | RayCastRequest i =>
      have hk := Dispatch_keeps_exit_state svc self (Message.RayCastRequest i) (by simp)
      simp only [lastExit]; rw [hrest.1, hrest.2, hk.1, hk.2]; exact ⟨rfl, rfl⟩
    | other id =>
      have hk := Dispatch_keeps_exit_state svc self (Message.other id) (by simp)
      simp only [lastExit]; rw [hrest.1, hrest.2, hk.1, hk.2]; exact ⟨rfl, rfl⟩

theorem Frame_engine (svc : Services) (st : LoopState) (input : FrameInput)
    (hesc : input.esc = false) :
    (Frame svc st input).1.engine
      = (dispatchQueue svc input.messages { st.engine with m_InputBuffer := input.actions }).1 := by
  simp [Frame, hesc]

theorem Frame_engine_esc (svc : Services) (st : LoopState) (input : FrameInput)
    (hesc : input.esc = true) :
    (Frame svc st input).1.engine = { st.engine with m_Alive := false } := by
  simp [Frame, hesc]

theorem runLoop_dead (svc : Services) (inputs : List FrameInput) (st : LoopState)
    (h : st.engine.m_Alive = false) : runLoop svc inputs st = (st, []) := by
  cases inputs with
  | nil => rfl
  | cons input rest => simp [runLoop, h]

/-- The loop over passes that neither see ESC nor dispatch an `Exit`, then a pass that does
one of the two: that pass is the last one, whatever input follows, and the exit code is the
one of its last `Exit`, or unchanged when ESC ended it. -/
theorem runLoop_through (svc : Services) (pre post : List FrameInput) (frame : FrameInput)
    (st : LoopState) (halive : st.engine.m_Alive = true)
    (hpre : ∀ f ∈ pre, f.esc = false ∧ lastExit f.messages = none)
    (hlast : frame.esc = true ∨ (lastExit frame.messages).isSome = true) :
    (runLoop svc (pre ++ frame :: post) st).2.length = pre.length + 1 ∧
      (frame.esc = true →
        (runLoop svc (pre ++ frame :: post) st).1.engine.m_ExitCode = st.engine.m_ExitCode) ∧
      (∀ c, frame.esc = false → lastExit frame.messages = some c →
        (runLoop svc (pre ++ frame :: post) st).1.engine.m_ExitCode = c) := by
  induction pre generalizing st with
  | nil =>
    simp only [List.nil_append, runLoop, halive, if_true, Frame_break, List.length_nil, zero_add]
    cases hesc : frame.esc with
    | true =>
      simp only [if_true, List.length_singleton, true_and, forall_true_left]
      refine ⟨?_, fun c h => by simp at h⟩
      rw [Frame_engine_esc svc st frame hesc]
    | false =>
      have hstate := dispatchQueue_exit_state svc frame.messages
        { st.engine with m_InputBuffer := frame.actions }
      rw [← Frame_engine svc st frame hesc] at hstate
      rcases hlast with h | h
      · rw [hesc] at h; exact absurd h (by simp)
      · obtain ⟨c, hc⟩ := Option.isSome_iff_exists.mp h
        rw [hc] at hstate
        have hdead : (Frame svc st frame).1.engine.m_Alive = false := hstate.1
        simp only [Bool.false_eq_true, if_false, runLoop_dead svc post _ hdead,
          List.length_singleton, true_and]
        refine ⟨fun h => by simp at h, fun c2 _ hc2 => ?_⟩
        rw [hstate.2, hc] at *
        simpa using hc2
  | cons f pre ih =>
    obtain ⟨hf, hnone⟩ := hpre f (List.mem_cons_self f pre)
    have hstate := dispatchQueue_exit_state svc f.messages
      { st.engine with m_InputBuffer := f.actions }
    rw [← Frame_engine svc st f hf, hnone] at hstate
    have halive2 : (Frame svc st f).1.engine.m_Alive = true := by
      rw [hstate.1]; exact halive
    have hcode : (Frame svc st f).1.engine.m_ExitCode = st.engine.m_ExitCode := by
      rw [hstate.2]; rfl
    have hrec := ih (Frame svc st f).1 halive2
      (fun g hg => hpre g (List.mem_cons_of_mem f hg))
    simp only [List.cons_append, runLoop, halive, if_true, Frame_break, hf, Bool.false_eq_true,
      if_false, List.length_cons, List.append_eq]
    refine ⟨by rw [hrec.1], fun h => ?_, fun c h1 h2 => hrec.2.2 c h1 h2⟩
    rw [hrec.2.1 h, hcode]

/-- Claim C20.  A dispatched `Exit` message with code `c` leaves the engine not alive and with
exit code `c`.  In a run whose earlier passes neither see ESC nor dispatch an `Exit`: if a pass
dispatches `Exit` messages, the last of them with code `c`, that pass still calls Update and
PostUpdate after the message dispatch, it is the last pass whatever input follows, and `Run`
returns `c`; if a pass sees the ESC key, it is the last pass and `Run` returns 0. -/
theorem Run_exit_code (svc : Services) (engine : Engine) (pre post : List FrameInput)
    (frame : FrameInput) (hpre : ∀ f ∈ pre, f.esc = false ∧ lastExit f.messages = none) :
    (∀ (self : Engine) (c : Int),
        (Dispatch svc self (Message.Exit c)).1.m_Alive = false ∧
          (Dispatch svc self (Message.Exit c)).1.m_ExitCode = c) ∧
      (∀ c, frame.esc = false → lastExit frame.messages = some c →
        (Run svc engine (pre ++ frame :: post)).1 = c ∧
          (Run svc engine (pre ++ frame :: post)).2.length = pre.length + 1 ∧
          ∃ calls, (Run svc engine (pre ++ frame :: post)).2.get? pre.length = some calls ∧
            phases calls = (if frame.actions = [] then [] else [Phase.InputDispatch]) ++
              [Phase.MessageDispatch, Phase.ComponentUpdate, Phase.PostUpdate]) ∧
      (frame.esc = true →
        (Run svc engine (pre ++ frame :: post)).1 = 0 ∧
          (Run svc engine (pre ++ frame :: post)).2.length = pre.length + 1) := by
  refine ⟨fun self c => ⟨rfl, rfl⟩, fun c hesc hc => ?_, fun hesc => ?_⟩
  · have h := runLoop_through svc pre post frame
      { engine := { engine with m_Alive := true, m_ExitCode := 0 }, accumulated_time := 0 } rfl
      hpre (Or.inr (by rw [hc]; rfl))
    refine ⟨h.2.2 c hesc hc, h.1, ?_⟩
    have hlt : pre.length < (Run svc engine (pre ++ frame :: post)).2.length := by
      have := h.1
      simp only [Run]
      omega
    refine ⟨(Run svc engine (pre ++ frame :: post)).2.get ⟨pre.length, hlt⟩,
      List.get?_eq_get hlt, ?_⟩
    obtain ⟨input, hin, hph⟩ := runLoop_phases svc (pre ++ frame :: post) _ pre.length _
      (List.get?_eq_get hlt)
    have hframe : input = frame := by
      rw [List.get?_eq_getElem?, List.getElem?_append_right (le_refl _)] at hin
      simpa using hin.symm
    subst hframe
    rcases hph with ⟨h1, _⟩ | ⟨_, h2⟩
    · rw [hesc] at h1; exact absurd h1 (by simp)
    · exact h2
  · have h := runLoop_through svc pre post frame
      { engine := { engine with m_Alive := true, m_ExitCode := 0 }, accumulated_time := 0 } rfl
      hpre (Or.inl hesc)
    exact ⟨h.2.1 hesc, h.1⟩

theorem Run_exit_code_witness :
    (Run sampleServices sampleEngine sampleInputs).1 = 3 ∧
      (Run sampleServices sampleEngine sampleInputs).2.length = 2 :=
  have h := (Run_exit_code sampleServices sampleEngine
    [⟨false, [⟨1, 1, true, false, false⟩], [Message.AcquireInputFocus "A"]⟩] []
    ⟨false, [], [Message.Exit 3]⟩ (by decide)).2.1 3 rfl rfl
  ⟨h.1, h.2.1⟩

/-! ## The discrete time step -/

theorem Dispatch_keeps_time_step (svc : Services) (self : Engine) (m : Message)
    (hm : m.keepsTimeStep = true) :
    (Dispatch svc self m).1.m_Alive = self.m_Alive ∧
      (Dispatch svc self m).1.m_WarpTimeStep = self.m_WarpTimeStep ∧
      (Dispatch svc self m).1.m_TimeStepFactor = self.m_TimeStepFactor ∧
      (Dispatch svc self m).1.m_TimeStepMode = self.m_TimeStepMode := by
  cases m with
  | Exit c => simp [Message.keepsTimeStep] at hm
  | LoadCollection n =>
    simp only [Dispatch, LoadCollection]
    split <;> exact ⟨rfl, rfl, rfl, rfl⟩
  | UnloadCollection n =>
    simp only [Dispatch, UnloadCollection]
    split
    · split <;> exact ⟨rfl, rfl, rfl, rfl⟩
    · exact ⟨rfl, rfl, rfl, rfl⟩
  | ActivateCollection n =>
    simp only [Dispatch, ActivateCollection]
    split <;> exact ⟨rfl, rfl, rfl, rfl⟩
  | AcquireInputFocus id =>
    simp only [Dispatch]
    split <;> exact ⟨rfl, rfl, rfl, rfl⟩
  | ReleaseInputFocus id =>
    simp only [Dispatch]
    split <;> exact ⟨rfl, rfl, rfl, rfl⟩
  | GameObjectTransformQuery i id =>
    simp only [Dispatch]
    split <;> exact ⟨rfl, rfl, rfl, rfl⟩
  | DrawString t => exact ⟨rfl, rfl, rfl, rfl⟩
  | DrawLine => exact ⟨rfl, rfl, rfl, rfl⟩
  | SetTimeStep f mode => simp [Message.keepsTimeStep] at hm
  | RayCastRequest i => exact ⟨rfl, rfl, rfl, rfl⟩
  | other id => simp [Message.keepsTimeStep] at hm

theorem dispatchQueue_keeps_time_step (svc : Services) (queue : List Message) (self : Engine)
    (hq : ∀ m ∈ queue, m.keepsTimeStep = true) :
    (dispatchQueue svc queue self).1.m_Alive = self.m_Alive ∧
      (dispatchQueue svc queue self).1.m_WarpTimeStep = self.m_WarpTimeStep ∧
      (dispatchQueue svc queue self).1.m_TimeStepFactor = self.m_TimeStepFactor ∧
      (dispatchQueue svc queue self).1.m_TimeStepMode = self.m_TimeStepMode := by
  induction queue generalizing self with
  | nil => exact ⟨rfl, rfl, rfl, rfl⟩
  | cons m rest ih =>
    have hm := Dispatch_keeps_time_step svc self m (hq m (List.mem_cons_self _ _))
    have hrest := ih (Dispatch svc self m).1 (fun x hx => hq x (List.mem_cons_of_mem _ hx))
    simp only [dispatchQueue]
    exact ⟨hrest.1.trans hm.1, hrest.2.1.trans hm.2.1, hrest.2.2.1.trans hm.2.2.1,
      hrest.2.2.2.trans hm.2.2.2⟩

/-- The time-step block of `Run` in discrete mode: the accumulator grows by the warped step;
once it has reached the fixed step it is delivered whole and reset, else nothing is
delivered. -/
theorem frameDT_discrete (engine : Engine) (accumulated_time : Rat)
    (hwarp : engine.m_WarpTimeStep = true)
    (hmode : engine.m_TimeStepMode = TimeStepMode.TIME_STEP_MODE_DISCRETE) :
    frameDT engine accumulated_time =
      if accumulated_time + 1 / 60 * engine.m_TimeStepFactor ≥ 1 / 60 then
        (accumulated_time + 1 / 60 * engine.m_TimeStepFactor, 0)
      else (0, accumulated_time + 1 / 60 * engine.m_TimeStepFactor) := by
  simp only [frameDT, hwarp, if_true, hmode]
  split_ifs
  · congr 1
    ring
  · rfl

theorem Frame_accumulated_time (svc : Services) (st : LoopState) (input : FrameInput)
    (hesc : input.esc = false) :
    (Frame svc st input).1.accumulated_time = (frameDT st.engine st.accumulated_time).2 := by
  simp [Frame, hesc]

theorem frameDT_discrete_sum (engine : Engine) (accumulated_time : Rat)
    (hwarp : engine.m_WarpTimeStep = true)
    (hmode : engine.m_TimeStepMode = TimeStepMode.TIME_STEP_MODE_DISCRETE) :
    (frameDT engine accumulated_time).1 + (frameDT engine accumulated_time).2
        = accumulated_time + 1 / 60 * engine.m_TimeStepFactor ∧
      ((frameDT engine accumulated_time).1 = 0 ∨ 1 / 60 ≤ (frameDT engine accumulated_time).1) := by
  rw [frameDT_discrete engine accumulated_time hwarp hmode]
  split_ifs with h
  · exact ⟨by simp, Or.inr h⟩
  · exact ⟨by simp, Or.inl rfl⟩

/-- The loop of `Run` in discrete mode over passes that see no ESC and dispatch nothing that
ends the loop or sets the time step: every pass runs, and what is delivered to the active
collection plus what is left in the accumulator is what was accumulated. -/
theorem runLoop_discrete (svc : Services) (inputs : List FrameInput) (st : LoopState)
    (halive : st.engine.m_Alive = true) (hwarp : st.engine.m_WarpTimeStep = true)
    (hmode : st.engine.m_TimeStepMode = TimeStepMode.TIME_STEP_MODE_DISCRETE)
    (hin : ∀ i ∈ inputs, i.esc = false ∧ ∀ m ∈ i.messages, m.keepsTimeStep = true) :
    (runLoop svc inputs st).2.length = inputs.length ∧
      (activeSteps (runLoop svc inputs st).2).length = inputs.length ∧
      (activeSteps (runLoop svc inputs st).2).sum + (runLoop svc inputs st).1.accumulated_time
        = st.accumulated_time + inputs.length * st.engine.m_TimeStepFactor * (1 / 60) ∧
      ∀ dt ∈ activeSteps (runLoop svc inputs st).2, dt = 0 ∨ 1 / 60 ≤ dt := by
  induction inputs generalizing st with
  | nil => simp [runLoop, activeSteps]
  | cons input rest ih =>
    obtain ⟨hesc, hmsgs⟩ := hin input (List.mem_cons_self _ _)
    have hkeep := dispatchQueue_keeps_time_step svc input.messages
      { st.engine with m_InputBuffer := input.actions } hmsgs
    rw [← Frame_engine svc st input hesc] at hkeep
    have halive2 : (Frame svc st input).1.engine.m_Alive = true := hkeep.1.trans halive
    have hwarp2 : (Frame svc st input).1.engine.m_WarpTimeStep = true := hkeep.2.1.trans hwarp
    have hmode2 : (Frame svc st input).1.engine.m_TimeStepMode
        = TimeStepMode.TIME_STEP_MODE_DISCRETE := hkeep.2.2.2.trans hmode
    have hfactor : (Frame svc st input).1.engine.m_TimeStepFactor = st.engine.m_TimeStepFactor :=
      hkeep.2.2.1
    obtain ⟨h1, h2, h3, h4⟩ := ih (Frame svc st input).1 halive2 hwarp2 hmode2
      (fun i hi => hin i (List.mem_cons_of_mem _ hi))
    have hacc := Frame_accumulated_time svc st input hesc
    have hsum := frameDT_discrete_sum st.engine st.accumulated_time hwarp hmode
    have hrun : runLoop svc (input :: rest) st
        = ((runLoop svc rest (Frame svc st input).1).1,
            (Frame svc st input).2.1 :: (runLoop svc rest (Frame svc st input).1).2) := by
      simp [runLoop, halive, Frame_break, hesc]
    have hsteps : activeSteps ((Frame svc st input).2.1 :: (runLoop svc rest (Frame svc st input).1).2)
        = (frameDT st.engine st.accumulated_time).1
            :: activeSteps (runLoop svc rest (Frame svc st input).1).2 := by
      simp [activeSteps, Frame_updates svc st input hesc]
    rw [hrun]
    simp only [hsteps, List.length_cons, List.sum_cons, List.mem_cons]
    refine ⟨by rw [h1], by rw [h2], ?_, ?_⟩
    · rw [add_assoc, h3, hacc, hfactor]
      have := hsum.1
      push_cast
      linarith
    · rintro dt (hdt | hdt)
      · rw [hdt]; exact hsum.2
      · exact h4 dt hdt

theorem activeSteps_append (a b : List (List Effect)) :
    activeSteps (a ++ b) = activeSteps a ++ activeSteps b := by
  induction a with
  | nil => rfl
  | cons calls rest ih => simp [activeSteps, ih]

theorem Frame_state (svc : Services) (st : LoopState) (input : FrameInput)
    (hesc : input.esc = false) :
    (Frame svc st input).1 =
      { engine :=
          (dispatchQueue svc input.messages { st.engine with m_InputBuffer := input.actions }).1
        accumulated_time := (frameDT st.engine st.accumulated_time).2 } := by
  simp [Frame, hesc]

theorem Frame_alive (svc : Services) (st : LoopState) (input : FrameInput)
    (halive : st.engine.m_Alive = true) (hesc : input.esc = false)
    (hexit : lastExit input.messages = none) :
    (Frame svc st input).1.engine.m_Alive = true := by
  have hstate := dispatchQueue_exit_state svc input.messages
    { st.engine with m_InputBuffer := input.actions }
  rw [← Frame_engine svc st input hesc, hexit] at hstate
  rw [hstate.1]
  exact halive

/-- A pass of the loop that starts alive and sees no ESC: the loop goes on from the state
the pass leaves, and the pass gives the active collection the step of the frame. -/
theorem runLoop_cons (svc : Services) (input : FrameInput) (rest : List FrameInput)
    (st : LoopState) (halive : st.engine.m_Alive = true) (hesc : input.esc = false) :
    (runLoop svc (input :: rest) st).1 = (runLoop svc rest (Frame svc st input).1).1 ∧
      activeSteps (runLoop svc (input :: rest) st).2
        = (frameDT st.engine st.accumulated_time).1
            :: activeSteps (runLoop svc rest (Frame svc st input).1).2 := by
  have hrun : runLoop svc (input :: rest) st
      = ((runLoop svc rest (Frame svc st input).1).1,
          (Frame svc st input).2.1 :: (runLoop svc rest (Frame svc st input).1).2) := by
    simp [runLoop, halive, Frame_break, hesc]
  rw [hrun]
  exact ⟨rfl, by simp [activeSteps, Frame_updates svc st input hesc]⟩

/-- The loop over passes that neither see ESC nor dispatch an `Exit`, followed by further
passes: the further passes run from the state the first ones leave, which is alive, and
every one of the first passes gives the active collection one step. -/
theorem runLoop_append (svc : Services) (first further : List FrameInput) (st : LoopState)
    (halive : st.engine.m_Alive = true)
    (hfirst : ∀ i ∈ first, i.esc = false ∧ lastExit i.messages = none) :
    (runLoop svc (first ++ further) st).1 = (runLoop svc further (runLoop svc first st).1).1 ∧
      activeSteps (runLoop svc (first ++ further) st).2
        = activeSteps (runLoop svc first st).2
            ++ activeSteps (runLoop svc further (runLoop svc first st).1).2 ∧
      (runLoop svc first st).1.engine.m_Alive = true ∧
      (activeSteps (runLoop svc first st).2).length = first.length := by
  induction first generalizing st with
  | nil => exact ⟨rfl, rfl, halive, rfl⟩
  | cons input rest ih =>
    obtain ⟨hesc, hexit⟩ := hfirst input (List.mem_cons_self _ _)
    have halive2 := Frame_alive svc st input halive hesc hexit
    obtain ⟨h1, h2, h3, h4⟩ := ih (Frame svc st input).1 halive2
      (fun i hi => hfirst i (List.mem_cons_of_mem _ hi))
    have hc := runLoop_cons svc input rest st halive hesc
    have hc2 := runLoop_cons svc input (rest ++ further) st halive hesc
    rw [List.cons_append, hc2.1, hc2.2, hc.1, hc.2, h1, h2]
    refine ⟨rfl, rfl, h3, ?_⟩
    rw [List.length_cons, h4, List.length_cons]

theorem frameDT_not_discrete (engine : Engine) (accumulated_time : Rat)
    (h : engine.discrete = false) : (frameDT engine accumulated_time).2 = accumulated_time := by
  unfold Engine.discrete at h
  unfold frameDT
  cases hw : engine.m_WarpTimeStep with
  | false => simp
  | true =>
    cases hm : engine.m_TimeStepMode with
    | TIME_STEP_MODE_CONTINUOUS => simp
    | TIME_STEP_MODE_DISCRETE => simp [hw, hm] at h

theorem Engine_discrete_iff (engine : Engine) :
    engine.discrete = true ↔
      engine.m_WarpTimeStep = true ∧
        engine.m_TimeStepMode = TimeStepMode.TIME_STEP_MODE_DISCRETE := by
  simp [Engine.discrete]

/-- The accumulator is only touched by passes that start in discrete mode: over passes none
of which starts in discrete mode it keeps its value. -/
theorem runLoop_keeps_accumulator (svc : Services) (passes : List FrameInput) (st : LoopState)
    (halive : st.engine.m_Alive = true)
    (hruns : ∀ i ∈ passes, i.esc = false ∧ lastExit i.messages = none)
    (hidle : ∀ k, k < passes.length →
      (runLoop svc (passes.take k) st).1.engine.discrete = false) :
    (runLoop svc passes st).1.accumulated_time = st.accumulated_time := by
  induction passes generalizing st with
  | nil => rfl
  | cons input rest ih =>
    obtain ⟨hesc, hexit⟩ := hruns input (List.mem_cons_self _ _)
    have halive2 := Frame_alive svc st input halive hesc hexit
    have h0 : st.engine.discrete = false := hidle 0 (by simp)
    have hrest := ih (Frame svc st input).1 halive2
      (fun i hi => hruns i (List.mem_cons_of_mem _ hi))
      (fun k hk => by
        have := hidle (k + 1) (by simpa using hk)
        rw [List.take_succ_cons, (runLoop_cons svc input (rest.take k) st halive hesc).1] at this
        exact this)
    rw [(runLoop_cons svc input rest st halive hesc).1, hrest,
      Frame_accumulated_time svc st input hesc, frameDT_not_discrete _ _ h0]

/-- The loop over passes each of which starts in discrete mode with factor `f`: what the
passes deliver plus what is left in the accumulator is what the accumulator held plus
`f / 60` for every pass, and every pass delivers the grown accumulator whole and resets it
when it has reached 1/60, else delivers 0 and keeps it. -/
theorem runLoop_period (svc : Services) (period : List FrameInput) (st : LoopState) (f : Rat)
    (halive : st.engine.m_Alive = true)
    (hruns : ∀ i ∈ period, i.esc = false ∧ lastExit i.messages = none)
    (hdiscrete : ∀ k, k < period.length →
      (runLoop svc (period.take k) st).1.engine.discrete = true ∧
        (runLoop svc (period.take k) st).1.engine.m_TimeStepFactor = f) :
    (activeSteps (runLoop svc period st).2).sum + (runLoop svc period st).1.accumulated_time
        = st.accumulated_time + period.length * f * (1 / 60) ∧
      (∀ dt ∈ activeSteps (runLoop svc period st).2, dt = 0 ∨ 1 / 60 ≤ dt) ∧
      ∀ k, k < period.length →
        (activeSteps (runLoop svc period st).2).get? k
            = some
              (if (runLoop svc (period.take k) st).1.accumulated_time + f * (1 / 60) ≥ 1 / 60
                then (runLoop svc (period.take k) st).1.accumulated_time + f * (1 / 60)
                else 0) ∧
          (runLoop svc (period.take (k + 1)) st).1.accumulated_time
            = if (runLoop svc (period.take k) st).1.accumulated_time + f * (1 / 60) ≥ 1 / 60
                then 0
                else (runLoop svc (period.take k) st).1.accumulated_time + f * (1 / 60) := by
  induction period generalizing st with
  | nil =>
    refine ⟨by simp [runLoop, activeSteps], by simp [runLoop, activeSteps], ?_⟩
    intro k hk
    simp at hk
  | cons input rest ih =>
    obtain ⟨hesc, hexit⟩ := hruns input (List.mem_cons_self _ _)
    have halive2 := Frame_alive svc st input halive hesc hexit
    obtain ⟨hd0, hf0⟩ := hdiscrete 0 (by simp)
    have hd0 : st.engine.discrete = true := hd0
    have hf0 : st.engine.m_TimeStepFactor = f := hf0
    obtain ⟨hwarp, hmode⟩ := (Engine_discrete_iff st.engine).mp hd0
    have hstep := frameDT_discrete st.engine st.accumulated_time hwarp hmode
    rw [hf0, mul_comm (1 / 60 : Rat) f] at hstep
    have hacc := Frame_accumulated_time svc st input hesc
    have htake : ∀ k, (runLoop svc ((input :: rest).take (k + 1)) st).1
        = (runLoop svc (rest.take k) (Frame svc st input).1).1 := fun k => by
      rw [List.take_succ_cons, (runLoop_cons svc input (rest.take k) st halive hesc).1]
    obtain ⟨h1, h2, h3⟩ := ih (Frame svc st input).1 halive2
      (fun i hi => hruns i (List.mem_cons_of_mem _ hi))
      (fun k hk => by
        have := hdiscrete (k + 1) (by simpa using hk)
        rw [htake k] at this
        exact this)
    have hc := runLoop_cons svc input rest st halive hesc
    rw [hc.1, hc.2]
    refine ⟨?_, ?_, ?_⟩
    · rw [List.sum_cons, add_assoc, h1, hacc, hstep, List.length_cons]
      push_cast
      split_ifs <;> simp only <;> ring
    · intro dt hdt
      rcases List.mem_cons.mp hdt with h | h
      · rw [h, hstep]
        split_ifs with hge
        · exact Or.inr hge
        · exact Or.inl rfl
      · exact h2 dt h
    · intro k hk
      cases k with
      | zero =>
        have hone : (runLoop svc ((input :: rest).take (0 + 1)) st).1.accumulated_time
            = (frameDT st.engine st.accumulated_time).2 := by
          rw [htake 0]
          exact hacc
        have hzero : (runLoop svc ((input :: rest).take 0) st).1 = st := rfl
        rw [hone, hzero, hstep]
        refine ⟨?_, ?_⟩
        · rw [List.get?_cons_zero]
          split_ifs <;> rfl
        · split_ifs <;> rfl
      | succ k =>
        have hk2 : k < rest.length := by simpa using hk
        rw [htake k, htake (k + 1), List.get?_cons_succ]
        exact h3 k hk2

/-- Claim C22 (amended).  In discrete time-step mode with factor `f`, over exact numbers and
with the fixed step 1/60.  Take a run of `Run` from any engine, any passes `before` and then
`n` passes `period`, none seeing ESC or dispatching `Exit`, such that every pass of the period
starts with the engine in discrete mode with factor `f`; the mode may have been set by a
`SetTimeStep` dispatched in an earlier pass of the run.  Every pass gives the active
collection one step; the steps of the period plus the accumulator after it are the
accumulator at its start plus `n * f / 60`; every step of the period is 0 or at least 1/60;
each pass of the period delivers the accumulator grown by `f / 60` whole and resets it when
that has reached 1/60, else delivers 0 and keeps it; and when no pass before the period
started in discrete mode, the accumulator at its start is 0, so the steps of the period plus
the accumulator after it are `n * f / 60`. -/
theorem Run_discrete_period_keeps_time (svc : Services) (engine : Engine)
    (before period : List FrameInput) (f : Rat)
    (hruns : ∀ i ∈ before ++ period, i.esc = false ∧ lastExit i.messages = none)
    (hdiscrete : ∀ k, k < period.length →
      (passStart svc engine (before ++ period.take k)).engine.discrete = true ∧
        (passStart svc engine (before ++ period.take k)).engine.m_TimeStepFactor = f) :
    (activeSteps (Run svc engine (before ++ period)).2).length
        = before.length + period.length ∧
      ((activeSteps (Run svc engine (before ++ period)).2).drop before.length).sum
          + (passStart svc engine (before ++ period)).accumulated_time
        = (passStart svc engine before).accumulated_time + period.length * f * (1 / 60) ∧
      (∀ dt ∈ (activeSteps (Run svc engine (before ++ period)).2).drop before.length,
        dt = 0 ∨ 1 / 60 ≤ dt) ∧
      (∀ k, k < period.length →
        (activeSteps (Run svc engine (before ++ period)).2).get? (before.length + k)
            = some
              (if (passStart svc engine (before ++ period.take k)).accumulated_time
                    + f * (1 / 60) ≥ 1 / 60
                then (passStart svc engine (before ++ period.take k)).accumulated_time
                  + f * (1 / 60)
                else 0) ∧
          (passStart svc engine (before ++ period.take (k + 1))).accumulated_time
            = if (passStart svc engine (before ++ period.take k)).accumulated_time
                  + f * (1 / 60) ≥ 1 / 60
                then 0
                else (passStart svc engine (before ++ period.take k)).accumulated_time
                  + f * (1 / 60)) ∧
      ((∀ k, k < before.length →
          (passStart svc engine (before.take k)).engine.discrete = false) →
        (passStart svc engine before).accumulated_time = 0 ∧
          ((activeSteps (Run svc engine (before ++ period)).2).drop before.length).sum
              + (passStart svc engine (before ++ period)).accumulated_time
            = period.length * f * (1 / 60)) := by
  have hbefore : ∀ i ∈ before, i.esc = false ∧ lastExit i.messages = none :=
    fun i hi => hruns i (List.mem_append_left _ hi)
  have hperiod : ∀ i ∈ period, i.esc = false ∧ lastExit i.messages = none :=
    fun i hi => hruns i (List.mem_append_right _ hi)
  have hsplit : ∀ further : List FrameInput,
      passStart svc engine (before ++ further)
        = (runLoop svc further (passStart svc engine before)).1 := fun further =>
    (runLoop_append svc before further _ rfl hbefore).1
  obtain ⟨_, hsteps, halive, hlen⟩ := runLoop_append svc before period
    { engine := { engine with m_Alive := true, m_ExitCode := 0 }, accumulated_time := 0 } rfl
    hbefore
  obtain ⟨_, _, _, hlen2⟩ := runLoop_append svc period [] (passStart svc engine before) halive
    hperiod
  obtain ⟨h1, h2, h3⟩ := runLoop_period svc period (passStart svc engine before) f halive hperiod
    (fun k hk => by
      have := hdiscrete k hk
      rw [hsplit] at this
      exact this)
  have hrun : activeSteps (Run svc engine (before ++ period)).2
      = activeSteps (runLoop svc before
          { engine := { engine with m_Alive := true, m_ExitCode := 0 },
            accumulated_time := 0 }).2
        ++ activeSteps (runLoop svc period (passStart svc engine before)).2 := hsteps
  have hdrop : (activeSteps (Run svc engine (before ++ period)).2).drop before.length
      = activeSteps (runLoop svc period (passStart svc engine before)).2 := by
    rw [hrun]
    exact List.drop_left' hlen
  have hsum : ((activeSteps (Run svc engine (before ++ period)).2).drop before.length).sum
        + (passStart svc engine (before ++ period)).accumulated_time
      = (passStart svc engine before).accumulated_time + period.length * f * (1 / 60) := by
    rw [hdrop, hsplit]
    exact h1
  refine ⟨?_, hsum, ?_, ?_, ?_⟩
  · rw [hrun, List.length_append, hlen, hlen2]
  · rw [hdrop]
    exact h2
  · intro k hk
    have hk3 := h3 k hk
    rw [hsplit, hsplit]
    refine ⟨?_, hk3.2⟩
    rw [← hk3.1, List.get?_eq_getElem?, List.get?_eq_getElem?, hrun,
      List.getElem?_append_right (by rw [hlen]; exact Nat.le_add_right _ _), hlen,
      Nat.add_sub_cancel_left]
  · intro hidle
    have hzero : (passStart svc engine before).accumulated_time = 0 :=
      runLoop_keeps_accumulator svc before
        { engine := { engine with m_Alive := true, m_ExitCode := 0 }, accumulated_time := 0 }
        rfl hbefore hidle
    refine ⟨hzero, ?_⟩
    rw [hsum, hzero, zero_add]

/-- Claim C22 (amended), at a concrete input: the sample engine, with no warp set as the
constructor leaves it, a first pass that dispatches `SetTimeStep` with factor 1/2 and the
discrete mode, then three passes in that mode. -/
theorem Run_discrete_period_keeps_time_witness :
    (passStart sampleServices sampleEngine enterDiscrete).accumulated_time = 0 ∧
      ((activeSteps (Run sampleServices sampleEngine (enterDiscrete ++ quietPasses)).2).drop
            enterDiscrete.length).sum
          + (passStart sampleServices sampleEngine (enterDiscrete ++ quietPasses)).accumulated_time
        = quietPasses.length * (1 / 2) * (1 / 60) :=
  (Run_discrete_period_keeps_time sampleServices sampleEngine enterDiscrete quietPasses (1 / 2)
    (by decide)
    (fun k hk => by
      have hk3 : k < 3 := hk
      interval_cases k <;> exact ⟨rfl, rfl⟩)).2.2.2.2
    (fun k hk => by
      have hk1 : k < 1 := hk
      interval_cases k
      rfl)

/-- C22 as stated fails for a discrete period entered with a residual.  With the sample
engine (no warp set) and the passes `SetTimeStep(1/2, discrete)`, `reset_time_step`,
`SetTimeStep(1/2, discrete)`, nothing: the steps given to the active collection are
1/60, 0, 1/60, 1/60; the third pass starts without warp, the fourth in discrete mode with
factor 1/2 and the residual 1/120 of the second pass still in the accumulator, so this
period of one pass delivers 1/60 and leaves 0, not `1 * (1/2) * (1/60)`.  With the passes
`SetTimeStep(1/2, discrete)`, `SetTimeStep(1/4, discrete)`, nothing: the steps are 1/60, 0,
0; the third pass starts in discrete mode with factor 1/4 and the residual 1/120, delivers
0 and leaves 1/80, not `1 * (1/4) * (1/60)`. -/
theorem Run_discrete_stale_accumulator :
    (activeSteps (Run sampleServices sampleEngine resetInputs).2 = [1 / 60, 0, 1 / 60, 1 / 60] ∧
        (passStart sampleServices sampleEngine (resetInputs.take 2)).engine.discrete = false ∧
        (passStart sampleServices sampleEngine (resetInputs.take 3)).engine.discrete = true ∧
        (passStart sampleServices sampleEngine (resetInputs.take 3)).engine.m_TimeStepFactor
          = 1 / 2 ∧
        (passStart sampleServices sampleEngine (resetInputs.take 3)).accumulated_time
          = 1 / 120 ∧
        (passStart sampleServices sampleEngine resetInputs).accumulated_time = 0 ∧
        ((activeSteps (Run sampleServices sampleEngine resetInputs).2).drop 3).sum
            + (passStart sampleServices sampleEngine resetInputs).accumulated_time
          ≠ 1 * (1 / 2) * (1 / 60)) ∧
      (activeSteps (Run sampleServices sampleEngine refactorInputs).2 = [1 / 60, 0, 0] ∧
        (passStart sampleServices sampleEngine (refactorInputs.take 2)).engine.discrete = true ∧
        (passStart sampleServices sampleEngine (refactorInputs.take 2)).engine.m_TimeStepFactor
          = 1 / 4 ∧
        (passStart sampleServices sampleEngine (refactorInputs.take 2)).accumulated_time
          = 1 / 120 ∧
        (passStart sampleServices sampleEngine refactorInputs).accumulated_time = 1 / 80 ∧
        ((activeSteps (Run sampleServices sampleEngine refactorInputs).2).drop 2).sum
            + (passStart sampleServices sampleEngine refactorInputs).accumulated_time
          ≠ 1 * (1 / 4) * (1 / 60)) := by
  have hsteps : activeSteps (Run sampleServices sampleEngine resetInputs).2
      = [1 / 60, 0, 1 / 60, 1 / 60] := by
    simp [Run, runLoop, Frame, frameDT, dispatchQueue, Dispatch, activeSteps, updates,
      Effect.update?, resetInputs, sampleEngine, sampleServices]
    norm_num
  have hmid : (passStart sampleServices sampleEngine (resetInputs.take 3)).accumulated_time
      = 1 / 120 := by
    simp [passStart, runLoop, Frame, frameDT, dispatchQueue, Dispatch, resetInputs,
      sampleEngine, sampleServices]
    norm_num
  have hend : (passStart sampleServices sampleEngine resetInputs).accumulated_time = 0 := by
    simp [passStart, runLoop, Frame, frameDT, dispatchQueue, Dispatch, resetInputs,
      sampleEngine, sampleServices]
    norm_num
  have hsteps2 : activeSteps (Run sampleServices sampleEngine refactorInputs).2
      = [1 / 60, 0, 0] := by
    simp [Run, runLoop, Frame, frameDT, dispatchQueue, Dispatch, activeSteps, updates,
      Effect.update?, refactorInputs, sampleEngine]
    norm_num
  have hmid2 : (passStart sampleServices sampleEngine (refactorInputs.take 2)).accumulated_time
      = 1 / 120 := by
    simp [passStart, runLoop, Frame, frameDT, dispatchQueue, Dispatch, refactorInputs,
      sampleEngine]
    norm_num
  have hend2 : (passStart sampleServices sampleEngine refactorInputs).accumulated_time
      = 1 / 80 := by
    simp [passStart, runLoop, Frame, frameDT, dispatchQueue, Dispatch, refactorInputs,
      sampleEngine]
    norm_num
  refine ⟨⟨hsteps, rfl, rfl, rfl, hmid, hend, ?_⟩, ⟨hsteps2, rfl, rfl, hmid2, hend2, ?_⟩⟩
  · rw [hsteps, hend]
    norm_num
  · rw [hsteps2, hend2]
    norm_num

/-! ## The reply to a transform query -/

/-- Claim C21.  For every query whose instance is found, `Dispatch` hands to `dmMessage::Post`
a reply that addresses the whole instance, holds the offset
`sizeof(GameObjectTransformResult)` and has the first 8 characters of the id as its tail, with
the byte count `INSTANCE_MESSAGE_MAX`, which is not the size of the buffer.  On the sample
engine, where `InstanceMessageData` takes 32 bytes, `GameObjectTransformResult` 48 and
`INSTANCE_MESSAGE_MAX` is 256: the reply to a query for the instance with id `A` is built in
a buffer of 89 bytes, but 256 bytes are handed to `dmMessage::Post`. -/
theorem Dispatch_posts_more_than_the_buffer :
    (∀ (svc : Services) (self : Engine) (m_Instance : HInstance) (m_GameObjectId : String),
      (Dispatch svc self (Message.GameObjectTransformQuery m_Instance m_GameObjectId)).2 =
        if (findInstance svc self (svc.sscanf_X m_GameObjectId)).1 ≠ 0 then
          [Effect.Post svc.GetReplyMessageSocketId svc.GetMessageId
            { m_MessageId := svc.dmHashString32 svc.transformResultScriptName
              m_Instance := m_Instance
              m_Component := 255
              m_GameObjectId := svc.sizeof_GameObjectTransformResult
              m_Position := svc.GetPosition (findInstance svc self (svc.sscanf_X m_GameObjectId)).1
              m_Rotation := svc.GetRotation (findInstance svc self (svc.sscanf_X m_GameObjectId)).1
              tail := String.mk (m_GameObjectId.data.take 8) }
            svc.INSTANCE_MESSAGE_MAX]
        else [Effect.LogWarning "Could not find instance with id %d (%s)."]) ∧
      Dispatch sampleServices sampleEngine (Message.GameObjectTransformQuery 7 "A")
        = (sampleEngine,
            [Effect.Post 2 3
              { m_MessageId := sampleServices.dmHashString32 "transform_result", m_Instance := 7,
                m_Component := 255, m_GameObjectId := 48, m_Position := 11, m_Rotation := 11,
                tail := "A" }
              256]) ∧
      replyBufferSize sampleServices = 89 ∧ ¬ (256 ≤ replyBufferSize sampleServices) := by
  refine ⟨fun svc self m_Instance m_GameObjectId => ?_, rfl, rfl, by decide⟩
  simp only [Dispatch]
  split_ifs <;> rfl

end dmEngine
